import Mathlib

/-!
# sundersb/datetime : the calendar conversion engine

A shallow embedding of `date.h` / `date.cpp` and of the checks of the test unit
`datetime.cpp`, followed by the theorems about the embedding.

* C++ `/` and `%` on integers truncate toward zero: `Int.tdiv` and `Int.tmod`.
* `int` values are integers of the 32-bit range and `long long` values integers
  of the 64-bit range. Where a result of `int` arithmetic can leave the 32-bit
  range it wraps modulo `2^32` (`wrap32`), where a result of `long long`
  arithmetic can leave the 64-bit range it wraps modulo `2^64` (`wrap64`); the
  places where no wrap is written cannot overflow for operands of these
  ranges. `time_t` is a 64-bit signed integer.
* A read outside an array, or of a member that was never written, has no
  defined result: the functions that can do it return `Option`, `none` being
  that case.
-/

namespace DT

/-! ## Constants and tables (date.cpp, lines 9-31) -/

def TM_START_YEAR : Int := 1900

def TIME_MULTIPLIER : Int := 1000

def MONTH_COUNT : Int := 12

def SECS_IN_MINUTE : Int := 60

def SECS_IN_HOUR : Int := SECS_IN_MINUTE * 60

def SECS_IN_DAY : Int := SECS_IN_HOUR * 24

def MILLISECS_IN_DAY : Int := SECS_IN_DAY * TIME_MULTIPLIER

def TIME_T_ZERO : Int := 62167132800000

def LLONG_MIN : Int := -9223372036854775808

def MONTH_LENGTHS : List Int := [31, 28, 31, 30, 31, 30, 31, 31, 30, 31, 30, 31]

def MONTH_LENGTHS_LEAP : List Int := [31, 29, 31, 30, 31, 30, 31, 31, 30, 31, 30, 31]

def MONTH_STARTS : List Int := [0, 31, 59, 90, 120, 151, 181, 212, 243, 273, 304, 334, 365]

def MONTH_STARTS_LEAP : List Int := [-1, 30, 59, 90, 120, 151, 181, 212, 243, 273, 304, 334, 365]

/-- Two's complement wrap-around of a `long long` result. -/
def wrap64 (x : Int) : Int := (x + 9223372036854775808) % 18446744073709551616 - 9223372036854775808

/-- Two's complement wrap-around of a value narrowed to `int`. -/
def wrap32 (x : Int) : Int := (x + 2147483648) % 4294967296 - 2147483648

/-- Array read `table[i]`; `none` outside the array. -/
def tableAt (table : List Int) (i : Int) : Option Int :=
  if i < 0 then none else table[i.toNat]?

/-- Function `isLeap` (date.cpp, line 59). -/
def isLeap (year : Int) : Bool :=
  (Int.tmod year 4 == 0) && ((Int.tmod year 100 != 0) || (Int.tmod year 400 == 0))

/-- Function `getLeapDays` (date.cpp, line 67). -/
def getLeapDays (years : Int) : Int :=
  Int.tdiv years 4 - Int.tdiv years 100 + Int.tdiv years 400

/-! ## class STime -/

/-- The members of `class STime` (date.cpp, lines 75-83). -/
structure STime where
  year : Int
  month : Int
  day : Int
  hour : Int
  minute : Int
  second : Int
  millisecond : Int
  valid : Bool
deriving DecidableEq

/-- Search loop of `STime::setYearsDay` (date.cpp, lines 231-237):
`for (i = 1; i < 13; i++) if (yearDay <= monthTable[i]) { month = i-1; day = ...; break; }`.
The first argument counts the iterations that are left. The result is the
pair (month, day) written by the loop, `none` when no iteration writes them. -/
def findMonth (monthTable : List Int) (yearDay : Int) : Nat → Nat → Option (Int × Int)
  | 0, _ => none
  | n + 1, i =>
    match monthTable[i]? with
    | none => none
    | some hi =>
      if yearDay ≤ hi then
        match monthTable[i - 1]? with
        | none => none
        | some lo => some ((i : Int) - 1, yearDay - lo + 1)
      else findMonth monthTable yearDay n (i + 1)

/-- Method `STime::setYearsDay` (date.cpp, lines 230-248). Members `month` and `day`
of the receiver are not yet written when it is called (the constructor from
`long long` initialises only `valid`), so they are produced here and the
result is `none` when the search loop leaves them unwritten. -/
def STime.setYearsDay (s : STime) (monthTable lengths : List Int) (yearDay : Int) :
    Option STime :=
  match findMonth monthTable yearDay 12 1 with
  | none => none
  | some (month, day) =>
    match tableAt lengths month with
    | none => none
    | some len =>
      if day > len then
        let month := month + 1
        if month > 11 then
          some { s with year := s.year + 1, month := 0, day := 1 }
        else
          some { s with month := month, day := 1 }
      else
        some { s with month := month, day := day }

/-- Loop `while (days < 0) { year--; leap = getLeapDays(year); days = ...; }`
(date.cpp, lines 210-214) on the state (year, days). The first argument bounds the
number of iterations; `yearDown_spec` shows that the bound used by the
constructor is never reached. -/
def yearDown (time : Int) : Nat → Int × Int → Int × Int
  | 0, s => s
  | n + 1, (year, days) =>
    if days < 0 then
      let year := year - 1
      let leap := getLeapDays year
      yearDown time n (year, time - year * 365 - leap)
    else (year, days)

/-- Loop `while (days > 365) { year++; leap = getLeapDays(year); days = ...; }`
(date.cpp, lines 217-221) on the state (year, days); see `yearUp_spec`. -/
def yearUp (time : Int) : Nat → Int × Int → Int × Int
  | 0, s => s
  | n + 1, (year, days) =>
    if days > 365 then
      let year := year + 1
      let leap := getLeapDays year
      yearUp time n (year, time - year * 365 - leap)
    else (year, days)

/-- First estimate of the year in `STime::STime(long long)` (date.cpp, lines 199-200):
`year = time / 365; year -= getLeapDays(year) / 365;` for the day count `time`. -/
def yearEstimate (time : Int) : Int :=
  let year := Int.tdiv time 365
  year - Int.tdiv (getLeapDays year) 365

/-- Year refinement of `STime::STime(long long)` (date.cpp, lines 199-221) for the
day count `time`: the estimate followed by the two `while` loops; the result
is the final (year, days). Each iteration of the first loop raises `days` by
at least 364 and each iteration of the second lowers it by at least 364, so
`-days` and `days` bound the iteration counts. -/
def refineYear (time : Int) : Int × Int :=
  let year := yearEstimate time
  let leap := getLeapDays year
  let days := time - year * 365 - leap
  let down := yearDown time (-days).toNat (year, days)
  yearUp time down.2.toNat down

/-- Constructor `STime::STime(long long time)` (date.cpp, lines 180-228). -/
def STime.ofLongLong (time : Int) : Option STime :=
  let millisecond := Int.tmod time TIME_MULTIPLIER
  let time := Int.tdiv time TIME_MULTIPLIER
  let second := Int.tmod time SECS_IN_DAY
  let hour := Int.tdiv second SECS_IN_HOUR
  let second := Int.tmod second SECS_IN_HOUR
  let minute := Int.tdiv second SECS_IN_MINUTE
  let second := Int.tmod second SECS_IN_MINUTE
  let time := Int.tdiv time SECS_IN_DAY
  let yd := refineYear time
  let s : STime :=
    { year := yd.1, month := 0, day := 0, hour := hour, minute := minute,
      second := second, millisecond := millisecond, valid := true }
  if isLeap yd.1 then
    s.setYearsDay MONTH_STARTS_LEAP MONTH_LENGTHS_LEAP yd.2
  else
    s.setYearsDay MONTH_STARTS MONTH_LENGTHS yd.2

/-- Method `STime::get` (date.cpp, lines 250-278). The day count is computed in
`int` and widened to `long long`; the products `hour * SECS_IN_HOUR` and
`minute * SECS_IN_MINUTE` are `int` products. The method also stores the
renormalised year and month in the receiver; every caller discards the
receiver afterwards, so only the returned counter is modelled. -/
def STime.get (s : STime) : Option Int :=
  if !s.valid then some LLONG_MIN
  else
    let year := wrap32 (s.year + Int.tdiv s.month MONTH_COUNT)
    let month := Int.tmod s.month MONTH_COUNT
    match (if isLeap year then tableAt MONTH_STARTS_LEAP month
           else tableAt MONTH_STARTS month) with
    | none => none
    | some mdays =>
      let result := wrap32 (year * 365 + getLeapDays year + mdays + s.day - 1)
      let result := wrap64 (result * SECS_IN_DAY)
      let result := wrap64 (result + wrap32 (s.hour * SECS_IN_HOUR))
      let result := wrap64 (result + wrap32 (s.minute * SECS_IN_MINUTE))
      let result := wrap64 (result + s.second)
      let result := wrap64 (result * TIME_MULTIPLIER)
      let result := wrap64 (result + s.millisecond)
      some result

/-- Method `STime::dayOfYear` (date.cpp, lines 302-307). -/
def STime.dayOfYear (s : STime) : Option Int :=
  if isLeap s.year then
    (tableAt MONTH_STARTS_LEAP s.month).map (· + s.day)
  else
    (tableAt MONTH_STARTS s.month).map (· + s.day)



/-- Length of a month of a year, read from the tables of date.cpp:
`MONTH_LENGTHS_LEAP[month]` in a leap year, `MONTH_LENGTHS[month]` otherwise. -/
def monthLength (year month : Int) : Option Int :=
  if isLeap year then tableAt MONTH_LENGTHS_LEAP month else tableAt MONTH_LENGTHS month

/-- The data-model invariant of the broken-down fields on the supported range:
year 1..9999, month 0..11, day from 1 to the leap-adjusted length of the
month, hour 0..23, minute 0..59, second 0..59, millisecond 0..999, marked
valid. -/
def STime.isCalendar (s : STime) : Prop :=
  s.valid = true ∧ 1 ≤ s.year ∧ s.year ≤ 9999 ∧ 0 ≤ s.month ∧ s.month ≤ 11 ∧ 1 ≤ s.day ∧
  (∃ len, monthLength s.year s.month = some len ∧ s.day ≤ len) ∧
  0 ≤ s.hour ∧ s.hour ≤ 23 ∧ 0 ≤ s.minute ∧ s.minute ≤ 59 ∧
  0 ≤ s.second ∧ s.second ≤ 59 ∧ 0 ≤ s.millisecond ∧ s.millisecond ≤ 999



/-! ## Text input and output (`istringstream`, `ostringstream`) -/

/-- The state of a `std::istringstream`: the characters not yet read and the
`eofbit` and `failbit` flags. -/
structure IStream where
  rest : List Char
  eof : Bool
  fail : Bool
deriving DecidableEq

/-- Whitespace of the classic locale (`isspace`). -/
def isSpace (c : Char) : Bool :=
  c == ' ' || c == '\t' || c == '\n' || c == '\x0b' || c == '\x0c' || c == '\r'

/-- Decimal digit test (`isdigit`). -/
def isDigit (c : Char) : Bool := '0' ≤ c && c ≤ '9'

/-- Value of a run of decimal digits that follows the value `acc`. -/
def digitsValue (acc : Nat) : List Char → Nat
  | [] => acc
  | c :: cs => digitsValue (acc * 10 + (c.toNat - '0'.toNat)) cs

/-- The sentry of a formatted input operation: it fails on a stream that is
not `good()`, otherwise it skips whitespace and fails with `eofbit` when no
character is left. The second component tells whether the operation may go
on; the stream carries the new flags. -/
def IStream.sentry (st : IStream) : IStream × Bool :=
  if st.eof || st.fail then ({ st with fail := true }, false)
  else
    let rest := st.rest.dropWhile isSpace
    if rest.isEmpty then ({ rest := rest, eof := true, fail := true }, false)
    else ({ st with rest := rest }, true)

/-- Formatted input of a `char`, `str >> dummy`. -/
def IStream.readChar (st : IStream) : IStream :=
  match st.sentry with
  | (st, false) => st
  | (st, true) => { st with rest := st.rest.drop 1 }

/-- Formatted input of an `int`, `str >> x`, where `old` is the value of `x`
before the operation; the result carries the value of `x` after it. An
optional sign and the decimal digits that follow are consumed; `eofbit` is set
when the digits reach the end of the text; without a digit the operation fails
and stores 0; a value outside the range of `int` fails and stores the nearest
bound. -/
def IStream.readInt (st : IStream) (old : Int) : IStream × Int :=
  match st.sentry with
  | (st, false) => (st, old)
  | (st, true) =>
    let negative := st.rest.head? == some '-'
    let signed := st.rest.head? == some '-' || st.rest.head? == some '+'
    let body := if signed then st.rest.drop 1 else st.rest
    let digits := body.takeWhile isDigit
    let rest := body.dropWhile isDigit
    let st : IStream := { st with rest := rest, eof := rest.isEmpty }
    if digits.isEmpty then ({ st with fail := true }, 0)
    else
      let value : Int := if negative then -(digitsValue 0 digits : Int) else digitsValue 0 digits
      if value > 2147483647 then ({ st with fail := true }, 2147483647)
      else if value < -2147483648 then ({ st with fail := true }, -2147483648)
      else (st, value)

/-- Constructor `STime::STime(const string &value)` (date.cpp, lines 151-178). -/
def STime.ofString (value : String) : STime :=
  let str : IStream := { rest := value.toList, eof := false, fail := false }
  let (str, year) := str.readInt 0
  let valid := !str.fail
  let (str, month) := str.readChar.readInt 0
  let valid := valid && !str.fail
  let (str, day) := str.readChar.readInt 0
  let valid := valid && !str.fail
  if !str.eof then
    let (str, hour) := str.readInt 0
    let (str, minute) := if str.fail then (str, 0) else str.readChar.readInt 0
    let (str, second) := if str.fail then (str, 0) else str.readChar.readInt 0
    let valid := if str.fail then false else valid
    let (_, millisecond) := str.readChar.readInt 0
    { year := year, month := wrap32 (month - 1), day := day, hour := hour, minute := minute,
      second := second, millisecond := millisecond, valid := valid }
  else
    { year := year, month := wrap32 (month - 1), day := day, hour := 0, minute := 0,
      second := 0, millisecond := 0, valid := valid }

/-- Decimal text of an `int` as `operator<<` writes it. -/
def showInt (i : Int) : List Char :=
  if i < 0 then '-' :: Nat.toDigits 10 i.natAbs else Nat.toDigits 10 i.natAbs

/-- Output of an `int` after `setfill('0')` and `setw(width)`: the text is
padded on the left with the fill character up to the width. -/
def showIntW (width : Nat) (i : Int) : List Char :=
  List.replicate (width - (showInt i).length) '0' ++ showInt i

/-- Method `STime::formatDate` (date.cpp, lines 280-286). -/
def STime.formatDate (s : STime) : String :=
  String.mk (showInt s.year ++ '-' :: showIntW 2 (wrap32 (s.month + 1)) ++ '-' :: showIntW 2 s.day)

/-- Method `STime::formatDateTime` (date.cpp, lines 288-300). -/
def STime.formatDateTime (s : STime) : String :=
  String.mk (showInt s.year ++ '-' :: showIntW 2 (wrap32 (s.month + 1)) ++ '-' :: showIntW 2 s.day
    ++ ' ' :: showIntW 2 s.hour ++ ':' :: showIntW 2 s.minute ++ ':' :: showIntW 2 s.second
    ++ (if s.millisecond != 0 then '.' :: showIntW 3 s.millisecond else []))

/-! ## class DateTime -/

/-- The member of `class DateTime` (date.h, line 16). -/
structure DateTime where
  m_time : Int
deriving DecidableEq

/-- Default constructor `DateTime::DateTime()` (date.cpp, lines 330-333). -/
def DateTime.new : DateTime := { m_time := LLONG_MIN }

/-- Method `DateTime::isValid` (date.cpp, lines 355-357). -/
def DateTime.isValid (d : DateTime) : Bool := d.m_time != LLONG_MIN

/-- Method `DateTime::getRaw` (date.cpp, lines 359-361). -/
def DateTime.getRaw (d : DateTime) : Int := d.m_time

/-- Method `DateTime::set(const std::string&)` (date.cpp, lines 392-395), also the
constructor from a string. -/
def DateTime.set_string (value : String) : Option DateTime :=
  (STime.ofString value).get.map DateTime.mk

/-- Method `DateTime::set(const time_t&)` (date.cpp, lines 397-403), also the
constructor from a `time_t`. -/
def DateTime.set_time_t (time : Int) : DateTime :=
  if time > 0 then { m_time := wrap64 (wrap64 (time * TIME_MULTIPLIER) + TIME_T_ZERO) }
  else { m_time := LLONG_MIN }

/-- Method `DateTime::asUnixTime` (date.cpp, lines 385-390). -/
def DateTime.asUnixTime (d : DateTime) : Int :=
  if d.m_time == LLONG_MIN then -1
  else
    let result := Int.tdiv (wrap64 (d.m_time - TIME_T_ZERO)) TIME_MULTIPLIER
    if result < 0 then -1 else result

/-- Method `DateTime::formatDate` (date.cpp, lines 373-377). -/
def DateTime.formatDate (d : DateTime) : Option String :=
  if d.m_time == LLONG_MIN then some ""
  else (STime.ofLongLong d.m_time).map STime.formatDate

/-- Method `DateTime::formatDateTime` (date.cpp, lines 379-383). -/
def DateTime.formatDateTime (d : DateTime) : Option String :=
  if d.m_time == LLONG_MIN then some ""
  else (STime.ofLongLong d.m_time).map STime.formatDateTime

/-- Method `DateTime::incDay` (date.cpp, lines 428-432). -/
def DateTime.incDay (d : DateTime) (days : Int) : DateTime :=
  if d.m_time != LLONG_MIN then { m_time := wrap64 (d.m_time + wrap64 (days * MILLISECS_IN_DAY)) }
  else d

/-- Method `DateTime::getWeekDay` (date.cpp, lines 452-457). -/
def DateTime.getWeekDay (d : DateTime) : Int :=
  if d.m_time != LLONG_MIN then Int.tmod (Int.tdiv d.m_time MILLISECS_IN_DAY + 6) 7
  else -1

/-- Method `DateTime::getDayOfYear` (date.cpp, lines 459-463). -/
def DateTime.getDayOfYear (d : DateTime) : Option Int :=
  if d.m_time == LLONG_MIN then some (-1)
  else (STime.ofLongLong d.m_time).bind STime.dayOfYear

/-- Method `DateTime::daysBetween` (date.cpp, lines 465-470). -/
def DateTime.daysBetween (date1 date2 : DateTime) : Int :=
  if date1.m_time == LLONG_MIN || date2.m_time == LLONG_MIN then -1
  else
    let diff := wrap64 (date1.m_time - date2.m_time)
    let diff := if diff < 0 then wrap64 (-diff) else diff
    wrap32 (Int.tdiv diff MILLISECS_IN_DAY)

/-- Comparison `operator ==` (date.h, lines 202-204). -/
def DateTime.eq (date1 date2 : DateTime) : Bool := date1.m_time == date2.m_time

/-- Comparison `operator <` (date.h, lines 206-208). -/
def DateTime.lt (date1 date2 : DateTime) : Bool := decide (date1.m_time < date2.m_time)

/-- Comparison `operator !=` (date.h, lines 210-212). -/
def DateTime.ne (date1 date2 : DateTime) : Bool := !(DateTime.eq date1 date2)

/-- Comparison `operator <=` (date.h, lines 214-216). -/
def DateTime.le (date1 date2 : DateTime) : Bool :=
  DateTime.lt date1 date2 || DateTime.eq date1 date2

/-- Comparison `operator >` (date.h, lines 218-220). -/
def DateTime.gt (date1 date2 : DateTime) : Bool := !(DateTime.le date1 date2)

/-- Comparison `operator >=` (date.h, lines 222-224). -/
def DateTime.ge (date1 date2 : DateTime) : Bool := !(DateTime.lt date1 date2)



/-! ## The test unit (datetime.cpp) -/

/-- Function `checkDate` of the test unit (datetime.cpp, lines 35-46): the text
`YYYY-MM-29 21:12:15` is parsed and formatted again; the result tells whether
the text came back unchanged. -/
def checkDate (year month : Int) : Option Bool :=
  let sample := String.mk (showInt year ++ '-' :: showIntW 2 month ++ "-29 21:12:15".toList)
  ((DateTime.set_string sample).bind DateTime.formatDateTime).map (fun out => !(sample != out))

/-- Parsing a text and formatting the value again, `DateTime(s).formatDateTime()`. -/
def reformat (s : String) : Option String :=
  (DateTime.set_string s).bind DateTime.formatDateTime



/-! ## The calendar, counted day by day

Reference definitions in the words of the specification: the proleptic
Gregorian calendar, the elapsed time since the start of 1 January of year 1
and the 1-based day of the year. They are what the closed forms of the source
are compared with. -/

/-- Number of days of the years 1..n: 365 for each year and one more for each
leap year. -/
def daysOfYears : Nat → Int
  | 0 => 0
  | n + 1 => daysOfYears n + (if isLeap ((n : Int) + 1) then 366 else 365)

/-- Number of days of the first `month` months of `year`: the sum of their
leap-adjusted lengths. -/
def daysOfMonths (year : Int) (month : Nat) : Int :=
  ((if isLeap year then MONTH_LENGTHS_LEAP else MONTH_LENGTHS).take month).sum

/-- Milliseconds elapsed from 0001-01-01 00:00:00.000 to the date-time that the
fields name. -/
def elapsedMillis (s : STime) : Int :=
  ((((daysOfYears (s.year - 1).toNat + daysOfMonths s.year s.month.toNat + (s.day - 1)) * 24
    + s.hour) * 60 + s.minute) * 60 + s.second) * 1000 + s.millisecond

/-- Day of the year, 1-based: the count of the days of the year up to and
including the date. -/
def dayNumber (s : STime) : Int :=
  daysOfMonths s.year s.month.toNat + s.day

/-- A value of the supported range: its counter is the counter of a date-time
of the calendar of years 1..9999. -/
def DateTime.inRange (x : DateTime) : Prop :=
  ∃ s : STime, s.isCalendar ∧ s.get = some x.m_time


/-! ## Month and year arithmetic, broken-down time input, differences -/

/-- Method `STime::incMonth` (date.cpp, line 101): `month += months`. -/
def STime.incMonth (s : STime) (months : Int) : STime :=
  { s with month := wrap32 (s.month + months) }

/-- Method `STime::incYear` (date.cpp, line 104): `year += years`. -/
def STime.incYear (s : STime) (years : Int) : STime :=
  { s with year := wrap32 (s.year + years) }

/-- Method `STime::monthsAfter` (date.cpp, lines 309-327); `frm` is the parameter
`from`. All the arithmetic is `int` arithmetic; wrapping every intermediate
result modulo `2^32` gives the same value as wrapping the whole expression,
which is what is written. -/
def STime.monthsAfter (s frm : STime) : Int :=
  let result := wrap32 ((s.year - frm.year) * MONTH_COUNT)
  let result := wrap32 (result - (frm.month - s.month))
  if s.day < frm.day then wrap32 (result - 1)
  else
    let time := wrap32 ((s.hour * SECS_IN_HOUR + s.minute * SECS_IN_MINUTE + s.second)
      * TIME_MULTIPLIER + s.millisecond)
    let ftime := wrap32 ((frm.hour * SECS_IN_HOUR + frm.minute * SECS_IN_MINUTE + frm.second)
      * TIME_MULTIPLIER + frm.millisecond)
    if s.day == frm.day && decide (ftime > time) then wrap32 (result - 1)
    else result

/-- The members of `struct tm` that `STime::STime(const tm*)` reads. -/
structure Tm where
  tm_sec : Int
  tm_min : Int
  tm_hour : Int
  tm_mday : Int
  tm_mon : Int
  tm_year : Int
deriving DecidableEq

/-- Constructor `STime::STime(const tm *time)` (date.cpp, lines 128-149); the null
pointer is `none`. The conjunction that gives `valid` is evaluated from the
left, so `MONTH_LENGTHS[month]` is read only when `year >= TM_START_YEAR` and
`day > 0` hold; the result is `none` when that read is outside the table. -/
def STime.ofTm : Option Tm → Option STime
  | none =>
    some { year := 0, month := 0, day := 0, hour := 0, minute := 0, second := 0,
           millisecond := 0, valid := false }
  | some time =>
    let year := wrap32 (time.tm_year + TM_START_YEAR)
    let s : STime :=
      { year := year, month := time.tm_mon, day := time.tm_mday, hour := time.tm_hour,
        minute := time.tm_min, second := time.tm_sec, millisecond := 0, valid := false }
    if decide (year ≥ TM_START_YEAR) && decide (s.day > 0) then
      match tableAt MONTH_LENGTHS s.month with
      | none => none
      | some len =>
        some { s with valid := decide (s.day ≤ len) && decide (s.hour ≥ 0)
                                 && decide (s.minute ≥ 0) && decide (s.second ≥ 0) }
    else some s

/-- Method `DateTime::set(const tm*)` (date.cpp, lines 405-408), also the
constructor from a `tm` pointer. -/
def DateTime.set_tm (time : Option Tm) : Option DateTime :=
  (STime.ofTm time).bind (fun t => t.get.map DateTime.mk)

/-- Method `DateTime::toUTC` (date.cpp, lines 363-366). Function `getTimezone`
(date.cpp, lines 35-55) asks the clock and the time zone of the machine; its
result is the parameter `tz`. -/
def DateTime.toUTC (d : DateTime) (tz : Int) : DateTime :=
  if d.m_time != LLONG_MIN then { m_time := wrap64 (d.m_time + tz) } else d

/-- Method `DateTime::fromUTC` (date.cpp, lines 368-371); `tz` is the result of
`getTimezone`. -/
def DateTime.fromUTC (d : DateTime) (tz : Int) : DateTime :=
  if d.m_time != LLONG_MIN then { m_time := wrap64 (d.m_time - tz) } else d

/-- Method `DateTime::incSecond` (date.cpp, lines 410-414). -/
def DateTime.incSecond (d : DateTime) (seconds : Int) : DateTime :=
  if d.m_time != LLONG_MIN then
    { m_time := wrap64 (d.m_time + wrap64 (seconds * TIME_MULTIPLIER)) }
  else d

/-- Method `DateTime::incMinute` (date.cpp, lines 416-420). -/
def DateTime.incMinute (d : DateTime) (minutes : Int) : DateTime :=
  if d.m_time != LLONG_MIN then
    { m_time := wrap64 (d.m_time + wrap64 (wrap64 (minutes * SECS_IN_MINUTE) * TIME_MULTIPLIER)) }
  else d

/-- Method `DateTime::incHour` (date.cpp, lines 422-426). -/
def DateTime.incHour (d : DateTime) (hours : Int) : DateTime :=
  if d.m_time != LLONG_MIN then
    { m_time := wrap64 (d.m_time + wrap64 (wrap64 (hours * SECS_IN_HOUR) * TIME_MULTIPLIER)) }
  else d

/-- Method `DateTime::incMonth` (date.cpp, lines 434-441). -/
def DateTime.incMonth (d : DateTime) (months : Int) : Option DateTime :=
  if d.m_time != LLONG_MIN then
    (STime.ofLongLong d.m_time).bind (fun time => (time.incMonth months).get.map DateTime.mk)
  else some d

/-- Method `DateTime::incYear` (date.cpp, lines 443-450). -/
def DateTime.incYear (d : DateTime) (years : Int) : Option DateTime :=
  if d.m_time != LLONG_MIN then
    (STime.ofLongLong d.m_time).bind (fun time => (time.incYear years).get.map DateTime.mk)
  else some d

/-- Method `DateTime::monthsBetween` (date.cpp, lines 472-483). -/
def DateTime.monthsBetween (date1 date2 : DateTime) : Option Int :=
  if date1.m_time == LLONG_MIN || date2.m_time == LLONG_MIN then some (-1)
  else if DateTime.eq date1 date2 then some 0
  else
    match STime.ofLongLong date1.m_time, STime.ofLongLong date2.m_time with
    | some d1, some d2 =>
      if DateTime.lt date1 date2 then some (d2.monthsAfter d1) else some (d1.monthsAfter d2)
    | _, _ => none

/-- Method `DateTime::yearsBetween` (date.cpp, lines 485-491). -/
def DateTime.yearsBetween (date1 date2 : DateTime) : Option Int :=
  (DateTime.monthsBetween date1 date2).map
    (fun months => if months ≤ 0 then months else Int.tdiv months MONTH_COUNT)

/-- Number of iterations that the loop `while (days < 0)` of
`STime::STime(long long)` performs from the state (year, days): `yearDown`
with a counter in place of the state. -/
def yearDownSteps (time : Int) : Nat → Int × Int → Nat
  | 0, _ => 0
  | n + 1, (year, days) =>
    if days < 0 then
      let year := year - 1
      let leap := getLeapDays year
      yearDownSteps time n (year, time - year * 365 - leap) + 1
    else 0

/-- Number of iterations that the loop `while (days > 365)` of
`STime::STime(long long)` performs from the state (year, days): `yearUp` with
a counter in place of the state. -/
def yearUpSteps (time : Int) : Nat → Int × Int → Nat
  | 0, _ => 0
  | n + 1, (year, days) =>
    if days > 365 then
      let year := year + 1
      let leap := getLeapDays year
      yearUpSteps time n (year, time - year * 365 - leap) + 1
    else 0

/-- Number of iterations of the two `while` loops of `STime::STime(long long)`
together, for the day count `time`; the loops start as in `refineYear`. -/
def refineYearSteps (time : Int) : Nat :=
  let year := yearEstimate time
  let leap := getLeapDays year
  let days := time - year * 365 - leap
  let down := yearDown time (-days).toNat (year, days)
  yearDownSteps time (-days).toNat (year, days) + yearUpSteps time down.2.toNat down

/-- The day count of a counter, as `STime::STime(long long)` computes it
(date.cpp, lines 181-195): `time /= TIME_MULTIPLIER; ...; time /= SECS_IN_DAY`. -/
def dayCount (time : Int) : Int :=
  Int.tdiv (Int.tdiv time TIME_MULTIPLIER) SECS_IN_DAY

/-! ## The calendar, in the words of the specification (continued) -/

/-- Time of day of the fields, in milliseconds. -/
def timeOfDay (s : STime) : Int :=
  ((s.hour * 60 + s.minute) * 60 + s.second) * 1000 + s.millisecond

/-- Count of complete months from the date-time `b` to the later date-time `a`:
the difference of `year * 12 + month`, less one when the day of `a` is before
the day of `b`, or the days are equal and the time of day of `a` is earlier. -/
def completeMonths (a b : STime) : Int :=
  (a.year - b.year) * 12 + (a.month - b.month)
    - (if a.day < b.day ∨ (a.day = b.day ∧ timeOfDay a < timeOfDay b) then 1 else 0)

/-- The same time of day on the calendar day that follows the date of `s`: the
next day of the month when there is one, otherwise day 1 of the next month,
otherwise 1 January of the next year. -/
def nextDay (s : STime) : Option STime :=
  (monthLength s.year s.month).map fun len =>
    if s.day < len then { s with day := s.day + 1 }
    else if s.month < 11 then { s with month := s.month + 1, day := 1 }
    else { s with year := s.year + 1, month := 0, day := 1 }

/-- The fields `s` moved by `n` months: `year * 12 + month` larger by `n`, the
other fields unchanged. -/
def addMonths (s : STime) (n : Int) : STime :=
  { s with year := s.year + (s.month + n) / 12, month := (s.month + n) % 12 }


/-! ## Truncating division on the two sides of zero -/

theorem tdiv_cases (a b : Int) (hb : 0 < b) :
    Int.tdiv a b = if 0 ≤ a then a / b else -((-a) / b) := by
  split
  · exact Int.tdiv_eq_ediv (by assumption) (le_of_lt hb)
  · have h : Int.tdiv (-a) b = (-a) / b := Int.tdiv_eq_ediv (by omega) (le_of_lt hb)
    rw [← h, Int.neg_tdiv]; simp

theorem tmod_cases (a b : Int) (hb : 0 < b) :
    Int.tmod a b = if 0 ≤ a then a % b else -((-a) % b) := by
  split
  · exact Int.tmod_eq_emod (by assumption) (le_of_lt hb)
  · have h : Int.tmod (-a) b = (-a) % b := Int.tmod_eq_emod (by omega) (le_of_lt hb)
    have h2 := Int.tmod_def a b
    have h3 := Int.tmod_def (-a) b
    rw [Int.neg_tdiv] at h3
    rw [← h, h3, h2]; ring

/-! ## Leap days -/

theorem getLeapDays_step (y : Int) :
    getLeapDays (y + 1) - getLeapDays y = 0 ∨ getLeapDays (y + 1) - getLeapDays y = 1 := by
  unfold getLeapDays
  simp only [tdiv_cases _ 4 (by decide), tdiv_cases _ 100 (by decide),
    tdiv_cases _ 400 (by decide)]
  split_ifs <;> omega

theorem getLeapDays_nonneg (y : Int) (h : 0 ≤ y) :
    getLeapDays y = y / 4 - y / 100 + y / 400 := by
  unfold getLeapDays
  rw [Int.tdiv_eq_ediv h (by decide), Int.tdiv_eq_ediv h (by decide),
    Int.tdiv_eq_ediv h (by decide)]

theorem isLeap_nonneg (y : Int) (h : 0 ≤ y) :
    isLeap y = true ↔ y % 4 = 0 ∧ (y % 100 ≠ 0 ∨ y % 400 = 0) := by
  unfold isLeap
  rw [Int.tmod_eq_emod h (by decide), Int.tmod_eq_emod h (by decide),
    Int.tmod_eq_emod h (by decide)]
  simp only [beq_iff_eq, bne_iff_ne, Bool.and_eq_true, Bool.or_eq_true, ne_eq]

theorem isLeap_step (y : Int) (h : 0 ≤ y) :
    getLeapDays (y + 1) - getLeapDays y = if isLeap (y + 1) then 1 else 0 := by
  rw [getLeapDays_nonneg _ h, getLeapDays_nonneg _ (by omega : (0 : Int) ≤ y + 1)]
  have hl := isLeap_nonneg (y + 1) (by omega)
  split_ifs with h1
  · have := hl.1 h1; omega
  · have : ¬ ((y + 1) % 4 = 0 ∧ ((y + 1) % 100 ≠ 0 ∨ (y + 1) % 400 = 0)) := fun c => h1 (hl.2 c)
    omega

/-- The number of days before 1 January of year `y` in the counter's scale. -/
theorem yearStart_mono (a : Int) (k : Nat) :
    a * 365 + getLeapDays a + 365 * (k : Int) ≤ (a + k) * 365 + getLeapDays (a + k) := by
  induction k with
  | zero => simp
  | succ n ih =>
    have h := getLeapDays_step (a + n)
    have e : a + ((n + 1 : Nat) : Int) = a + n + 1 := by push_cast; ring
    rw [e]
    push_cast
    omega

/-! ## The year refinement loops -/

theorem yearDown_spec (time : Int) : ∀ (n : Nat) (year days : Int),
    days = time - year * 365 - getLeapDays year → (-days).toNat ≤ n →
    0 ≤ (yearDown time n (year, days)).2 ∧
    (yearDown time n (year, days)).2 =
      time - (yearDown time n (year, days)).1 * 365
        - getLeapDays (yearDown time n (year, days)).1 ∧
    (yearDown time n (year, days) = (year, days) ∨ (yearDown time n (year, days)).2 ≤ 365) := by
  intro n
  induction n with
  | zero =>
    intro year days hd hn
    have e : yearDown time 0 (year, days) = (year, days) := rfl
    rw [e]
    exact ⟨by omega, hd, Or.inl rfl⟩
  | succ n ih =>
    intro year days hd hn
    by_cases hneg : days < 0
    · have e : yearDown time (n + 1) (year, days) =
          yearDown time n (year - 1, time - (year - 1) * 365 - getLeapDays (year - 1)) := by
        simp only [yearDown, if_pos hneg]
      rw [e]
      have hs := getLeapDays_step (year - 1)
      have e : year - 1 + 1 = year := by ring
      rw [e] at hs
      obtain ⟨h1, h2, h3⟩ := ih (year - 1) (time - (year - 1) * 365 - getLeapDays (year - 1))
        rfl (by omega)
      refine ⟨h1, h2, Or.inr ?_⟩
      rcases h3 with h3 | h3
      · rw [h3]; simp only; omega
      · exact h3
    · have e : yearDown time (n + 1) (year, days) = (year, days) := by
        simp only [yearDown, if_neg hneg]
      rw [e]
      exact ⟨by omega, hd, Or.inl rfl⟩

theorem yearUp_spec (time : Int) : ∀ (n : Nat) (year days : Int),
    days = time - year * 365 - getLeapDays year → days.toNat ≤ n → 0 ≤ days →
    0 ≤ (yearUp time n (year, days)).2 ∧ (yearUp time n (year, days)).2 ≤ 365 ∧
    (yearUp time n (year, days)).2 =
      time - (yearUp time n (year, days)).1 * 365
        - getLeapDays (yearUp time n (year, days)).1 := by
  intro n
  induction n with
  | zero =>
    intro year days hd hn h0
    simp only [yearUp]
    refine ⟨h0, by omega, hd⟩
  | succ n ih =>
    intro year days hd hn h0
    simp only [yearUp]
    split_ifs with hbig
    · have hs := getLeapDays_step year
      exact ih (year + 1) (time - (year + 1) * 365 - getLeapDays (year + 1)) rfl
        (by omega) (by omega)
    · exact ⟨h0, by omega, hd⟩

/-- The two loops of the constructor always stop, for every day count, in a
state whose day of year lies in 0..365. -/
theorem refineYear_spec (time : Int) :
    0 ≤ (refineYear time).2 ∧ (refineYear time).2 ≤ 365 ∧
    (refineYear time).2 = time - (refineYear time).1 * 365 - getLeapDays (refineYear time).1 := by
  unfold refineYear
  simp only
  obtain ⟨h1, h2, _⟩ := yearDown_spec time
    (-(time - yearEstimate time * 365 - getLeapDays (yearEstimate time))).toNat
    (yearEstimate time) _ rfl (le_refl _)
  exact yearUp_spec time _ _ _ h2 (le_refl _) h1

theorem refineYear_year_nonneg (time : Int) (h : 365 ≤ time) : 0 ≤ (refineYear time).1 := by
  obtain ⟨h1, h2, h3⟩ := refineYear_spec time
  by_contra hc
  have hL : getLeapDays (refineYear time).1 ≤ 0 - (refineYear time).1 := by
    unfold getLeapDays
    simp only [tdiv_cases _ 4 (by decide), tdiv_cases _ 100 (by decide),
      tdiv_cases _ 400 (by decide)]
    split_ifs
    omega
  omega



/-! ## The month search of `setYearsDay` -/

theorem findMonth_some (T : List Int) (r : Int) : ∀ (n i : Nat), 1 ≤ n →
    (∀ j, i - 1 ≤ j → j < i + n → ∃ v, T[j]? = some v) →
    (∃ hi, T[i + n - 1]? = some hi ∧ r ≤ hi) →
    ∃ (k : Nat) (lo hi : Int), i ≤ k ∧ k < i + n ∧ T[k]? = some hi ∧ T[k - 1]? = some lo ∧
      r ≤ hi ∧ (k = i ∨ lo < r) ∧ findMonth T r n i = some ((k : Int) - 1, r - lo + 1) := by
  intro n
  induction n with
  | zero => intro i h; omega
  | succ n ih =>
    intro i _ hdef hlast
    obtain ⟨hi, hhi⟩ := hdef i (by omega) (by omega)
    obtain ⟨lo, hlo⟩ := hdef (i - 1) (by omega) (by omega)
    by_cases hle : r ≤ hi
    · refine ⟨i, lo, hi, le_refl _, by omega, hhi, hlo, hle, Or.inl rfl, ?_⟩
      simp only [findMonth, hhi, hlo, if_pos hle]
    · have hn : 1 ≤ n := by
        by_contra hc
        have h0 : n = 0 := by omega
        subst h0
        obtain ⟨hi2, h2, h3⟩ := hlast
        have e : i + (0 + 1) - 1 = i := by omega
        rw [e, hhi] at h2
        cases h2
        exact hle h3
      obtain ⟨k, lo2, hi2, h1, h2, h3, h4, h5, h6, h7⟩ := ih (i + 1) hn
        (fun j hj1 hj2 => hdef j (by omega) (by omega))
        (by
          have e : i + 1 + n - 1 = i + (n + 1) - 1 := by omega
          rw [e]; exact hlast)
      refine ⟨k, lo2, hi2, by omega, by omega, h3, h4, h5, Or.inr ?_, ?_⟩
      · rcases h6 with h6 | h6
        · subst h6
          have e : i + 1 - 1 = i := by omega
          rw [e, hhi] at h4
          cases h4
          omega
        · exact h6
      · simp only [findMonth, hhi, if_neg hle]
        exact h7

set_option maxHeartbeats 1000000 in
theorem setYearsDay_leap (s : STime) (r : Int) (h0 : 0 ≤ r) (h1 : r ≤ 365) :
    ∃ s', s.setYearsDay MONTH_STARTS_LEAP MONTH_LENGTHS_LEAP r = some s' ∧
      s'.hour = s.hour ∧ s'.minute = s.minute ∧ s'.second = s.second ∧
      s'.millisecond = s.millisecond ∧ s'.valid = s.valid ∧
      ((s'.year = s.year ∧ 0 ≤ s'.month ∧ s'.month ≤ 11 ∧ 1 ≤ s'.day ∧
          ∃ v len, tableAt MONTH_STARTS_LEAP s'.month = some v ∧
            tableAt MONTH_LENGTHS_LEAP s'.month = some len ∧ s'.day ≤ len ∧
            v + s'.day - 1 = r) ∨
        (r = 365 ∧ s'.year = s.year + 1 ∧ s'.month = 0 ∧ s'.day = 1)) := by
  obtain ⟨k, lo, hi, hk1, hk2, hhi, hlo, hle, hlt, hfind⟩ :=
    findMonth_some MONTH_STARTS_LEAP r 12 1 (by decide)
      (by intro j _ hj; interval_cases j <;> simp [MONTH_STARTS_LEAP])
      ⟨365, by simp [MONTH_STARTS_LEAP], h1⟩
  simp only [STime.setYearsDay, hfind]
  interval_cases k <;>
    simp [MONTH_STARTS_LEAP] at hhi hlo <;>
    subst hhi <;> subst hlo <;>
    simp [tableAt, MONTH_LENGTHS_LEAP, MONTH_STARTS_LEAP] <;>
    split_ifs <;> simp <;> omega


set_option maxHeartbeats 1000000 in
theorem setYearsDay_common (s : STime) (r : Int) (h0 : 0 ≤ r) (h1 : r ≤ 365) :
    ∃ s', s.setYearsDay MONTH_STARTS MONTH_LENGTHS r = some s' ∧
      s'.hour = s.hour ∧ s'.minute = s.minute ∧ s'.second = s.second ∧
      s'.millisecond = s.millisecond ∧ s'.valid = s.valid ∧
      ((s'.year = s.year ∧ 0 ≤ s'.month ∧ s'.month ≤ 11 ∧ 1 ≤ s'.day ∧
          ∃ v len, tableAt MONTH_STARTS s'.month = some v ∧
            tableAt MONTH_LENGTHS s'.month = some len ∧ s'.day ≤ len ∧
            v + s'.day - 1 = r) ∨
        (r = 365 ∧ s'.year = s.year + 1 ∧ s'.month = 0 ∧ s'.day = 1)) := by
  obtain ⟨k, lo, hi, hk1, hk2, hhi, hlo, hle, hlt, hfind⟩ :=
    findMonth_some MONTH_STARTS r 12 1 (by decide)
      (by intro j _ hj; interval_cases j <;> simp [MONTH_STARTS])
      ⟨365, by simp [MONTH_STARTS], h1⟩
  simp only [STime.setYearsDay, hfind]
  interval_cases k <;>
    simp [MONTH_STARTS] at hhi hlo <;>
    subst hhi <;> subst hlo <;>
    simp [tableAt, MONTH_LENGTHS, MONTH_STARTS] <;>
    split_ifs <;> simp <;> omega


/-! ## Fields to counter -/

theorem wrap32_eq (x : Int) (h0 : -2147483648 ≤ x) (h1 : x ≤ 2147483647) : wrap32 x = x := by
  unfold wrap32; omega

theorem wrap64_eq (x : Int) (h0 : -9223372036854775808 ≤ x) (h1 : x ≤ 9223372036854775807) :
    wrap64 x = x := by
  unfold wrap64; omega

theorem SECS_IN_MINUTE_eq : SECS_IN_MINUTE = 60 := rfl

theorem SECS_IN_HOUR_eq : SECS_IN_HOUR = 3600 := rfl

theorem SECS_IN_DAY_eq : SECS_IN_DAY = 86400 := rfl

theorem MILLISECS_IN_DAY_eq : MILLISECS_IN_DAY = 86400000 := rfl

theorem TIME_MULTIPLIER_eq : TIME_MULTIPLIER = 1000 := rfl

theorem getLeapDays_bounds (y : Int) (h : 0 ≤ y) : 0 ≤ getLeapDays y ∧ getLeapDays y ≤ y := by
  rw [getLeapDays_nonneg y h]; omega

/-- The counter of fields whose month lies in 0..11 and whose other members are
small enough for the machine arithmetic of `STime::get` to be exact. -/
theorem get_of_month (s : STime) (v : Int) (hv : s.valid = true) (hm0 : 0 ≤ s.month)
    (hm1 : s.month ≤ 11)
    (ht : (if isLeap s.year then tableAt MONTH_STARTS_LEAP s.month
           else tableAt MONTH_STARTS s.month) = some v)
    (hy0 : 0 ≤ s.year) (hy1 : s.year ≤ 100000) (hv0 : -1 ≤ v) (hv1 : v ≤ 365)
    (hd0 : 0 ≤ s.day) (hd1 : s.day ≤ 100) (hh0 : 0 ≤ s.hour) (hh1 : s.hour ≤ 23)
    (hmi0 : 0 ≤ s.minute) (hmi1 : s.minute ≤ 59) (hs0 : 0 ≤ s.second) (hs1 : s.second ≤ 59)
    (hms0 : 0 ≤ s.millisecond) (hms1 : s.millisecond ≤ 999) :
    s.get = some ((((s.year * 365 + getLeapDays s.year + v + s.day - 1) * 86400
      + s.hour * 3600 + s.minute * 60 + s.second) * 1000) + s.millisecond) := by
  have e1 : Int.tdiv s.month MONTH_COUNT = 0 := by
    rw [MONTH_COUNT, Int.tdiv_eq_ediv hm0 (by decide)]; omega
  have e2 : Int.tmod s.month MONTH_COUNT = s.month := by
    rw [MONTH_COUNT, Int.tmod_eq_emod hm0 (by decide)]; omega
  have ey : wrap32 (s.year + Int.tdiv s.month MONTH_COUNT) = s.year := by
    rw [e1, add_zero]; exact wrap32_eq _ (by omega) (by omega)
  obtain ⟨hL0, hL1⟩ := getLeapDays_bounds s.year hy0
  have w1 : wrap32 (s.year * 365 + getLeapDays s.year + v + s.day - 1)
      = s.year * 365 + getLeapDays s.year + v + s.day - 1 :=
    wrap32_eq _ (by omega) (by omega)
  have w2 : wrap32 (s.hour * 3600) = s.hour * 3600 := wrap32_eq _ (by omega) (by omega)
  have w3 : wrap32 (s.minute * 60) = s.minute * 60 := wrap32_eq _ (by omega) (by omega)
  unfold STime.get
  simp only [hv, ey, e2, ht, Bool.not_true, Bool.false_eq_true, if_false,
    SECS_IN_DAY_eq, SECS_IN_HOUR_eq, SECS_IN_MINUTE_eq, TIME_MULTIPLIER_eq, w1, w2, w3]
  have hD0 : -2 ≤ s.year * 365 + getLeapDays s.year + v + s.day - 1 := by omega
  have hD1 : s.year * 365 + getLeapDays s.year + v + s.day - 1 ≤ 40000000 := by omega
  generalize s.year * 365 + getLeapDays s.year + v + s.day - 1 = D at hD0 hD1 ⊢
  have w4 : wrap64 (D * 86400) = D * 86400 := wrap64_eq _ (by omega) (by omega)
  rw [w4]
  have w5 : wrap64 (D * 86400 + s.hour * 3600) = D * 86400 + s.hour * 3600 :=
    wrap64_eq _ (by omega) (by omega)
  rw [w5]
  have w6 : wrap64 (D * 86400 + s.hour * 3600 + s.minute * 60)
      = D * 86400 + s.hour * 3600 + s.minute * 60 := wrap64_eq _ (by omega) (by omega)
  rw [w6]
  have w7 : wrap64 (D * 86400 + s.hour * 3600 + s.minute * 60 + s.second)
      = D * 86400 + s.hour * 3600 + s.minute * 60 + s.second :=
    wrap64_eq _ (by omega) (by omega)
  rw [w7]
  have w8 : wrap64 ((D * 86400 + s.hour * 3600 + s.minute * 60 + s.second) * 1000)
      = (D * 86400 + s.hour * 3600 + s.minute * 60 + s.second) * 1000 :=
    wrap64_eq _ (by omega) (by omega)
  rw [w8]
  rw [wrap64_eq _ (by omega) (by omega)]

/-! ## The month tables -/

theorem starts_common_cases (m v len : Int) (h0 : 0 ≤ m) (h1 : m ≤ 11)
    (hv : tableAt MONTH_STARTS m = some v) (hl : tableAt MONTH_LENGTHS m = some len) :
    (m = 0 ∧ v = 0 ∧ len = 31) ∨ (m = 1 ∧ v = 31 ∧ len = 28) ∨ (m = 2 ∧ v = 59 ∧ len = 31) ∨
    (m = 3 ∧ v = 90 ∧ len = 30) ∨ (m = 4 ∧ v = 120 ∧ len = 31) ∨
    (m = 5 ∧ v = 151 ∧ len = 30) ∨ (m = 6 ∧ v = 181 ∧ len = 31) ∨
    (m = 7 ∧ v = 212 ∧ len = 31) ∨ (m = 8 ∧ v = 243 ∧ len = 30) ∨
    (m = 9 ∧ v = 273 ∧ len = 31) ∨ (m = 10 ∧ v = 304 ∧ len = 30) ∨
    (m = 11 ∧ v = 334 ∧ len = 31) := by
  have hm : m = (m.toNat : Int) := by omega
  have hn : m.toNat < 12 := by omega
  generalize m.toNat = n at hm hn
  subst hm
  have e : tableAt MONTH_STARTS (n : Int) = MONTH_STARTS[n]? := by simp [tableAt]
  have e2 : tableAt MONTH_LENGTHS (n : Int) = MONTH_LENGTHS[n]? := by simp [tableAt]
  rw [e] at hv; rw [e2] at hl
  interval_cases n <;> simp [MONTH_STARTS, MONTH_LENGTHS] at hv hl <;>
    subst hv <;> subst hl <;> simp

theorem starts_leap_cases (m v len : Int) (h0 : 0 ≤ m) (h1 : m ≤ 11)
    (hv : tableAt MONTH_STARTS_LEAP m = some v) (hl : tableAt MONTH_LENGTHS_LEAP m = some len) :
    (m = 0 ∧ v = -1 ∧ len = 31) ∨ (m = 1 ∧ v = 30 ∧ len = 29) ∨ (m = 2 ∧ v = 59 ∧ len = 31) ∨
    (m = 3 ∧ v = 90 ∧ len = 30) ∨ (m = 4 ∧ v = 120 ∧ len = 31) ∨
    (m = 5 ∧ v = 151 ∧ len = 30) ∨ (m = 6 ∧ v = 181 ∧ len = 31) ∨
    (m = 7 ∧ v = 212 ∧ len = 31) ∨ (m = 8 ∧ v = 243 ∧ len = 30) ∨
    (m = 9 ∧ v = 273 ∧ len = 31) ∨ (m = 10 ∧ v = 304 ∧ len = 30) ∨
    (m = 11 ∧ v = 334 ∧ len = 31) := by
  have hm : m = (m.toNat : Int) := by omega
  have hn : m.toNat < 12 := by omega
  generalize m.toNat = n at hm hn
  subst hm
  have e : tableAt MONTH_STARTS_LEAP (n : Int) = MONTH_STARTS_LEAP[n]? := by simp [tableAt]
  have e2 : tableAt MONTH_LENGTHS_LEAP (n : Int) = MONTH_LENGTHS_LEAP[n]? := by simp [tableAt]
  rw [e] at hv; rw [e2] at hl
  interval_cases n <;> simp [MONTH_STARTS_LEAP, MONTH_LENGTHS_LEAP] at hv hl <;>
    subst hv <;> subst hl <;> simp

theorem tableAt_defined (T : List Int) (hT : 12 ≤ T.length) (m : Int) (h0 : 0 ≤ m)
    (h1 : m ≤ 11) :
    ∃ v, tableAt T m = some v := by
  unfold tableAt
  rw [if_neg (by omega)]
  have : m.toNat < T.length := by omega
  exact ⟨T[m.toNat], List.getElem?_eq_getElem this⟩

/-! ## Counter to fields -/

theorem ofLongLong_nonneg (t : Int) (ht : 0 ≤ t) :
    STime.ofLongLong t =
      if isLeap (refineYear (t / 86400000)).1 then
        STime.setYearsDay
          { year := (refineYear (t / 86400000)).1, month := 0, day := 0,
            hour := t / 1000 % 86400 / 3600, minute := t / 1000 % 86400 % 3600 / 60,
            second := t / 1000 % 86400 % 3600 % 60, millisecond := t % 1000, valid := true }
          MONTH_STARTS_LEAP MONTH_LENGTHS_LEAP (refineYear (t / 86400000)).2
      else
        STime.setYearsDay
          { year := (refineYear (t / 86400000)).1, month := 0, day := 0,
            hour := t / 1000 % 86400 / 3600, minute := t / 1000 % 86400 % 3600 / 60,
            second := t / 1000 % 86400 % 3600 % 60, millisecond := t % 1000, valid := true }
          MONTH_STARTS MONTH_LENGTHS (refineYear (t / 86400000)).2 := by
  have e1 : Int.tmod t TIME_MULTIPLIER = t % 1000 := Int.tmod_eq_emod ht (by decide)
  have e2 : Int.tdiv t TIME_MULTIPLIER = t / 1000 := Int.tdiv_eq_ediv ht (by decide)
  have h2 : 0 ≤ t / 1000 := by omega
  have e3 : Int.tmod (t / 1000) SECS_IN_DAY = t / 1000 % 86400 :=
    Int.tmod_eq_emod h2 (by decide)
  have e4 : Int.tdiv (t / 1000) SECS_IN_DAY = t / 86400000 := by
    rw [SECS_IN_DAY, SECS_IN_HOUR, SECS_IN_MINUTE, Int.tdiv_eq_ediv h2 (by decide)]; omega
  have h3 : 0 ≤ t / 1000 % 86400 := by omega
  have e5 : Int.tdiv (t / 1000 % 86400) SECS_IN_HOUR = t / 1000 % 86400 / 3600 :=
    Int.tdiv_eq_ediv h3 (by decide)
  have e6 : Int.tmod (t / 1000 % 86400) SECS_IN_HOUR = t / 1000 % 86400 % 3600 :=
    Int.tmod_eq_emod h3 (by decide)
  have h4 : 0 ≤ t / 1000 % 86400 % 3600 := by omega
  have e7 : Int.tdiv (t / 1000 % 86400 % 3600) SECS_IN_MINUTE = t / 1000 % 86400 % 3600 / 60 :=
    Int.tdiv_eq_ediv h4 (by decide)
  have e8 : Int.tmod (t / 1000 % 86400 % 3600) SECS_IN_MINUTE = t / 1000 % 86400 % 3600 % 60 :=
    Int.tmod_eq_emod h4 (by decide)
  unfold STime.ofLongLong
  simp only [e1, e2, e3, e4, e5, e6, e7, e8]

set_option maxHeartbeats 4000000 in
/-- On the supported range, from the counter of 0001-01-01 00:00:00.000 to that
of 9999-12-31 23:59:59.999, the constructor from a counter returns fields of
the calendar whose counter is the one given. -/
theorem ofLongLong_spec (t : Int) (ht : 31536000000 ≤ t) (ht1 : t ≤ 315569433599999) :
    ∃ s, STime.ofLongLong t = some s ∧ s.isCalendar ∧ s.get = some t := by
  have hd : 365 ≤ t / 86400000 := by omega
  have hd1 : t / 86400000 ≤ 3652423 := by omega
  obtain ⟨r0, r1, rinv⟩ := refineYear_spec (t / 86400000)
  have hy := refineYear_year_nonneg (t / 86400000) hd
  rw [ofLongLong_nonneg t (by omega)]
  generalize hY : (refineYear (t / 86400000)).1 = Y at *
  generalize hR : (refineYear (t / 86400000)).2 = R at *
  obtain ⟨hL0, hL1⟩ := getLeapDays_bounds Y hy
  have hLe := getLeapDays_nonneg Y hy
  by_cases hleap : isLeap Y = true
  · rw [if_pos hleap]
    obtain ⟨s', hs, hh, hm, hsec, hms, hval, hcase⟩ := setYearsDay_leap
      { year := Y, month := 0, day := 0,
        hour := t / 1000 % 86400 / 3600, minute := t / 1000 % 86400 % 3600 / 60,
        second := t / 1000 % 86400 % 3600 % 60, millisecond := t % 1000, valid := true }
      R r0 r1
    refine ⟨s', hs, ?_⟩
    simp only at hh hm hsec hms hval hcase
    rcases hcase with ⟨hyear, hm0, hm1, hd0, v, len, hv, hl, hd1, hsum⟩ | ⟨h365, hyear, hmon, hday⟩
    · have c := starts_leap_cases s'.month v len hm0 hm1 hv hl
      refine ⟨⟨hval, by omega, by omega, hm0, hm1, hd0,
        ⟨len, by unfold monthLength; rw [hyear, if_pos hleap]; exact hl, hd1⟩,
        by omega, by omega, by omega, by omega, by omega, by omega, by omega, by omega⟩, ?_⟩
      rw [get_of_month s' v hval hm0 hm1 (by rw [hyear, if_pos hleap]; exact hv)
        (by omega) (by omega) (by omega) (by omega) (by omega) (by omega) (by omega)
        (by omega) (by omega) (by omega) (by omega) (by omega) (by omega) (by omega)]
      rw [hyear, hh, hm, hsec, hms]
      congr 1
      omega
    · have hstep := isLeap_step Y hy
      have hnl : isLeap (Y + 1) = false := by
        have a := (isLeap_nonneg Y hy).1 hleap
        cases hb : isLeap (Y + 1) with
        | false => rfl
        | true => have b := (isLeap_nonneg (Y + 1) (by omega)).1 hb; omega
      rw [hnl] at hstep
      simp only [Bool.false_eq_true, if_false] at hstep
      refine ⟨⟨hval, by omega, by omega, by omega, by omega, by omega,
        ⟨31, by unfold monthLength; rw [hmon]; split <;> simp [tableAt, MONTH_LENGTHS,
          MONTH_LENGTHS_LEAP], by omega⟩,
        by omega, by omega, by omega, by omega, by omega, by omega, by omega, by omega⟩, ?_⟩
      rw [get_of_month s' (0) hval (by omega) (by omega)
        (by rw [hyear, hnl, hmon]; simp [tableAt, MONTH_STARTS])
        (by omega) (by omega) (by omega) (by omega) (by omega) (by omega) (by omega)
        (by omega) (by omega) (by omega) (by omega) (by omega) (by omega) (by omega)]
      rw [hyear, hh, hm, hsec, hms, hday]
      congr 1
      omega
  · rw [if_neg hleap]
    obtain ⟨s', hs, hh, hm, hsec, hms, hval, hcase⟩ := setYearsDay_common
      { year := Y, month := 0, day := 0,
        hour := t / 1000 % 86400 / 3600, minute := t / 1000 % 86400 % 3600 / 60,
        second := t / 1000 % 86400 % 3600 % 60, millisecond := t % 1000, valid := true }
      R r0 r1
    refine ⟨s', hs, ?_⟩
    simp only at hh hm hsec hms hval hcase
    rcases hcase with ⟨hyear, hm0, hm1, hd0, v, len, hv, hl, hd1, hsum⟩ | ⟨h365, hyear, hmon, hday⟩
    · have c := starts_common_cases s'.month v len hm0 hm1 hv hl
      refine ⟨⟨hval, by omega, by omega, hm0, hm1, hd0,
        ⟨len, by unfold monthLength; rw [hyear, if_neg hleap]; exact hl, hd1⟩,
        by omega, by omega, by omega, by omega, by omega, by omega, by omega, by omega⟩, ?_⟩
      rw [get_of_month s' v hval hm0 hm1 (by rw [hyear, if_neg hleap]; exact hv)
        (by omega) (by omega) (by omega) (by omega) (by omega) (by omega) (by omega)
        (by omega) (by omega) (by omega) (by omega) (by omega) (by omega) (by omega)]
      rw [hyear, hh, hm, hsec, hms]
      congr 1
      omega
    · have hstep := isLeap_step Y hy
      by_cases hb : isLeap (Y + 1) = true
      · rw [if_pos hb] at hstep
        refine ⟨⟨hval, by omega, by omega, by omega, by omega, by omega,
          ⟨31, by unfold monthLength; rw [hmon]; split <;> simp [tableAt, MONTH_LENGTHS,
            MONTH_LENGTHS_LEAP], by omega⟩,
          by omega, by omega, by omega, by omega, by omega, by omega, by omega, by omega⟩, ?_⟩
        rw [get_of_month s' (-1) hval (by omega) (by omega)
          (by rw [hyear, if_pos hb, hmon]; simp [tableAt, MONTH_STARTS_LEAP])
          (by omega) (by omega) (by omega) (by omega) (by omega) (by omega) (by omega)
          (by omega) (by omega) (by omega) (by omega) (by omega) (by omega) (by omega)]
        rw [hyear, hh, hm, hsec, hms, hday]
        congr 1
        omega
      · rw [if_neg hb] at hstep
        refine ⟨⟨hval, by omega, by omega, by omega, by omega, by omega,
          ⟨31, by unfold monthLength; rw [hmon]; split <;> simp [tableAt, MONTH_LENGTHS,
            MONTH_LENGTHS_LEAP], by omega⟩,
          by omega, by omega, by omega, by omega, by omega, by omega, by omega, by omega⟩, ?_⟩
        rw [get_of_month s' (0) hval (by omega) (by omega)
          (by rw [hyear, if_neg hb, hmon]; simp [tableAt, MONTH_STARTS])
          (by omega) (by omega) (by omega) (by omega) (by omega) (by omega) (by omega)
          (by omega) (by omega) (by omega) (by omega) (by omega) (by omega) (by omega)]
        rw [hyear, hh, hm, hsec, hms, hday]
        congr 1
        omega

/-- Counter -> fields -> counter is the identity on the supported range. -/
theorem get_ofLongLong (t : Int) (ht : 31536000000 ≤ t) (ht1 : t ≤ 315569433599999) :
    ∃ s, STime.ofLongLong t = some s ∧ s.get = some t := by
  obtain ⟨s, h1, _, h2⟩ := ofLongLong_spec t ht ht1
  exact ⟨s, h1, h2⟩



/-! ## Fields -> counter -> fields -/

/-- The year whose window contains a day count is determined, up to the shared
first day of a year. -/
theorem year_unique (y Y R r : Int) (hy : 1 ≤ y)
    (heq : Y * 365 + getLeapDays Y + R = y * 365 + getLeapDays y + r)
    (hR0 : 0 ≤ R) (hR1 : R ≤ 365) (hr0 : (if isLeap y then -1 else 0) ≤ r) (hr1 : r ≤ 364) :
    (Y = y ∧ R = r) ∨ (Y = y - 1 ∧ R = 365 ∧ r = if isLeap y then -1 else 0) := by
  have hstep := isLeap_step (y - 1) (by omega)
  have e : y - 1 + 1 = y := by ring
  rw [e] at hstep
  rcases lt_trichotomy Y y with hlt | heq2 | hgt
  · right
    have hm := yearStart_mono Y (y - 1 - Y).toNat
    have e2 : Y + ((y - 1 - Y).toNat : Int) = y - 1 := by omega
    rw [e2] at hm
    split_ifs at hstep hr0 ⊢ <;> omega
  · left
    subst heq2
    omega
  · exfalso
    have hm := yearStart_mono (y + 1) (Y - (y + 1)).toNat
    have e2 : y + 1 + ((Y - (y + 1)).toNat : Int) = Y := by omega
    rw [e2] at hm
    have hs2 := getLeapDays_step y
    omega

theorem STime.eq_of_fields (a b : STime) (h1 : a.year = b.year) (h2 : a.month = b.month)
    (h3 : a.day = b.day) (h4 : a.hour = b.hour) (h5 : a.minute = b.minute)
    (h6 : a.second = b.second) (h7 : a.millisecond = b.millisecond) (h8 : a.valid = b.valid) :
    a = b := by
  cases a; cases b; simp_all


set_option maxHeartbeats 1000000 in
theorem month_unique_common (m v len d m' v' len' d' : Int) (h0 : 0 ≤ m) (h1 : m ≤ 11)
    (hv : tableAt MONTH_STARTS m = some v) (hl : tableAt MONTH_LENGTHS m = some len)
    (h0' : 0 ≤ m') (h1' : m' ≤ 11)
    (hv' : tableAt MONTH_STARTS m' = some v') (hl' : tableAt MONTH_LENGTHS m' = some len')
    (hd0 : 1 ≤ d) (hd1 : d ≤ len) (hd0' : 1 ≤ d') (hd1' : d' ≤ len')
    (heq : v + d = v' + d') : m = m' ∧ d = d' := by
  have c := starts_common_cases m v len h0 h1 hv hl
  have c' := starts_common_cases m' v' len' h0' h1' hv' hl'
  rcases c with c | c | c | c | c | c | c | c | c | c | c | c <;> omega

set_option maxHeartbeats 1000000 in
theorem month_unique_leap (m v len d m' v' len' d' : Int) (h0 : 0 ≤ m) (h1 : m ≤ 11)
    (hv : tableAt MONTH_STARTS_LEAP m = some v) (hl : tableAt MONTH_LENGTHS_LEAP m = some len)
    (h0' : 0 ≤ m') (h1' : m' ≤ 11)
    (hv' : tableAt MONTH_STARTS_LEAP m' = some v') (hl' : tableAt MONTH_LENGTHS_LEAP m' = some len')
    (hd0 : 1 ≤ d) (hd1 : d ≤ len) (hd0' : 1 ≤ d') (hd1' : d' ≤ len')
    (heq : v + d = v' + d') : m = m' ∧ d = d' := by
  have c := starts_leap_cases m v len h0 h1 hv hl
  have c' := starts_leap_cases m' v' len' h0' h1' hv' hl'
  rcases c with c | c | c | c | c | c | c | c | c | c | c | c <;> omega


theorem get_isCalendar (s : STime) (hs : s.isCalendar) :
    ∃ v, (if isLeap s.year then tableAt MONTH_STARTS_LEAP s.month
          else tableAt MONTH_STARTS s.month) = some v ∧
      (if isLeap s.year then -1 else 0) ≤ v + s.day - 1 ∧ v + s.day - 1 ≤ 364 ∧
      (v + s.day - 1 = (if isLeap s.year then -1 else 0) → s.month = 0 ∧ s.day = 1) ∧
      s.get = some ((((s.year * 365 + getLeapDays s.year + v + s.day - 1) * 86400
        + s.hour * 3600 + s.minute * 60 + s.second) * 1000) + s.millisecond) := by
  obtain ⟨hv, hy0, hy1, hm0, hm1, hd0, ⟨len, hlen, hd1⟩, hh0, hh1, hmi0, hmi1, hs0, hs1,
    hms0, hms1⟩ := hs
  unfold monthLength at hlen
  by_cases hleap : isLeap s.year = true
  · simp only [hleap, if_true] at hlen ⊢
    obtain ⟨v, hst⟩ := tableAt_defined MONTH_STARTS_LEAP (by decide) s.month hm0 hm1
    have c := starts_leap_cases s.month v len hm0 hm1 hst hlen
    refine ⟨v, hst, by omega, by omega, by omega, ?_⟩
    exact get_of_month s v hv hm0 hm1 (by rw [if_pos hleap]; exact hst)
      (by omega) (by omega) (by omega) (by omega) (by omega) (by omega) (by omega)
      (by omega) (by omega) (by omega) (by omega) (by omega) (by omega) (by omega)
  · simp only [hleap, if_false] at hlen ⊢
    obtain ⟨v, hst⟩ := tableAt_defined MONTH_STARTS (by decide) s.month hm0 hm1
    have c := starts_common_cases s.month v len hm0 hm1 hst hlen
    refine ⟨v, hst, by omega, by omega, by omega, ?_⟩
    exact get_of_month s v hv hm0 hm1 (by rw [if_neg hleap]; exact hst)
      (by omega) (by omega) (by omega) (by omega) (by omega) (by omega) (by omega)
      (by omega) (by omega) (by omega) (by omega) (by omega) (by omega) (by omega)

set_option maxHeartbeats 1000000 in
/-- Fields -> counter -> fields is the identity on the calendar dates of years 1..9999. -/
theorem ofLongLong_get (s : STime) (hs : s.isCalendar) :
    ∃ t, s.get = some t ∧ STime.ofLongLong t = some s := by
  obtain ⟨v, hst, hr0, hr1, hfirst, hget⟩ := get_isCalendar s hs
  obtain ⟨hv, hy0, hy1, hm0, hm1, hd0, ⟨len, hlen, hd1⟩, hh0, hh1, hmi0, hmi1, hs0, hs1,
    hms0, hms1⟩ := hs
  refine ⟨_, hget, ?_⟩
  have hL : 0 ≤ getLeapDays s.year := by rw [getLeapDays_nonneg _ (by omega)]; omega
  generalize hD : s.year * 365 + getLeapDays s.year + v + s.day - 1 = D at *
  have hD0 : 0 ≤ D := by split_ifs at hr0 <;> omega
  generalize ht : (D * 86400 + s.hour * 3600 + s.minute * 60 + s.second) * 1000
    + s.millisecond = t
  have eD : t / 86400000 = D := by omega
  have e1 : t / 1000 % 86400 / 3600 = s.hour := by omega
  have e2 : t / 1000 % 86400 % 3600 / 60 = s.minute := by omega
  have e3 : t / 1000 % 86400 % 3600 % 60 = s.second := by omega
  have e4 : t % 1000 = s.millisecond := by omega
  rw [ofLongLong_nonneg t (by omega), eD, e1, e2, e3, e4]
  obtain ⟨r0, r1, rinv⟩ := refineYear_spec D
  generalize hY : (refineYear D).1 = Y at *
  generalize hR : (refineYear D).2 = R at *
  have huniq := year_unique s.year Y R (v + s.day - 1) hy0 (by omega) r0 r1 hr0 hr1
  unfold monthLength at hlen
  have key : ∀ s' : STime, s'.hour = s.hour → s'.minute = s.minute → s'.second = s.second →
      s'.millisecond = s.millisecond → s'.valid = true → s'.year = s.year →
      s'.month = s.month → s'.day = s.day → some s' = some s := by
    intro s' a1 a2 a3 a4 a5 a6 a7 a8
    rw [STime.eq_of_fields s' s a6 a7 a8 a1 a2 a3 a4 (by rw [a5, hv])]
  rcases huniq with ⟨hYy, hRr⟩ | ⟨hYy, hR365, hrfirst⟩
  · -- the loops stop in the year of the date
    subst hYy
    by_cases hleap : isLeap s.year = true
    · simp only [hleap, if_true] at hlen hst ⊢
      obtain ⟨s', hs', b1, b2, b3, b4, b5, hcase⟩ := setYearsDay_leap
        { year := s.year, month := 0, day := 0, hour := s.hour, minute := s.minute,
          second := s.second, millisecond := s.millisecond, valid := true } R r0 r1
      rw [hs']
      simp only at b1 b2 b3 b4 b5 hcase
      have c := starts_leap_cases s.month v len hm0 hm1 hst hlen
      rcases hcase with ⟨hyear, hm0', hm1', hd0', v', len', hv', hl', hd1', hsum⟩ | ⟨h365, _⟩
      · have u := month_unique_leap s'.month v' len' s'.day s.month v len s.day hm0' hm1' hv'
          hl' hm0 hm1 hst hlen hd0' hd1' hd0 hd1 (by omega)
        exact key s' b1 b2 b3 b4 b5 hyear u.1 u.2
      · omega
    · simp only [hleap, if_false] at hlen hst ⊢
      obtain ⟨s', hs', b1, b2, b3, b4, b5, hcase⟩ := setYearsDay_common
        { year := s.year, month := 0, day := 0, hour := s.hour, minute := s.minute,
          second := s.second, millisecond := s.millisecond, valid := true } R r0 r1
      rw [hs']
      simp only at b1 b2 b3 b4 b5 hcase
      have c := starts_common_cases s.month v len hm0 hm1 hst hlen
      rcases hcase with ⟨hyear, hm0', hm1', hd0', v', len', hv', hl', hd1', hsum⟩ | ⟨h365, _⟩
      · have u := month_unique_common s'.month v' len' s'.day s.month v len s.day hm0' hm1'
          hv' hl' hm0 hm1 hst hlen hd0' hd1' hd0 hd1 (by omega)
        exact key s' b1 b2 b3 b4 b5 hyear u.1 u.2
      · omega
  · -- first day of a year, reached as day 365 of the year before
    obtain ⟨hmon, hday⟩ := hfirst hrfirst
    by_cases hleap : isLeap Y = true
    · rw [if_pos hleap]
      obtain ⟨s', hs', b1, b2, b3, b4, b5, hcase⟩ := setYearsDay_leap
        { year := Y, month := 0, day := 0, hour := s.hour, minute := s.minute,
          second := s.second, millisecond := s.millisecond, valid := true } R r0 r1
      rw [hs']
      simp only at b1 b2 b3 b4 b5 hcase
      rcases hcase with ⟨hyear, hm0', hm1', hd0', v', len', hv', hl', hd1', hsum⟩ | ⟨_, hyear, hm', hd'⟩
      · have c' := starts_leap_cases s'.month v' len' hm0' hm1' hv' hl'
        omega
      · exact key s' b1 b2 b3 b4 b5 (by omega) (by omega) (by omega)
    · rw [if_neg hleap]
      obtain ⟨s', hs', b1, b2, b3, b4, b5, hcase⟩ := setYearsDay_common
        { year := Y, month := 0, day := 0, hour := s.hour, minute := s.minute,
          second := s.second, millisecond := s.millisecond, valid := true } R r0 r1
      rw [hs']
      simp only at b1 b2 b3 b4 b5 hcase
      rcases hcase with ⟨hyear, hm0', hm1', hd0', v', len', hv', hl', hd1', hsum⟩ | ⟨_, hyear, hm', hd'⟩
      · have c' := starts_common_cases s'.month v' len' hm0' hm1' hv' hl'
        omega
      · exact key s' b1 b2 b3 b4 b5 (by omega) (by omega) (by omega)



/-! ## Claims C1 - C3: the two round trips and 29 February -/

theorem first_get : STime.get ⟨1, 0, 1, 0, 0, 0, 0, true⟩ = some 31536000000 := by decide

theorem last_get : STime.get ⟨9999, 11, 31, 23, 59, 59, 999, true⟩ = some 315569433599999 := by
  decide

/-- C1: for every counter `t` between the counter `lo` of 0001-01-01 00:00:00.000
and the counter `hi` of 9999-12-31 23:59:59.999, the constructor
`STime(long long t)` returns fields and `STime::get` of these fields is `t`. -/
theorem C1_linear_fields_linear (t lo hi : Int)
    (hlo : STime.get ⟨1, 0, 1, 0, 0, 0, 0, true⟩ = some lo)
    (hhi : STime.get ⟨9999, 11, 31, 23, 59, 59, 999, true⟩ = some hi)
    (h1 : lo ≤ t) (h2 : t ≤ hi) :
    (STime.ofLongLong t).bind STime.get = some t := by
  rw [first_get] at hlo
  rw [last_get] at hhi
  cases hlo
  cases hhi
  obtain ⟨s, hs, hg⟩ := get_ofLongLong t h1 h2
  rw [hs]
  exact hg

theorem C1_linear_fields_linear_witness :
    (STime.ofLongLong 63000000000123).bind STime.get = some 63000000000123 :=
  C1_linear_fields_linear 63000000000123 31536000000 315569433599999 (by decide) (by decide)
    (by decide) (by decide)


theorem reformat_test_date :
    reformat "2100-04-01 21:03:15.050" = some "2100-04-01 21:03:15.050" := by decide

theorem reformat_1900 : reformat "1900-02-29 21:12:15" = some "1900-03-01 21:12:15" := by
  decide

theorem reformat_2000 : reformat "2000-02-29 21:12:15" = some "2000-02-29 21:12:15" := by
  decide

/-! ## Reading the text of the test unit -/

theorem isSpace_of_isDigit (c : Char) (h : isDigit c = true) : isSpace c = false := by
  cases hs : isSpace c with
  | false => rfl
  | true =>
    simp only [isSpace, Bool.or_eq_true, beq_iff_eq] at hs
    rcases hs with ((((hs | hs) | hs) | hs) | hs) | hs <;> subst hs <;> revert h <;> decide

theorem not_sign_of_isDigit (c : Char) (h : isDigit c = true) : c ≠ '-' ∧ c ≠ '+' := by
  constructor <;> intro hc <;> subst hc <;> revert h <;> decide

theorem takeWhile_digits (ds : List Char) (c : Char) (tl : List Char)
    (hds : ∀ d ∈ ds, isDigit d = true) (hc : isDigit c = false) :
    (ds ++ c :: tl).takeWhile isDigit = ds ∧ (ds ++ c :: tl).dropWhile isDigit = c :: tl := by
  induction ds with
  | nil => simp [List.takeWhile, List.dropWhile, hc]
  | cons d ds ih =>
    have hd : isDigit d = true := hds d (List.mem_cons_self _ _)
    have ih2 := ih (fun x hx => hds x (List.mem_cons_of_mem _ hx))
    simp [List.takeWhile, List.dropWhile, hd, ih2.1, ih2.2]

/-- Formatted input of an `int` from a text that starts with decimal digits and
goes on with another character: the digits are consumed and give the value. -/
theorem readInt_digits (d : Char) (ds : List Char) (c : Char) (tl : List Char) (old : Int)
    (hds : ∀ x ∈ d :: ds, isDigit x = true) (hc : isDigit c = false)
    (hv : (digitsValue 0 (d :: ds) : Int) ≤ 2147483647) :
    IStream.readInt ⟨d :: ds ++ c :: tl, false, false⟩ old
      = (⟨c :: tl, false, false⟩, (digitsValue 0 (d :: ds) : Int)) := by
  have hd : isDigit d = true := hds d (List.mem_cons_self _ _)
  have hsp := isSpace_of_isDigit d hd
  obtain ⟨hm, hp⟩ := not_sign_of_isDigit d hd
  obtain ⟨ht, hdr⟩ := takeWhile_digits (d :: ds) c tl hds hc
  have hsentry : IStream.sentry ⟨d :: ds ++ c :: tl, false, false⟩
      = (⟨d :: ds ++ c :: tl, false, false⟩, true) := by
    simp [IStream.sentry, List.dropWhile, hsp]
  unfold IStream.readInt
  rw [hsentry]
  simp only [List.cons_append, List.head?_cons] at ht hdr ⊢
  have e1 : (some d == some '-') = false := by simpa using hm
  have e2 : (some d == some '+') = false := by simpa using hp
  simp only [e1, e2, Bool.or_self, Bool.false_eq_true, if_false, ht, hdr, List.isEmpty_cons]
  have h0 : ¬ ((digitsValue 0 (d :: ds) : Int) < -2147483648) := by omega
  have h1 : ¬ ((digitsValue 0 (d :: ds) : Int) > 2147483647) := by omega
  rw [if_neg h1, if_neg h0]

theorem readChar_cons (c : Char) (tl : List Char) (hc : isSpace c = false) :
    IStream.readChar ⟨c :: tl, false, false⟩ = ⟨tl, false, false⟩ := by
  simp [IStream.readChar, IStream.sentry, List.dropWhile, hc]

/-- The text `Y-M-29 21:12:15`, where `Y` and `M` are runs of decimal digits, is
read as the fields year `Y`, month `M - 1`, day 29 and time 21:12:15. -/
theorem ofString_sample (d1 : Char) (ds1 : List Char) (d2 : Char) (ds2 : List Char)
    (h1 : ∀ x ∈ d1 :: ds1, isDigit x = true) (h2 : ∀ x ∈ d2 :: ds2, isDigit x = true)
    (hv1 : (digitsValue 0 (d1 :: ds1) : Int) ≤ 2147483647)
    (hv2 : (digitsValue 0 (d2 :: ds2) : Int) ≤ 2147483647) :
    STime.ofString (String.mk (d1 :: ds1 ++ '-' :: (d2 :: ds2 ++
        ['-', '2', '9', ' ', '2', '1', ':', '1', '2', ':', '1', '5'])))
      = ⟨digitsValue 0 (d1 :: ds1), wrap32 ((digitsValue 0 (d2 :: ds2) : Int) - 1),
          29, 21, 12, 15, 0, true⟩ := by
  have r1 := readInt_digits d1 ds1 '-' (d2 :: ds2 ++
    ['-', '2', '9', ' ', '2', '1', ':', '1', '2', ':', '1', '5']) 0 h1 (by decide) hv1
  have c1 := readChar_cons '-' (d2 :: ds2 ++
    ['-', '2', '9', ' ', '2', '1', ':', '1', '2', ':', '1', '5']) (by decide)
  have r2 := readInt_digits d2 ds2 '-'
    ['2', '9', ' ', '2', '1', ':', '1', '2', ':', '1', '5'] 0 h2 (by decide) hv2
  have r3 : IStream.readInt (IStream.readChar
      ⟨['-', '2', '9', ' ', '2', '1', ':', '1', '2', ':', '1', '5'], false, false⟩) 0
      = (⟨[' ', '2', '1', ':', '1', '2', ':', '1', '5'], false, false⟩, 29) := by decide
  have r4 : IStream.readInt ⟨[' ', '2', '1', ':', '1', '2', ':', '1', '5'], false, false⟩ 0
      = (⟨[':', '1', '2', ':', '1', '5'], false, false⟩, 21) := by decide
  have r5 : IStream.readInt (IStream.readChar ⟨[':', '1', '2', ':', '1', '5'], false, false⟩) 0
      = (⟨[':', '1', '5'], false, false⟩, 12) := by decide
  have r6 : IStream.readInt (IStream.readChar ⟨[':', '1', '5'], false, false⟩) 0
      = (⟨[], true, false⟩, 15) := by decide
  have r7 : IStream.readInt (IStream.readChar ⟨[], true, false⟩) 0
      = (⟨[], true, true⟩, 0) := by decide
  unfold STime.ofString
  simp only [String.toList, r1, c1, r2, r3, r4, r5, r6, r7, Bool.not_false, Bool.and_self,
    Bool.not_true, Bool.false_eq_true, if_false, if_true]

theorem showInt_years : ∀ n ∈ List.range 101,
    (showInt (1900 + (n : Int))).all isDigit = true ∧
    (showInt (1900 + (n : Int))).isEmpty = false ∧
    (digitsValue 0 (showInt (1900 + (n : Int))) : Int) = 1900 + (n : Int) := by
  decide!

theorem showIntW_months : ∀ n ∈ List.range 12,
    (showIntW 2 (1 + (n : Int))).all isDigit = true ∧
    (showIntW 2 (1 + (n : Int))).isEmpty = false ∧
    (digitsValue 0 (showIntW 2 (1 + (n : Int))) : Int) = 1 + (n : Int) := by
  decide!

theorem digits_of_all (l : List Char) (v : Int) (h1 : l.all isDigit = true)
    (h2 : l.isEmpty = false) (h3 : (digitsValue 0 l : Int) = v) :
    ∃ d ds, l = d :: ds ∧ (∀ x ∈ d :: ds, isDigit x = true) ∧
      (digitsValue 0 (d :: ds) : Int) = v := by
  cases l with
  | nil => simp at h2
  | cons d ds => exact ⟨d, ds, rfl, by simpa using h1, h3⟩

/-- The text of a year 1900..2000 is a run of decimal digits with that value. -/
theorem showInt_year (y : Int) (h0 : 1900 ≤ y) (h1 : y ≤ 2000) :
    ∃ d ds, showInt y = d :: ds ∧ (∀ x ∈ d :: ds, isDigit x = true) ∧
      (digitsValue 0 (d :: ds) : Int) = y := by
  have h := showInt_years (y - 1900).toNat (List.mem_range.2 (by omega))
  have e : (1900 : Int) + ((y - 1900).toNat : Int) = y := by omega
  rw [e] at h
  exact digits_of_all _ _ h.1 h.2.1 h.2.2

/-- The text of a month 1..12, two characters wide, is a run of decimal digits
with that value. -/
theorem showIntW_month (m : Int) (h0 : 1 ≤ m) (h1 : m ≤ 12) :
    ∃ d ds, showIntW 2 m = d :: ds ∧ (∀ x ∈ d :: ds, isDigit x = true) ∧
      (digitsValue 0 (d :: ds) : Int) = m := by
  have h := showIntW_months (m - 1).toNat (List.mem_range.2 (by omega))
  have e : (1 : Int) + ((m - 1).toNat : Int) = m := by omega
  rw [e] at h
  exact digits_of_all _ _ h.1 h.2.1 h.2.2

theorem get_nonneg (s : STime) (hs : s.isCalendar) (t : Int) (ht : s.get = some t) :
    0 ≤ t := by
  obtain ⟨v, _, hv0, hv1, _, hg⟩ := get_isCalendar s hs
  obtain ⟨_, hy0, _, _, _, _, _, hh0, _, hmi0, _, hs0, _, hms0, _⟩ := hs
  rw [hg] at ht
  have e := Option.some.inj ht
  obtain ⟨hL, _⟩ := getLeapDays_bounds s.year (by omega)
  have hD : 0 ≤ s.year * 365 + getLeapDays s.year + v + s.day - 1 := by
    split_ifs at hv0 <;> omega
  generalize s.year * 365 + getLeapDays s.year + v + s.day - 1 = D at hD e
  omega

/-- The body of the loop of `testMonts` (datetime.cpp, lines 49-60) for a year
1900..2000 and a month 1..12 whose day 29 is a real date: the text comes back
unchanged. -/
theorem checkDate_real (year month : Int) (hy0 : 1900 ≤ year) (hy1 : year ≤ 2000)
    (hm0 : 1 ≤ month) (hm1 : month ≤ 12)
    (hreal : ∃ len, monthLength year (month - 1) = some len ∧ 29 ≤ len) :
    checkDate year month = some true := by
  obtain ⟨d1, ds1, e1, hd1, v1⟩ := showInt_year year hy0 hy1
  obtain ⟨d2, ds2, e2, hd2, v2⟩ := showIntW_month month hm0 hm1
  have hsample : showInt year ++ '-' :: showIntW 2 month ++ "-29 21:12:15".toList
      = d1 :: ds1 ++ '-' :: (d2 :: ds2 ++
        ['-', '2', '9', ' ', '2', '1', ':', '1', '2', ':', '1', '5']) := by
    rw [e1, e2]
    simp
  have hparse := ofString_sample d1 ds1 d2 ds2 hd1 hd2 (by omega) (by omega)
  rw [v1, v2, wrap32_eq _ (by omega) (by omega)] at hparse
  have hcal : STime.isCalendar ⟨year, month - 1, 29, 21, 12, 15, 0, true⟩ := by
    obtain ⟨len, hlen, h29⟩ := hreal
    exact ⟨rfl, by simp only; omega, by simp only; omega, by simp only; omega,
      by simp only; omega, by simp, ⟨len, hlen, h29⟩, by simp, by simp, by simp, by simp,
      by simp, by simp, by simp, by simp⟩
  obtain ⟨t, hg, ho⟩ := ofLongLong_get _ hcal
  have ht := get_nonneg _ hcal t hg
  have hne : (t == LLONG_MIN) = false := by
    rw [LLONG_MIN]
    simp only [beq_eq_false_iff_ne, ne_eq]
    omega
  have hfmt : STime.formatDateTime ⟨year, month - 1, 29, 21, 12, 15, 0, true⟩
      = String.mk (d1 :: ds1 ++ '-' :: (d2 :: ds2 ++
        ['-', '2', '9', ' ', '2', '1', ':', '1', '2', ':', '1', '5'])) := by
    have w : wrap32 (month - 1 + 1) = month := by
      rw [sub_add_cancel]; exact wrap32_eq _ (by omega) (by omega)
    have t1 : showIntW 2 29 = ['2', '9'] := by decide
    have t2 : showIntW 2 21 = ['2', '1'] := by decide
    have t3 : showIntW 2 12 = ['1', '2'] := by decide
    have t4 : showIntW 2 15 = ['1', '5'] := by decide
    simp only [STime.formatDateTime, w, e1, e2, t1, t2, t3, t4]
    simp
  unfold checkDate
  simp only [hsample, DateTime.set_string, hparse, hg, Option.map_some', Option.some_bind,
    DateTime.formatDateTime, hne, Bool.false_eq_true, if_false, ho, hfmt]
  simp

/-- C2: for every broken-down date-time `s` of the calendar (year 1..9999, month
0..11, day from 1 to the leap-adjusted length of the month, hour 0..23, minute
and second 0..59, millisecond 0..999), `STime::get` returns a counter from
which `STime(long long)` rebuilds exactly `s`; the text
`2100-04-01 21:03:15.050` is parsed and formatted back unchanged, and so is
every `YYYY-MM-29 21:12:15` of the test (year 1900..2000, month 1..12) that
names a real date. -/
theorem C2_fields_linear_fields (s : STime) (hs : s.isCalendar) (year month : Int)
    (hy0 : 1900 ≤ year) (hy1 : year ≤ 2000) (hm0 : 1 ≤ month) (hm1 : month ≤ 12)
    (hreal : ∃ len, monthLength year (month - 1) = some len ∧ 29 ≤ len) :
    s.get.bind STime.ofLongLong = some s ∧
    reformat "2100-04-01 21:03:15.050" = some "2100-04-01 21:03:15.050" ∧
    checkDate year month = some true := by
  obtain ⟨t, hg, ho⟩ := ofLongLong_get s hs
  refine ⟨?_, reformat_test_date, checkDate_real year month hy0 hy1 hm0 hm1 hreal⟩
  rw [hg]
  exact ho

theorem C2_fields_linear_fields_witness :
    (STime.get ⟨2024, 1, 29, 23, 59, 59, 999, true⟩).bind STime.ofLongLong
      = some ⟨2024, 1, 29, 23, 59, 59, 999, true⟩ ∧
    reformat "2100-04-01 21:03:15.050" = some "2100-04-01 21:03:15.050" ∧
    checkDate 1996 2 = some true :=
  C2_fields_linear_fields ⟨2024, 1, 29, 23, 59, 59, 999, true⟩
    ⟨rfl, by decide, by decide, by decide, by decide, by decide, ⟨29, by decide, by decide⟩,
      by decide, by decide, by decide, by decide, by decide, by decide, by decide, by decide⟩
    1996 2 (by decide) (by decide) (by decide) (by decide) ⟨29, by decide, by decide⟩

/-- C3: for every year 1..9999 and every time of day, the fields (year, February,
29, time) come back unchanged from `STime::get` followed by `STime(long long)`
if and only if `isLeap(year)`; when the year is not leap they come back as
1 March of the same year with the same time of day. The text
`1900-02-29 21:12:15` formats as `1900-03-01 21:12:15` and
`2000-02-29 21:12:15` formats unchanged. -/
theorem C3_february_29 (year hour minute second millisecond : Int)
    (hy0 : 1 ≤ year) (hy1 : year ≤ 9999) (hh0 : 0 ≤ hour) (hh1 : hour ≤ 23)
    (hmi0 : 0 ≤ minute) (hmi1 : minute ≤ 59) (hs0 : 0 ≤ second) (hs1 : second ≤ 59)
    (hms0 : 0 ≤ millisecond) (hms1 : millisecond ≤ 999) :
    ((STime.get ⟨year, 1, 29, hour, minute, second, millisecond, true⟩).bind STime.ofLongLong
        = some ⟨year, 1, 29, hour, minute, second, millisecond, true⟩ ↔ isLeap year = true) ∧
    (isLeap year = false →
      (STime.get ⟨year, 1, 29, hour, minute, second, millisecond, true⟩).bind STime.ofLongLong
        = some ⟨year, 2, 1, hour, minute, second, millisecond, true⟩) ∧
    reformat "1900-02-29 21:12:15" = some "1900-03-01 21:12:15" ∧
    reformat "2000-02-29 21:12:15" = some "2000-02-29 21:12:15" := by
  have hmarch : isLeap year = false →
      (STime.get ⟨year, 1, 29, hour, minute, second, millisecond, true⟩).bind STime.ofLongLong
        = some ⟨year, 2, 1, hour, minute, second, millisecond, true⟩ := by
    intro hleap
    have hcal : STime.isCalendar ⟨year, 2, 1, hour, minute, second, millisecond, true⟩ :=
      ⟨rfl, hy0, hy1, by simp, by simp, by simp,
        ⟨31, by simp [monthLength, hleap, tableAt, MONTH_LENGTHS], by simp⟩,
        hh0, hh1, hmi0, hmi1, hs0, hs1, hms0, hms1⟩
    obtain ⟨t, hg, ho⟩ := ofLongLong_get _ hcal
    have g1 := get_of_month ⟨year, 1, 29, hour, minute, second, millisecond, true⟩ 31 rfl
      (by simp) (by simp) (by simp [hleap, tableAt, MONTH_STARTS])
      (by simp only; omega) (by simp only; omega) (by decide) (by decide) (by simp)
      (by simp) hh0 hh1 hmi0 hmi1 hs0 hs1 hms0 hms1
    have g2 := get_of_month ⟨year, 2, 1, hour, minute, second, millisecond, true⟩ 59 rfl
      (by simp) (by simp) (by simp [hleap, tableAt, MONTH_STARTS])
      (by simp only; omega) (by simp only; omega) (by decide) (by decide) (by simp)
      (by simp) hh0 hh1 hmi0 hmi1 hs0 hs1 hms0 hms1
    simp only at g1 g2
    rw [g2] at hg
    rw [g1]
    have e : (year * 365 + getLeapDays year + 31 + 29 - 1)
        = (year * 365 + getLeapDays year + 59 + 1 - 1) := by ring
    rw [e, hg]
    exact ho
  refine ⟨⟨?_, ?_⟩, hmarch, reformat_1900, reformat_2000⟩
  · intro h
    cases hleap : isLeap year with
    | true => rfl
    | false =>
      rw [hmarch hleap] at h
      simp at h
  · intro hleap
    have hcal : STime.isCalendar ⟨year, 1, 29, hour, minute, second, millisecond, true⟩ :=
      ⟨rfl, hy0, hy1, by simp, by simp, by simp,
        ⟨29, by simp [monthLength, hleap, tableAt, MONTH_LENGTHS_LEAP], by simp⟩,
        hh0, hh1, hmi0, hmi1, hs0, hs1, hms0, hms1⟩
    obtain ⟨t, hg, ho⟩ := ofLongLong_get _ hcal
    rw [hg]
    exact ho

theorem C3_february_29_witness :
    ((STime.get ⟨1900, 1, 29, 21, 12, 15, 0, true⟩).bind STime.ofLongLong
        = some ⟨1900, 1, 29, 21, 12, 15, 0, true⟩ ↔ isLeap 1900 = true) ∧
    (isLeap 1900 = false →
      (STime.get ⟨1900, 1, 29, 21, 12, 15, 0, true⟩).bind STime.ofLongLong
        = some ⟨1900, 2, 1, 21, 12, 15, 0, true⟩) ∧
    reformat "1900-02-29 21:12:15" = some "1900-03-01 21:12:15" ∧
    reformat "2000-02-29 21:12:15" = some "2000-02-29 21:12:15" :=
  C3_february_29 1900 21 12 15 0 (by decide) (by decide) (by decide) (by decide) (by decide)
    (by decide) (by decide) (by decide) (by decide) (by decide)



/-! ## The counter against the calendar counted day by day -/

theorem daysOfYears_eq (n : Nat) : daysOfYears n = 365 * (n : Int) + getLeapDays n := by
  induction n with
  | zero => decide
  | succ k ih =>
    have hs := isLeap_step (k : Int) (by omega)
    simp only [daysOfYears, ih]
    push_cast
    split_ifs at hs ⊢ <;> omega

theorem daysOfMonths_leap (year m v : Int) (h0 : 0 ≤ m) (h1 : m ≤ 11)
    (hleap : isLeap year = true) (hv : tableAt MONTH_STARTS_LEAP m = some v) :
    daysOfMonths year m.toNat = v + 1 := by
  have hm : m = (m.toNat : Int) := by omega
  have hn : m.toNat < 12 := by omega
  generalize m.toNat = n at hm hn
  subst hm
  have e : tableAt MONTH_STARTS_LEAP (n : Int) = MONTH_STARTS_LEAP[n]? := by simp [tableAt]
  rw [e] at hv
  unfold daysOfMonths
  rw [if_pos hleap]
  interval_cases n <;> simp [MONTH_STARTS_LEAP] at hv <;> subst hv <;>
    simp [MONTH_LENGTHS_LEAP]

theorem daysOfMonths_common (year m v : Int) (h0 : 0 ≤ m) (h1 : m ≤ 11)
    (hleap : ¬ isLeap year = true) (hv : tableAt MONTH_STARTS m = some v) :
    daysOfMonths year m.toNat = v := by
  have hm : m = (m.toNat : Int) := by omega
  have hn : m.toNat < 12 := by omega
  generalize m.toNat = n at hm hn
  subst hm
  have e : tableAt MONTH_STARTS (n : Int) = MONTH_STARTS[n]? := by simp [tableAt]
  rw [e] at hv
  unfold daysOfMonths
  rw [if_neg hleap]
  interval_cases n <;> simp [MONTH_STARTS] at hv <;> subst hv <;>
    simp [MONTH_LENGTHS]

/-- The counter of a date-time of the calendar is the time elapsed since
0001-01-01 00:00:00.000 plus 31,536,000,000 ms, that is 365 days. -/
theorem get_eq_elapsed (s : STime) (hs : s.isCalendar) :
    s.get = some (31536000000 + elapsedMillis s) := by
  obtain ⟨v, hst, _, _, _, hget⟩ := get_isCalendar s hs
  obtain ⟨_, hy0, hy1, hm0, hm1, _⟩ := hs
  rw [hget]
  congr 1
  have hY := daysOfYears_eq (s.year - 1).toNat
  have e : (((s.year - 1).toNat : Nat) : Int) = s.year - 1 := by omega
  rw [e] at hY
  have hstep := isLeap_step (s.year - 1) (by omega)
  have e2 : s.year - 1 + 1 = s.year := by ring
  rw [e2] at hstep
  unfold elapsedMillis
  rw [hY]
  by_cases hleap : isLeap s.year = true
  · rw [if_pos hleap] at hst hstep
    rw [daysOfMonths_leap s.year s.month v hm0 hm1 hleap hst]
    omega
  · rw [if_neg hleap] at hst hstep
    rw [daysOfMonths_common s.year s.month v hm0 hm1 hleap hst]
    omega

theorem inRange_iff (x : DateTime) :
    x.inRange ↔ 31536000000 ≤ x.m_time ∧ x.m_time ≤ 315569433599999 := by
  constructor
  · rintro ⟨s, hs, hg⟩
    obtain ⟨v, hst, hr0, hr1, _, hget⟩ := get_isCalendar s hs
    obtain ⟨_, hy0, hy1, hm0, hm1, hd0, _, hh0, hh1, hmi0, hmi1, hs0, hs1, hms0, hms1⟩ := hs
    rw [hget] at hg
    have hg2 := Option.some.inj hg
    have hL := getLeapDays_nonneg s.year (by omega)
    by_cases hleap : isLeap s.year = true
    · have h4 := (isLeap_nonneg s.year (by omega)).1 hleap
      rw [if_pos hleap] at hr0
      constructor <;> omega
    · rw [if_neg hleap] at hr0
      constructor <;> omega
  · rintro ⟨h0, h1⟩
    obtain ⟨s, _, hcal, hg⟩ := ofLongLong_spec x.m_time h0 h1
    exact ⟨s, hcal, hg⟩



/-! ## Claims C4 - C6: Unix time and the origin of the counter -/

theorem set_time_t_m_time (u : Int) (h0 : 0 < u) (h1 : u ≤ 9223309869721975) :
    (DateTime.set_time_t u).m_time = u * 1000 + 62167132800000 := by
  unfold DateTime.set_time_t
  rw [if_pos h0, TIME_MULTIPLIER_eq, TIME_T_ZERO]
  simp only
  rw [wrap64_eq (u * 1000) (by omega) (by omega), wrap64_eq _ (by omega) (by omega)]

/-- C4, as stated, fails: the timestamp 9223372036854775807 is positive and gives
a valid value, yet `asUnixTime` of it returns -1; the timestamp
1152921442439714176 is positive and gives the invalid value. -/
theorem C4_unix_round_trip_fails :
    (0 : Int) < 9223372036854775807 ∧
    (DateTime.set_time_t 9223372036854775807).isValid = true ∧
    (DateTime.set_time_t 9223372036854775807).asUnixTime = -1 ∧
    (0 : Int) < 1152921442439714176 ∧
    (DateTime.set_time_t 1152921442439714176).isValid = false := by
  decide

/-- C4, amended: for every timestamp `u` up to 9223309869721975, the largest one
for which `u * 1000 + TIME_T_ZERO` fits the 64-bit counter,
`DateTime::set(time_t u)` gives a valid value if and only if `u > 0`, and for
`u > 0` `asUnixTime` of the result returns `u`. -/
theorem C4_unix_round_trip (u : Int) (h1 : u ≤ 9223309869721975) :
    ((DateTime.set_time_t u).isValid = true ↔ 0 < u) ∧
    (0 < u → (DateTime.set_time_t u).asUnixTime = u) := by
  constructor
  · constructor
    · intro hv
      by_contra hu
      unfold DateTime.set_time_t at hv
      rw [if_neg hu] at hv
      simp [DateTime.isValid] at hv
    · intro hu
      unfold DateTime.isValid
      rw [set_time_t_m_time u hu h1, LLONG_MIN]
      simp only [bne_iff_ne, ne_eq]
      omega
  · intro hu
    unfold DateTime.asUnixTime
    rw [set_time_t_m_time u hu h1, LLONG_MIN, TIME_T_ZERO, TIME_MULTIPLIER_eq]
    have hne : ¬ (u * 1000 + 62167132800000 == -9223372036854775808) = true := by
      simp only [beq_iff_eq]; omega
    rw [if_neg hne]
    simp only
    rw [wrap64_eq _ (by omega) (by omega), Int.tdiv_eq_ediv (by omega) (by decide)]
    have e : (u * 1000 + 62167132800000 - 62167132800000) / 1000 = u := by omega
    rw [e, if_neg (by omega)]

theorem C4_unix_round_trip_witness :
    ((DateTime.set_time_t 1).isValid = true ↔ (0 : Int) < 1) ∧
    ((0 : Int) < 1 → (DateTime.set_time_t 1).asUnixTime = 1) :=
  C4_unix_round_trip 1 (by decide)

theorem epoch_get : STime.get ⟨1970, 0, 1, 0, 0, 0, 0, true⟩ = some TIME_T_ZERO := by decide

theorem epoch_isCalendar : STime.isCalendar ⟨1970, 0, 1, 0, 0, 0, 0, true⟩ :=
  ⟨rfl, by decide, by decide, by decide, by decide, by decide, ⟨31, by decide, by decide⟩,
    by decide, by decide, by decide, by decide, by decide, by decide, by decide, by decide⟩

theorem epoch_elapsed :
    elapsedMillis ⟨1970, 0, 1, 0, 0, 0, 0, true⟩ = 62167132800000 - 31536000000 := by
  have h := get_eq_elapsed _ epoch_isCalendar
  rw [epoch_get, TIME_T_ZERO] at h
  have h2 := Option.some.inj h
  omega

/-- C5, as stated, fails: the value built from the positive Unix timestamp
9223372036854775807 is the date-time 1969-12-31 23:59:59, one second before
1970-01-01 00:00:00 and not 9223372036854775807 seconds after it. -/
theorem C5_unix_epoch_fails :
    (0 : Int) < 9223372036854775807 ∧
    STime.ofLongLong (DateTime.set_time_t 9223372036854775807).m_time
      = some ⟨1969, 11, 31, 23, 59, 59, 0, true⟩ ∧
    STime.get ⟨1969, 11, 31, 23, 59, 59, 0, true⟩ = some (TIME_T_ZERO - 1000) ∧
    (DateTime.set_time_t 9223372036854775807).formatDateTime = some "1969-12-31 23:59:59" := by
  decide

/-- C5, amended: `STime::get` of the fields 1970-01-01 00:00:00.000 is
`TIME_T_ZERO` = 62,167,132,800,000; for every Unix timestamp `u` with
`0 < u ≤ 253402300799` (up to 9999-12-31 23:59:59) the value built from `u`
breaks down into the date-time that lies `u` seconds after
1970-01-01 00:00:00, and it is the value built from the broken-down date-time
`s` of the calendar that lies `u` seconds after that instant; `u = 86400`
formats as `1970-01-02 00:00:00`. -/
theorem C5_unix_epoch (u : Int) (h0 : 0 < u) (h1 : u ≤ 253402300799) (s : STime)
    (hs : s.isCalendar)
    (hsec : elapsedMillis s = elapsedMillis ⟨1970, 0, 1, 0, 0, 0, 0, true⟩ + 1000 * u) :
    STime.get ⟨1970, 0, 1, 0, 0, 0, 0, true⟩ = some TIME_T_ZERO ∧
    (STime.ofLongLong (DateTime.set_time_t u).m_time).map elapsedMillis
      = some (elapsedMillis ⟨1970, 0, 1, 0, 0, 0, 0, true⟩ + 1000 * u) ∧
    s.get = some (DateTime.set_time_t u).m_time ∧
    STime.ofLongLong (DateTime.set_time_t u).m_time = some s ∧
    (DateTime.set_time_t 86400).formatDateTime = some "1970-01-02 00:00:00" := by
  have hm := set_time_t_m_time u h0 (by omega)
  have hg : s.get = some (DateTime.set_time_t u).m_time := by
    rw [get_eq_elapsed s hs, hsec, epoch_elapsed, hm]
    congr 1
    omega
  have ho : STime.ofLongLong (DateTime.set_time_t u).m_time = some s := by
    obtain ⟨t, h2, h3⟩ := ofLongLong_get s hs
    rw [hg] at h2
    rw [Option.some.inj h2]
    exact h3
  refine ⟨epoch_get, ?_, hg, ho, by decide⟩
  rw [ho]
  simp only [Option.map_some']
  rw [hsec]

theorem C5_unix_epoch_witness :
    STime.get ⟨1970, 0, 1, 0, 0, 0, 0, true⟩ = some TIME_T_ZERO ∧
    (STime.ofLongLong (DateTime.set_time_t 86400).m_time).map elapsedMillis
      = some (elapsedMillis ⟨1970, 0, 1, 0, 0, 0, 0, true⟩ + 1000 * 86400) ∧
    STime.get ⟨1970, 0, 2, 0, 0, 0, 0, true⟩ = some (DateTime.set_time_t 86400).m_time ∧
    STime.ofLongLong (DateTime.set_time_t 86400).m_time = some ⟨1970, 0, 2, 0, 0, 0, 0, true⟩ ∧
    (DateTime.set_time_t 86400).formatDateTime = some "1970-01-02 00:00:00" :=
  C5_unix_epoch 86400 (by decide) (by decide) ⟨1970, 0, 2, 0, 0, 0, 0, true⟩
    ⟨rfl, by decide, by decide, by decide, by decide, by decide, ⟨31, by decide, by decide⟩,
      by decide, by decide, by decide, by decide, by decide, by decide, by decide, by decide⟩
    (by
      have a : elapsedMillis ⟨1970, 0, 2, 0, 0, 0, 0, true⟩
          = elapsedMillis ⟨1970, 0, 1, 0, 0, 0, 0, true⟩ + 86400000 := by
        simp only [elapsedMillis]
        ring
      rw [a]
      norm_num)

/-- C6: the code at the input 0001-01-01 00:00:00.000: the raw counter of that
value is 31,536,000,000 and not 0, and the raw counter of every date-time `s`
of the calendar is the number of milliseconds elapsed since
0001-01-01 00:00:00.000 plus 31,536,000,000 (365 days). -/
theorem C6_raw_origin (s : STime) (hs : s.isCalendar) :
    (DateTime.set_string "0001-01-01 00:00:00.000").map DateTime.getRaw = some 31536000000 ∧
    elapsedMillis ⟨1, 0, 1, 0, 0, 0, 0, true⟩ = 0 ∧
    s.get.map (fun t => DateTime.getRaw ⟨t⟩) = some (31536000000 + elapsedMillis s) := by
  refine ⟨by decide, by decide, ?_⟩
  rw [get_eq_elapsed s hs]
  rfl

theorem C6_raw_origin_witness :
    (DateTime.set_string "0001-01-01 00:00:00.000").map DateTime.getRaw = some 31536000000 ∧
    elapsedMillis ⟨1, 0, 1, 0, 0, 0, 0, true⟩ = 0 ∧
    (STime.get ⟨1, 0, 1, 0, 0, 0, 0, true⟩).map (fun t => DateTime.getRaw ⟨t⟩)
      = some (31536000000 + elapsedMillis ⟨1, 0, 1, 0, 0, 0, 0, true⟩) :=
  C6_raw_origin ⟨1, 0, 1, 0, 0, 0, 0, true⟩
    ⟨rfl, by decide, by decide, by decide, by decide, by decide, ⟨31, by decide, by decide⟩,
      by decide, by decide, by decide, by decide, by decide, by decide, by decide, by decide⟩



/-! ## Claims C7 - C10: weekday, day of year, day arithmetic -/

theorem inRange_ne_min (x : DateTime) (hx : x.inRange) : (x.m_time != LLONG_MIN) = true := by
  obtain ⟨h0, _⟩ := (inRange_iff x).1 hx
  rw [LLONG_MIN]
  simp only [bne_iff_ne, ne_eq]
  omega

theorem inRange_beq_min (x : DateTime) (hx : x.inRange) : (x.m_time == LLONG_MIN) = false := by
  obtain ⟨h0, _⟩ := (inRange_iff x).1 hx
  rw [LLONG_MIN]
  simp only [beq_eq_false_iff_ne, ne_eq]
  omega

/-- The counter after `incDay(days)` for a value of the supported range and a
number of days of the `int` range. -/
theorem incDay_m_time (x : DateTime) (hx : x.inRange) (days : Int)
    (h0 : -2147483648 ≤ days) (h1 : days ≤ 2147483647) :
    (x.incDay days).m_time = x.m_time + days * 86400000 := by
  obtain ⟨ha, hb⟩ := (inRange_iff x).1 hx
  unfold DateTime.incDay
  rw [if_pos (inRange_ne_min x hx), MILLISECS_IN_DAY_eq]
  simp only
  rw [wrap64_eq (days * 86400000) (by omega) (by omega), wrap64_eq _ (by omega) (by omega)]

theorem getWeekDay_inRange (x : DateTime) (h0 : 0 ≤ x.m_time) (h1 : x.m_time ≠ LLONG_MIN) :
    x.getWeekDay = (x.m_time / 86400000 + 6) % 7 := by
  unfold DateTime.getWeekDay
  rw [if_pos (by simp only [bne_iff_ne, ne_eq]; exact h1), MILLISECS_IN_DAY_eq,
    Int.tdiv_eq_ediv h0 (by decide), Int.tmod_eq_emod (by omega) (by decide)]

/-- C7: `getWeekDay` of the value constructed from 0001-01-01 is 0; for every
value `x` of the supported range `getWeekDay(x)` lies in 0..6,
`getWeekDay(incDay(x,1)) = (getWeekDay(x) + 1) mod 7` and `incDay(x,7)` has
the weekday of `x`; the seven days that start at 0001-01-01 return
0, 1, 2, 3, 4, 5, 6. -/
theorem C7_week_day (x : DateTime) (hx : x.inRange) :
    (DateTime.set_string "0001-01-01").map DateTime.getWeekDay = some 0 ∧
    0 ≤ x.getWeekDay ∧ x.getWeekDay ≤ 6 ∧
    (x.incDay 1).getWeekDay = (x.getWeekDay + 1) % 7 ∧
    (x.incDay 7).getWeekDay = x.getWeekDay ∧
    (List.range 7).map (fun i : Nat =>
        (DateTime.set_string "0001-01-01").map (fun d => (d.incDay i).getWeekDay))
      = [some 0, some 1, some 2, some 3, some 4, some 5, some 6] := by
  obtain ⟨ha, hb⟩ := (inRange_iff x).1 hx
  have hne : x.m_time ≠ LLONG_MIN := by rw [LLONG_MIN]; omega
  have e1 := incDay_m_time x hx 1 (by decide) (by decide)
  have e7 := incDay_m_time x hx 7 (by decide) (by decide)
  have w0 := getWeekDay_inRange x (by omega) hne
  have w1 := getWeekDay_inRange (x.incDay 1) (by omega) (by rw [LLONG_MIN]; omega)
  have w7 := getWeekDay_inRange (x.incDay 7) (by omega) (by rw [LLONG_MIN]; omega)
  rw [e1] at w1
  rw [e7] at w7
  refine ⟨by decide, by omega, by omega, by omega, by omega, by decide⟩

theorem C7_week_day_witness :
    (DateTime.set_string "0001-01-01").map DateTime.getWeekDay = some 0 ∧
    0 ≤ DateTime.getWeekDay ⟨64063170000000⟩ ∧ DateTime.getWeekDay ⟨64063170000000⟩ ≤ 6 ∧
    (DateTime.incDay ⟨64063170000000⟩ 1).getWeekDay
      = (DateTime.getWeekDay ⟨64063170000000⟩ + 1) % 7 ∧
    (DateTime.incDay ⟨64063170000000⟩ 7).getWeekDay = DateTime.getWeekDay ⟨64063170000000⟩ ∧
    (List.range 7).map (fun i : Nat =>
        (DateTime.set_string "0001-01-01").map (fun d => (d.incDay i).getWeekDay))
      = [some 0, some 1, some 2, some 3, some 4, some 5, some 6] :=
  C7_week_day ⟨64063170000000⟩ ((inRange_iff _).2 ⟨by decide, by decide⟩)

/-- C8: the code at leap-year inputs: `getDayOfYear` returns 0 for 2000-01-01,
59 for 2000-02-29, 60 for 2000-03-01 and 365 for 2000-12-31, while it returns
1 for 2001-01-01 and 365 for 2001-12-31; for every date-time `s` of the
calendar it returns the 1-based day of the year in a year that is not leap and
one less than it in a leap year. -/
theorem C8_day_of_year (s : STime) (hs : s.isCalendar) :
    (DateTime.set_string "2000-01-01").bind DateTime.getDayOfYear = some 0 ∧
    (DateTime.set_string "2000-02-29").bind DateTime.getDayOfYear = some 59 ∧
    (DateTime.set_string "2000-03-01").bind DateTime.getDayOfYear = some 60 ∧
    (DateTime.set_string "2000-12-31").bind DateTime.getDayOfYear = some 365 ∧
    (DateTime.set_string "2001-01-01").bind DateTime.getDayOfYear = some 1 ∧
    (DateTime.set_string "2001-12-31").bind DateTime.getDayOfYear = some 365 ∧
    dayNumber ⟨2000, 0, 1, 0, 0, 0, 0, true⟩ = 1 ∧
    dayNumber ⟨2000, 11, 31, 0, 0, 0, 0, true⟩ = 366 ∧
    s.get.bind (fun t => DateTime.getDayOfYear ⟨t⟩)
      = some (dayNumber s - if isLeap s.year then 1 else 0) := by
  refine ⟨by decide, by decide, by decide, by decide, by decide, by decide, by decide,
    by decide, ?_⟩
  obtain ⟨t, hg, ho⟩ := ofLongLong_get s hs
  have hr : DateTime.inRange ⟨t⟩ := ⟨s, hs, hg⟩
  obtain ⟨v, hst, _⟩ := get_isCalendar s hs
  obtain ⟨_, _, _, hm0, hm1, _⟩ := hs
  rw [hg]
  simp only [Option.some_bind, DateTime.getDayOfYear]
  rw [inRange_beq_min ⟨t⟩ hr]
  simp only [Bool.false_eq_true, if_false, ho, Option.some_bind, STime.dayOfYear, dayNumber]
  by_cases hleap : isLeap s.year = true
  · rw [if_pos hleap] at hst
    rw [if_pos hleap, hst, daysOfMonths_leap s.year s.month v hm0 hm1 hleap hst, if_pos hleap]
    simp only [Option.map_some']
    congr 1
    ring
  · rw [if_neg hleap] at hst
    rw [if_neg hleap, hst, daysOfMonths_common s.year s.month v hm0 hm1 hleap hst,
      if_neg hleap]
    simp only [Option.map_some']
    congr 1
    ring

theorem C8_day_of_year_witness :
    (DateTime.set_string "2000-01-01").bind DateTime.getDayOfYear = some 0 ∧
    (DateTime.set_string "2000-02-29").bind DateTime.getDayOfYear = some 59 ∧
    (DateTime.set_string "2000-03-01").bind DateTime.getDayOfYear = some 60 ∧
    (DateTime.set_string "2000-12-31").bind DateTime.getDayOfYear = some 365 ∧
    (DateTime.set_string "2001-01-01").bind DateTime.getDayOfYear = some 1 ∧
    (DateTime.set_string "2001-12-31").bind DateTime.getDayOfYear = some 365 ∧
    dayNumber ⟨2000, 0, 1, 0, 0, 0, 0, true⟩ = 1 ∧
    dayNumber ⟨2000, 11, 31, 0, 0, 0, 0, true⟩ = 366 ∧
    (STime.get ⟨2000, 11, 31, 0, 0, 0, 0, true⟩).bind (fun t => DateTime.getDayOfYear ⟨t⟩)
      = some (dayNumber ⟨2000, 11, 31, 0, 0, 0, 0, true⟩ - if isLeap 2000 then 1 else 0) :=
  C8_day_of_year ⟨2000, 11, 31, 0, 0, 0, 0, true⟩
    ⟨rfl, by decide, by decide, by decide, by decide, by decide, ⟨31, by decide, by decide⟩,
      by decide, by decide, by decide, by decide, by decide, by decide, by decide, by decide⟩

/-- C9: for every value `x` of the supported range whose next day is still in
the supported range, `incDay(x,1) > x` under `operator>` and
`daysBetween(incDay(x,1), x) = 1`. -/
theorem C9_incDay_monotone (x : DateTime) (hx : x.inRange) (hx1 : (x.incDay 1).inRange) :
    (x.incDay 1).gt x = true ∧ DateTime.daysBetween (x.incDay 1) x = 1 := by
  obtain ⟨ha, hb⟩ := (inRange_iff x).1 hx
  have e1 := incDay_m_time x hx 1 (by decide) (by decide)
  constructor
  · simp only [DateTime.gt, DateTime.le, DateTime.lt, DateTime.eq, e1, Bool.not_eq_true',
      Bool.or_eq_false_iff, decide_eq_false_iff_not, beq_eq_false_iff_ne, ne_eq]
    constructor <;> omega
  · unfold DateTime.daysBetween
    rw [inRange_beq_min x hx, inRange_beq_min _ hx1, e1, MILLISECS_IN_DAY_eq]
    simp only [Bool.or_self, Bool.false_eq_true, if_false]
    have e : x.m_time + 1 * 86400000 - x.m_time = 86400000 := by ring
    rw [e]
    decide

theorem C9_incDay_monotone_witness :
    (DateTime.incDay ⟨64063170000000⟩ 1).gt ⟨64063170000000⟩ = true ∧
    DateTime.daysBetween (DateTime.incDay ⟨64063170000000⟩ 1) ⟨64063170000000⟩ = 1 :=
  C9_incDay_monotone ⟨64063170000000⟩ ((inRange_iff _).2 ⟨by decide, by decide⟩)
    ((inRange_iff _).2 ⟨by decide, by decide⟩)

/-- C10: for all values `a` and `b` of the supported range,
`daysBetween(a,b) = daysBetween(b,a)`, both are the absolute difference of the
raw counters divided by 86,400,000 and truncated toward zero, and the result
is not negative. -/
theorem C10_daysBetween_symmetric (a b : DateTime) (ha : a.inRange) (hb : b.inRange) :
    DateTime.daysBetween a b = DateTime.daysBetween b a ∧
    DateTime.daysBetween a b = Int.tdiv |a.getRaw - b.getRaw| 86400000 ∧
    0 ≤ DateTime.daysBetween a b := by
  obtain ⟨a0, a1⟩ := (inRange_iff a).1 ha
  obtain ⟨b0, b1⟩ := (inRange_iff b).1 hb
  have key : ∀ p q : DateTime, p.inRange → q.inRange → 31536000000 ≤ p.m_time →
      p.m_time ≤ 315569433599999 → 31536000000 ≤ q.m_time → q.m_time ≤ 315569433599999 →
      DateTime.daysBetween p q = |p.m_time - q.m_time| / 86400000 := by
    intro p q hp hq p0 p1 q0 q1
    unfold DateTime.daysBetween
    rw [inRange_beq_min p hp, inRange_beq_min q hq, MILLISECS_IN_DAY_eq]
    simp only [Bool.or_self, Bool.false_eq_true, if_false]
    rw [wrap64_eq (p.m_time - q.m_time) (by omega) (by omega)]
    by_cases hneg : p.m_time - q.m_time < 0
    · rw [if_pos hneg, wrap64_eq _ (by omega) (by omega),
        Int.tdiv_eq_ediv (by omega) (by decide), abs_of_neg hneg,
        wrap32_eq _ (by omega) (by omega)]
    · rw [if_neg hneg, Int.tdiv_eq_ediv (by omega) (by decide),
        abs_of_nonneg (by omega), wrap32_eq _ (by omega) (by omega)]
  have kab := key a b ha hb a0 a1 b0 b1
  have kba := key b a hb ha b0 b1 a0 a1
  have hsym : |b.m_time - a.m_time| = |a.m_time - b.m_time| := abs_sub_comm _ _
  have hnn : 0 ≤ |a.m_time - b.m_time| := abs_nonneg _
  refine ⟨by rw [kab, kba, hsym], ?_, by rw [kab]; omega⟩
  rw [kab]
  simp only [DateTime.getRaw]
  rw [Int.tdiv_eq_ediv hnn (by decide)]

theorem C10_daysBetween_symmetric_witness :
    DateTime.daysBetween ⟨64063170000000⟩ ⟨54463170195040⟩
      = DateTime.daysBetween ⟨54463170195040⟩ ⟨64063170000000⟩ ∧
    DateTime.daysBetween ⟨64063170000000⟩ ⟨54463170195040⟩
      = Int.tdiv |DateTime.getRaw ⟨64063170000000⟩ - DateTime.getRaw ⟨54463170195040⟩| 86400000 ∧
    0 ≤ DateTime.daysBetween ⟨64063170000000⟩ ⟨54463170195040⟩ :=
  C10_daysBetween_symmetric ⟨64063170000000⟩ ⟨54463170195040⟩
    ((inRange_iff _).2 ⟨by decide, by decide⟩) ((inRange_iff _).2 ⟨by decide, by decide⟩)


/-! ## Claims C14, C16, C19 -/

/-- C14, as stated, fails: the value of 1969-12-31 23:59:59.999 is valid and its
counter is smaller than `TIME_T_ZERO`, the counter of 1970-01-01 00:00:00.000,
yet `asUnixTime` returns 0 for it and not -1. -/
theorem C14_before_epoch_fails :
    STime.get ⟨1970, 0, 1, 0, 0, 0, 0, true⟩ = some TIME_T_ZERO ∧
    DateTime.set_string "1969-12-31 23:59:59.999" = some ⟨TIME_T_ZERO - 1⟩ ∧
    (DateTime.mk (TIME_T_ZERO - 1)).isValid = true ∧
    (DateTime.mk (TIME_T_ZERO - 1)).m_time < TIME_T_ZERO ∧
    (DateTime.mk (TIME_T_ZERO - 1)).asUnixTime = 0 := by
  decide

/-- C14, amended: for every valid value whose counter is a whole second or more
before `TIME_T_ZERO` (and not below `LLONG_MIN + TIME_T_ZERO`, so that the
difference of the counters fits 64 bits, as it does for every value of the
years 1..9999), `asUnixTime` returns -1; for a counter within the last 999
milliseconds before `TIME_T_ZERO` it returns 0; and `asUnixTime` of any value
never returns a negative number other than -1. -/
theorem C14_before_epoch (x : DateTime) (h0 : LLONG_MIN + TIME_T_ZERO ≤ x.m_time)
    (h1 : x.m_time < TIME_T_ZERO) :
    x.isValid = true ∧
    (x.m_time ≤ TIME_T_ZERO - 1000 → x.asUnixTime = -1) ∧
    (TIME_T_ZERO - 1000 < x.m_time → x.asUnixTime = 0) ∧
    (∀ y : DateTime, y.asUnixTime < 0 → y.asUnixTime = -1) := by
  rw [LLONG_MIN, TIME_T_ZERO] at h0
  rw [TIME_T_ZERO] at h1
  have hne : ¬ (x.m_time == LLONG_MIN) = true := by
    rw [LLONG_MIN]; simp only [beq_iff_eq]; omega
  have hw : wrap64 (x.m_time - TIME_T_ZERO) = x.m_time - 62167132800000 := by
    rw [TIME_T_ZERO, wrap64_eq _ (by omega) (by omega)]
  have hd : Int.tdiv (x.m_time - 62167132800000) 1000
      = -((62167132800000 - x.m_time) / 1000) := by
    rw [tdiv_cases _ _ (by decide), if_neg (by omega)]
    congr 2
    ring
  refine ⟨?_, ?_, ?_, ?_⟩
  · unfold DateTime.isValid
    rw [LLONG_MIN]
    simp only [bne_iff_ne, ne_eq]
    omega
  · intro h
    rw [TIME_T_ZERO] at h
    unfold DateTime.asUnixTime
    rw [if_neg hne]
    simp only
    rw [hw, TIME_MULTIPLIER_eq, hd, if_pos (by omega)]
  · intro h
    rw [TIME_T_ZERO] at h
    unfold DateTime.asUnixTime
    rw [if_neg hne]
    simp only
    rw [hw, TIME_MULTIPLIER_eq, hd]
    have e : (62167132800000 - x.m_time) / 1000 = 0 := by omega
    rw [e]
    rfl
  · intro y hy
    unfold DateTime.asUnixTime at hy ⊢
    by_cases hm : (y.m_time == LLONG_MIN) = true
    · rw [if_pos hm]
    · rw [if_neg hm] at hy ⊢
      simp only at hy ⊢
      by_cases hr : Int.tdiv (wrap64 (y.m_time - TIME_T_ZERO)) TIME_MULTIPLIER < 0
      · rw [if_pos hr]
      · rw [if_neg hr] at hy
        exact absurd hy hr

theorem C14_before_epoch_witness :
    (DateTime.mk 62167132799000).isValid = true ∧
    ((DateTime.mk 62167132799000).m_time ≤ TIME_T_ZERO - 1000 →
      (DateTime.mk 62167132799000).asUnixTime = -1) ∧
    (TIME_T_ZERO - 1000 < (DateTime.mk 62167132799000).m_time →
      (DateTime.mk 62167132799000).asUnixTime = 0) ∧
    (∀ y : DateTime, y.asUnixTime < 0 → y.asUnixTime = -1) :=
  C14_before_epoch ⟨62167132799000⟩ (by decide) (by decide)

/-- C16: the default-constructed value is the invalid value and the only one
(`isValid` is false exactly for it); on it `asUnixTime`, `getWeekDay` and
`getDayOfYear` return -1, `formatDate` and `formatDateTime` return the empty
string; `daysBetween`, `monthsBetween` and `yearsBetween` return -1 when
either operand is it, whatever the other operand `y` is; and `incSecond`,
`incMinute`, `incHour`, `incDay`, `incMonth`, `incYear` with any amount `n`
and `toUTC`, `fromUTC` with any time zone offset `tz` leave it invalid. -/
theorem C16_invalid_sentinels (y : DateTime) (n tz : Int) :
    DateTime.new.isValid = false ∧
    (∀ x : DateTime, x.isValid = false ↔ x = DateTime.new) ∧
    DateTime.new.asUnixTime = -1 ∧
    DateTime.new.getWeekDay = -1 ∧
    DateTime.new.getDayOfYear = some (-1) ∧
    DateTime.new.formatDate = some "" ∧
    DateTime.new.formatDateTime = some "" ∧
    DateTime.daysBetween DateTime.new y = -1 ∧
    DateTime.daysBetween y DateTime.new = -1 ∧
    DateTime.monthsBetween DateTime.new y = some (-1) ∧
    DateTime.monthsBetween y DateTime.new = some (-1) ∧
    DateTime.yearsBetween DateTime.new y = some (-1) ∧
    DateTime.yearsBetween y DateTime.new = some (-1) ∧
    (DateTime.new.incSecond n).isValid = false ∧
    (DateTime.new.incMinute n).isValid = false ∧
    (DateTime.new.incHour n).isValid = false ∧
    (DateTime.new.incDay n).isValid = false ∧
    (DateTime.new.incMonth n).map DateTime.isValid = some false ∧
    (DateTime.new.incYear n).map DateTime.isValid = some false ∧
    (DateTime.new.toUTC tz).isValid = false ∧
    (DateTime.new.fromUTC tz).isValid = false := by
  have hb : (LLONG_MIN != LLONG_MIN) = false := by decide
  have hv : DateTime.new.isValid = false := by decide
  have hm1 : DateTime.monthsBetween DateTime.new y = some (-1) := by
    simp [DateTime.monthsBetween, DateTime.new]
  have hm2 : DateTime.monthsBetween y DateTime.new = some (-1) := by
    simp [DateTime.monthsBetween, DateTime.new]
  refine ⟨hv, ?_, by decide, by decide, by decide, by decide, by decide, ?_, ?_, hm1, hm2,
    ?_, ?_, ?_, ?_, ?_, ?_, ?_, ?_, ?_, ?_⟩
  · intro x
    constructor
    · intro h
      cases x with
      | mk m =>
        simp only [DateTime.isValid, bne_eq_false_iff_eq, beq_iff_eq] at h
        simp only [DateTime.new, h]
    · intro h
      rw [h]
      exact hv
  · simp [DateTime.daysBetween, DateTime.new]
  · simp [DateTime.daysBetween, DateTime.new]
  · rw [DateTime.yearsBetween, hm1]; rfl
  · rw [DateTime.yearsBetween, hm2]; rfl
  · simp only [DateTime.incSecond, DateTime.new, hb]; exact hv
  · simp only [DateTime.incMinute, DateTime.new, hb]; exact hv
  · simp only [DateTime.incHour, DateTime.new, hb]; exact hv
  · simp only [DateTime.incDay, DateTime.new, hb]; exact hv
  · simp only [DateTime.incMonth, DateTime.new, hb]; exact congrArg some hv
  · simp only [DateTime.incYear, DateTime.new, hb]; exact congrArg some hv
  · simp only [DateTime.toUTC, DateTime.new, hb]; exact hv
  · simp only [DateTime.fromUTC, DateTime.new, hb]; exact hv

/-- C19: for every counter `t` between the counter `lo` of
0001-01-01 00:00:00.000 and the counter `hi` of 9999-12-31 23:59:59.999,
`STime(long long t)` returns fields `s` that are marked valid, with year
1..9999, month 0..11, day from 1 to the length `len` of that month in that
year (`MONTH_LENGTHS_LEAP[month]` in a leap year, `MONTH_LENGTHS[month]`
otherwise), hour 0..23, minute 0..59, second 0..59 and millisecond 0..999. -/
theorem C19_fields_invariant (t lo hi : Int)
    (hlo : STime.get ⟨1, 0, 1, 0, 0, 0, 0, true⟩ = some lo)
    (hhi : STime.get ⟨9999, 11, 31, 23, 59, 59, 999, true⟩ = some hi)
    (h1 : lo ≤ t) (h2 : t ≤ hi) :
    ∃ s len, STime.ofLongLong t = some s ∧ s.valid = true ∧
      1 ≤ s.year ∧ s.year ≤ 9999 ∧ 0 ≤ s.month ∧ s.month ≤ 11 ∧
      (if isLeap s.year then tableAt MONTH_LENGTHS_LEAP s.month
       else tableAt MONTH_LENGTHS s.month) = some len ∧
      1 ≤ s.day ∧ s.day ≤ len ∧
      0 ≤ s.hour ∧ s.hour ≤ 23 ∧ 0 ≤ s.minute ∧ s.minute ≤ 59 ∧
      0 ≤ s.second ∧ s.second ≤ 59 ∧ 0 ≤ s.millisecond ∧ s.millisecond ≤ 999 := by
  rw [first_get] at hlo
  rw [last_get] at hhi
  have e1 := Option.some.inj hlo
  have e2 := Option.some.inj hhi
  obtain ⟨s, hs, hc, _⟩ := ofLongLong_spec t (by omega) (by omega)
  obtain ⟨a1, a2, a3, a4, a5, a6, ⟨len, hl, a7⟩, a8⟩ := hc
  exact ⟨s, len, hs, a1, a2, a3, a4, a5, hl, a6, a7, a8⟩

theorem C19_fields_invariant_witness :
    ∃ s len, STime.ofLongLong 63000000000123 = some s ∧ s.valid = true ∧
      1 ≤ s.year ∧ s.year ≤ 9999 ∧ 0 ≤ s.month ∧ s.month ≤ 11 ∧
      (if isLeap s.year then tableAt MONTH_LENGTHS_LEAP s.month
       else tableAt MONTH_LENGTHS s.month) = some len ∧
      1 ≤ s.day ∧ s.day ≤ len ∧
      0 ≤ s.hour ∧ s.hour ≤ 23 ∧ 0 ≤ s.minute ∧ s.minute ≤ 59 ∧
      0 ≤ s.second ∧ s.second ≤ 59 ∧ 0 ≤ s.millisecond ∧ s.millisecond ≤ 999 :=
  C19_fields_invariant 63000000000123 31536000000 315569433599999 (by decide) (by decide)
    (by decide) (by decide)

/-! ## Month arithmetic: claims C11, C12, C18 -/

/-- The fields of a value of the supported range. -/
theorem fields_of_inRange (x : DateTime) (hx : x.inRange) :
    ∃ s, STime.ofLongLong x.m_time = some s ∧ s.isCalendar ∧ s.get = some x.m_time := by
  obtain ⟨h1, h2⟩ := (inRange_iff x).1 hx
  exact ofLongLong_spec x.m_time h1 h2

/-- `STime::get` renormalises a month index that is not negative. -/
theorem get_incMonth (s : STime) (n : Int) (hm1 : s.month ≤ 11) (hn0 : 0 ≤ s.month + n)
    (hn1 : n ≤ 2000000000) :
    (s.incMonth n).get = (addMonths s n).get := by
  have w : wrap32 (s.month + n) = s.month + n := wrap32_eq _ (by omega) (by omega)
  have hA : wrap32 (s.year + Int.tdiv (wrap32 (s.month + n)) MONTH_COUNT)
      = wrap32 (s.year + (s.month + n) / 12 + Int.tdiv ((s.month + n) % 12) MONTH_COUNT) := by
    rw [w, MONTH_COUNT, Int.tdiv_eq_ediv hn0 (by decide),
      Int.tdiv_eq_ediv (by omega) (by decide)]
    congr 1
    omega
  have hB : Int.tmod (wrap32 (s.month + n)) MONTH_COUNT
      = Int.tmod ((s.month + n) % 12) MONTH_COUNT := by
    rw [w, MONTH_COUNT, Int.tmod_eq_emod hn0 (by decide),
      Int.tmod_eq_emod (by omega) (by decide)]
    omega
  unfold STime.get STime.incMonth addMonths
  simp only [hA, hB]

/-- Moving calendar fields with a day of at most 28 by months gives calendar
fields. -/
theorem addMonths_isCalendar (s : STime) (hs : s.isCalendar) (hd : s.day ≤ 28) (n : Int)
    (h0 : 1 ≤ s.year + (s.month + n) / 12) (h1 : s.year + (s.month + n) / 12 ≤ 9999) :
    (addMonths s n).isCalendar := by
  obtain ⟨hv, hy0, hy1, hm0, hm1, hd0, _, hrest⟩ := hs
  have hm : 0 ≤ (s.month + n) % 12 ∧ (s.month + n) % 12 ≤ 11 := by omega
  refine ⟨hv, h0, h1, hm.1, hm.2, hd0, ?_, hrest⟩
  simp only [addMonths, monthLength]
  by_cases hleap : isLeap (s.year + (s.month + n) / 12) = true
  · rw [if_pos hleap]
    obtain ⟨len, hlen⟩ := tableAt_defined MONTH_LENGTHS_LEAP (by decide) _ hm.1 hm.2
    obtain ⟨v, hst⟩ := tableAt_defined MONTH_STARTS_LEAP (by decide) _ hm.1 hm.2
    have c := starts_leap_cases _ v len hm.1 hm.2 hst hlen
    exact ⟨len, hlen, by omega⟩
  · rw [if_neg hleap]
    obtain ⟨len, hlen⟩ := tableAt_defined MONTH_LENGTHS (by decide) _ hm.1 hm.2
    obtain ⟨v, hst⟩ := tableAt_defined MONTH_STARTS (by decide) _ hm.1 hm.2
    have c := starts_common_cases _ v len hm.1 hm.2 hst hlen
    exact ⟨len, hlen, by omega⟩

/-- The value after `incMonth(n)` for a value of the supported range whose day
of the month is at most 28: its fields are the fields moved by `n` months. -/
theorem incMonth_fields (x : DateTime) (hx : x.inRange) (s : STime)
    (hs : STime.ofLongLong x.m_time = some s) (hd : s.day ≤ 28) (n : Int) (hn : 0 ≤ n)
    (hr : s.year + (s.month + n) / 12 ≤ 9999) :
    ∃ y, x.incMonth n = some y ∧ STime.ofLongLong y.m_time = some (addMonths s n) ∧
      (addMonths s n).isCalendar ∧ (addMonths s n).get = some y.m_time ∧ s.isCalendar ∧
      s.get = some x.m_time := by
  obtain ⟨s0, h0, hc, hg⟩ := fields_of_inRange x hx
  rw [hs] at h0
  have e0 := Option.some.inj h0
  subst e0
  have hc2 := hc
  obtain ⟨hv, hy0, hy1, hm0, hm1, _⟩ := hc2
  have hcal := addMonths_isCalendar s hc hd n (by omega) hr
  obtain ⟨t, ht, ho⟩ := ofLongLong_get _ hcal
  have hi : x.incMonth n = some ⟨t⟩ := by
    unfold DateTime.incMonth
    rw [if_pos (inRange_ne_min x hx), hs]
    simp only [Option.some_bind]
    rw [get_incMonth s n hm1 (by omega) (by omega), ht]
    rfl
  exact ⟨⟨t⟩, hi, ho, hcal, ht, hc, hg⟩

/-- C11: for every value `x` of the supported range whose fields `s` have a day
of the month of at most 28 and every `n >= 0` for which the year of the
result stays within 9999, `incMonth(n)` yields a value whose fields are those
of `x` with the year `year + (month + n) div 12` and the month
`(month + n) mod 12`, so `year * 12 + month` is larger by exactly `n`, and
with the same day, hour, minute, second and millisecond; these fields are
again a date-time of the calendar. Incrementing `2023-11-15` by 3 months
yields `2024-02-15`. -/
theorem C11_incMonth_carries (x : DateTime) (hx : x.inRange) (s : STime)
    (hs : STime.ofLongLong x.m_time = some s) (hd : s.day ≤ 28) (n : Int) (hn : 0 ≤ n)
    (hr : s.year + (s.month + n) / 12 ≤ 9999) :
    ∃ y s1, x.incMonth n = some y ∧ STime.ofLongLong y.m_time = some s1 ∧
      s1.isCalendar ∧ s1.get = some y.m_time ∧
      s1.year = s.year + (s.month + n) / 12 ∧ s1.month = (s.month + n) % 12 ∧
      s1.year * 12 + s1.month = s.year * 12 + s.month + n ∧
      s1.day = s.day ∧ s1.hour = s.hour ∧ s1.minute = s.minute ∧ s1.second = s.second ∧
      s1.millisecond = s.millisecond ∧
      (DateTime.set_string "2023-11-15").bind
        (fun d => (d.incMonth 3).bind DateTime.formatDate) = some "2024-02-15" := by
  obtain ⟨y, hi, ho, hcal, ht, _, _⟩ := incMonth_fields x hx s hs hd n hn hr
  refine ⟨y, addMonths s n, hi, ho, hcal, ht, rfl, rfl, ?_, rfl, rfl, rfl, rfl, rfl,
    by decide⟩
  simp only [addMonths]
  omega

theorem C11_incMonth_carries_witness :
    ∃ y s1, (DateTime.mk 63867139200000).incMonth 3 = some y ∧
      STime.ofLongLong y.m_time = some s1 ∧
      s1.isCalendar ∧ s1.get = some y.m_time ∧
      s1.year = (2023 : Int) + (10 + 3) / 12 ∧ s1.month = ((10 : Int) + 3) % 12 ∧
      s1.year * 12 + s1.month = (2023 : Int) * 12 + 10 + 3 ∧
      s1.day = 15 ∧ s1.hour = 0 ∧ s1.minute = 0 ∧ s1.second = 0 ∧
      s1.millisecond = 0 ∧
      (DateTime.set_string "2023-11-15").bind
        (fun d => (d.incMonth 3).bind DateTime.formatDate) = some "2024-02-15" :=
  C11_incMonth_carries ⟨63867139200000⟩ ((inRange_iff _).2 ⟨by decide, by decide⟩)
    ⟨2023, 10, 15, 0, 0, 0, 0, true⟩ (by decide) (by decide) 3 (by decide) (by decide)


/-- C12: the code at negative amounts. For calendar fields `s` and an amount `n`
that makes `month + n` negative and not a multiple of 12, `STime::get` after
`STime::incMonth(n)` keeps a negative month index (`%` of C++ truncates toward
zero) and reads the month table outside its bounds; so does
`DateTime("2024-01-15").incMonth(-1)`. A decrement that leaves `month + n`
non-negative, or makes it a multiple of 12, is computed:
`2024-03-15` less 1 month is `2024-02-15`, `2024-01-15` less 12 months is
`2023-01-15`. -/
theorem C12_incMonth_negative (s : STime) (hs : s.isCalendar) (n : Int)
    (hn : -2147483648 ≤ n) (h1 : s.month + n < 0) (h2 : (s.month + n) % 12 ≠ 0) :
    Int.tmod (s.incMonth n).month MONTH_COUNT < 0 ∧
    (s.incMonth n).get = none ∧
    (DateTime.set_string "2024-01-15").bind (fun d => d.incMonth (-1)) = none ∧
    (DateTime.set_string "2024-03-15").bind
      (fun d => (d.incMonth (-1)).bind DateTime.formatDate) = some "2024-02-15" ∧
    (DateTime.set_string "2024-01-15").bind
      (fun d => (d.incMonth (-12)).bind DateTime.formatDate) = some "2023-01-15" := by
  obtain ⟨hv, _, _, hm0, hm1, _⟩ := hs
  have w : wrap32 (s.month + n) = s.month + n := wrap32_eq _ (by omega) (by omega)
  have hneg : Int.tmod (wrap32 (s.month + n)) MONTH_COUNT < 0 := by
    rw [w, MONTH_COUNT, tmod_cases _ _ (by decide), if_neg (by omega)]
    omega
  have ht : ∀ T : List Int, tableAt T (Int.tmod (wrap32 (s.month + n)) MONTH_COUNT) = none := by
    intro T
    unfold tableAt
    rw [if_pos hneg]
  refine ⟨hneg, ?_, by decide, by decide, by decide⟩
  unfold STime.get STime.incMonth
  simp only [hv, Bool.not_true, Bool.false_eq_true, if_false, ht, ite_self]

theorem C12_incMonth_negative_witness :
    Int.tmod (STime.incMonth ⟨2024, 0, 15, 0, 0, 0, 0, true⟩ (-1)).month MONTH_COUNT < 0 ∧
    (STime.incMonth ⟨2024, 0, 15, 0, 0, 0, 0, true⟩ (-1)).get = none ∧
    (DateTime.set_string "2024-01-15").bind (fun d => d.incMonth (-1)) = none ∧
    (DateTime.set_string "2024-03-15").bind
      (fun d => (d.incMonth (-1)).bind DateTime.formatDate) = some "2024-02-15" ∧
    (DateTime.set_string "2024-01-15").bind
      (fun d => (d.incMonth (-12)).bind DateTime.formatDate) = some "2023-01-15" :=
  C12_incMonth_negative ⟨2024, 0, 15, 0, 0, 0, 0, true⟩
    ⟨rfl, by decide, by decide, by decide, by decide, by decide, ⟨31, by decide, by decide⟩,
      by decide, by decide, by decide, by decide, by decide, by decide, by decide, by decide⟩
    (-1) (by decide) (by decide) (by decide)

/-- The counter of fields whose day may lie past the end of the month: it is the
counter of day 1 of that month and `day - 1` days. -/
theorem get_day_shift (s : STime) (day : Int) (hs : STime.isCalendar { s with day := 1 })
    (hd0 : 1 ≤ day) (hd1 : day ≤ 31) :
    ∃ t1, STime.get { s with day := 1 } = some t1 ∧ 0 ≤ t1 ∧
      STime.get { s with day := day } = some (t1 + (day - 1) * 86400000) := by
  obtain ⟨v, hst, hv0, hv1, _, hg⟩ := get_isCalendar _ hs
  obtain ⟨t1, ht1⟩ : ∃ t1, STime.get { s with day := 1 } = some t1 := ⟨_, hg⟩
  have hnn := get_nonneg _ hs t1 ht1
  obtain ⟨hv, hy0, hy1, hm0, hm1, _, _, hh0, hh1, hmi0, hmi1, hs0, hs1, hms0, hms1⟩ := hs
  simp only at hst hv0 hv1 hv hy0 hy1 hm0 hm1 hh0 hh1 hmi0 hmi1 hs0 hs1 hms0 hms1
  have hvb : -1 ≤ v ∧ v ≤ 365 := by split_ifs at hv0 <;> omega
  have g2 := get_of_month { s with day := day } v hv hm0 hm1 hst (by simp only; omega)
    (by simp only; omega) hvb.1 hvb.2 (by simp only; omega) (by simp only; omega)
    hh0 hh1 hmi0 hmi1 hs0 hs1 hms0 hms1
  rw [hg] at ht1
  have e := Option.some.inj ht1
  simp only at e g2
  refine ⟨t1, by rw [hg, e], hnn, ?_⟩
  rw [g2]
  congr 1
  rw [← e]
  ring

/-- C18, as stated, fails: 31 January 2023 incremented by 1 month, where the
target month February has 28 days, is the valid value of 2023-03-03, and
29 February 2024 incremented by 1 year, where February 2025 has 28 days, is
the valid value of 2025-03-01. -/
theorem C18_incMonth_invalid_fails :
    monthLength 2023 1 = some 28 ∧
    ((DateTime.set_string "2023-01-31").bind (fun d => d.incMonth 1)).map DateTime.isValid
      = some true ∧
    (DateTime.set_string "2023-01-31").bind
      (fun d => (d.incMonth 1).bind DateTime.formatDate) = some "2023-03-03" ∧
    monthLength 2025 1 = some 28 ∧
    ((DateTime.set_string "2024-02-29").bind (fun d => d.incYear 1)).map DateTime.isValid
      = some true ∧
    (DateTime.set_string "2024-02-29").bind
      (fun d => (d.incYear 1).bind DateTime.formatDate) = some "2025-03-01" := by
  decide

/-- C18, amended: `incMonth` and `incYear` do not validate the renormalised date.
For every value `x` of the supported range with fields `s`, every `n >= 0`
months whose target year stays within 9999 and every amount `k` of years
whose target year lies in 1..9999, the value after the call is valid and its
counter is the counter of day 1 of the target month and `day - 1` days: a day
of the month past the end of the target month rolls over into the month that
follows (31 January 2023 and 1 month give 3 March 2023, 29 February 2024 and
1 year give 1 March 2025). -/
theorem C18_incMonth_rolls_over (x : DateTime) (hx : x.inRange) (s : STime)
    (hs : STime.ofLongLong x.m_time = some s) (n : Int) (hn : 0 ≤ n)
    (hr : s.year + (s.month + n) / 12 ≤ 9999) (k : Int) (hk0 : 1 ≤ s.year + k)
    (hk1 : s.year + k ≤ 9999) :
    (∃ y t1, x.incMonth n = some y ∧ y.isValid = true ∧
      STime.get { addMonths s n with day := 1 } = some t1 ∧
      y.m_time = t1 + (s.day - 1) * 86400000) ∧
    (∃ y t1, x.incYear k = some y ∧ y.isValid = true ∧
      STime.get { s with year := s.year + k, day := 1 } = some t1 ∧
      y.m_time = t1 + (s.day - 1) * 86400000) ∧
    (DateTime.set_string "2023-01-31").bind
      (fun d => (d.incMonth 1).bind DateTime.formatDate) = some "2023-03-03" ∧
    (DateTime.set_string "2024-02-29").bind
      (fun d => (d.incYear 1).bind DateTime.formatDate) = some "2025-03-01" := by
  obtain ⟨s0, h0, hc, hg⟩ := fields_of_inRange x hx
  rw [hs] at h0
  have e0 := Option.some.inj h0
  subst e0
  have hc2 := hc
  obtain ⟨hv, hy0, hy1, hm0, hm1, hd0, ⟨len, hlen, hd1⟩, hrest⟩ := hc2
  have hd31 : s.day ≤ 31 := by
    unfold monthLength at hlen
    by_cases hleap : isLeap s.year = true
    · rw [if_pos hleap] at hlen
      obtain ⟨v, hst⟩ := tableAt_defined MONTH_STARTS_LEAP (by decide) _ hm0 hm1
      have c := starts_leap_cases _ v len hm0 hm1 hst hlen
      omega
    · rw [if_neg hleap] at hlen
      obtain ⟨v, hst⟩ := tableAt_defined MONTH_STARTS (by decide) _ hm0 hm1
      have c := starts_common_cases _ v len hm0 hm1 hst hlen
      omega
  have hvalid : ∀ t : Int, 0 ≤ t → (DateTime.mk t).isValid = true := by
    intro t ht
    unfold DateTime.isValid
    rw [LLONG_MIN]
    simp only [bne_iff_ne, ne_eq]
    omega
  refine ⟨?_, ?_, by decide, by decide⟩
  · have hfirst : STime.isCalendar { s with day := 1 } :=
      ⟨hv, hy0, hy1, hm0, hm1, le_refl _, ⟨len, hlen, by simp only; omega⟩, hrest⟩
    have hcal := addMonths_isCalendar _ hfirst (by simp) n (by simp only; omega) hr
    obtain ⟨t1, ht1, hnn, ht2⟩ := get_day_shift (addMonths s n) s.day hcal hd0 hd31
    refine ⟨⟨t1 + (s.day - 1) * 86400000⟩, t1, ?_, hvalid _ (by omega), ht1, rfl⟩
    unfold DateTime.incMonth
    rw [if_pos (inRange_ne_min x hx), hs]
    simp only [Option.some_bind]
    rw [get_incMonth s n hm1 (by omega) (by omega)]
    have e : addMonths s n = { addMonths s n with day := s.day } := rfl
    rw [e, ht2]
    rfl
  · have hcal : STime.isCalendar { s with year := s.year + k, day := 1 } := by
      refine ⟨hv, hk0, hk1, hm0, hm1, le_refl _, ?_, hrest⟩
      simp only [monthLength]
      by_cases hleap : isLeap (s.year + k) = true
      · rw [if_pos hleap]
        obtain ⟨l2, hl2⟩ := tableAt_defined MONTH_LENGTHS_LEAP (by decide) _ hm0 hm1
        obtain ⟨v, hst⟩ := tableAt_defined MONTH_STARTS_LEAP (by decide) _ hm0 hm1
        have c := starts_leap_cases _ v l2 hm0 hm1 hst hl2
        exact ⟨l2, hl2, by omega⟩
      · rw [if_neg hleap]
        obtain ⟨l2, hl2⟩ := tableAt_defined MONTH_LENGTHS (by decide) _ hm0 hm1
        obtain ⟨v, hst⟩ := tableAt_defined MONTH_STARTS (by decide) _ hm0 hm1
        have c := starts_common_cases _ v l2 hm0 hm1 hst hl2
        exact ⟨l2, hl2, by omega⟩
    obtain ⟨t1, ht1, hnn, ht2⟩ :=
      get_day_shift { s with year := s.year + k } s.day hcal hd0 hd31
    refine ⟨⟨t1 + (s.day - 1) * 86400000⟩, t1, ?_, hvalid _ (by omega), ht1, rfl⟩
    unfold DateTime.incYear
    rw [if_pos (inRange_ne_min x hx), hs]
    simp only [Option.some_bind]
    have e : s.incYear k = { s with year := s.year + k, day := s.day } := by
      unfold STime.incYear
      rw [wrap32_eq _ (by omega) (by omega)]
    rw [e, ht2]
    rfl

theorem C18_incMonth_rolls_over_witness :
    (∃ y t1, (DateTime.mk 63842256000000).incMonth 1 = some y ∧ y.isValid = true ∧
      STime.get { addMonths ⟨2023, 0, 31, 0, 0, 0, 0, true⟩ 1 with day := 1 } = some t1 ∧
      y.m_time = t1 + ((31 : Int) - 1) * 86400000) ∧
    (∃ y t1, (DateTime.mk 63842256000000).incYear 1 = some y ∧ y.isValid = true ∧
      STime.get ⟨2023 + 1, 0, 1, 0, 0, 0, 0, true⟩ = some t1 ∧
      y.m_time = t1 + ((31 : Int) - 1) * 86400000) ∧
    (DateTime.set_string "2023-01-31").bind
      (fun d => (d.incMonth 1).bind DateTime.formatDate) = some "2023-03-03" ∧
    (DateTime.set_string "2024-02-29").bind
      (fun d => (d.incYear 1).bind DateTime.formatDate) = some "2025-03-01" :=
  C18_incMonth_rolls_over ⟨63842256000000⟩ ((inRange_iff _).2 ⟨by decide, by decide⟩)
    ⟨2023, 0, 31, 0, 0, 0, 0, true⟩ (by decide) 1 (by decide) (by decide) 1 (by decide)
    (by decide)


/-! ## The order of the counters: claims C13, C21, C22 -/

set_option maxHeartbeats 1000000 in
theorem month_start_mono_common (m v len m' v' len' : Int) (h0 : 0 ≤ m) (h1 : m ≤ 11)
    (hv : tableAt MONTH_STARTS m = some v) (hl : tableAt MONTH_LENGTHS m = some len)
    (h0' : 0 ≤ m') (h1' : m' ≤ 11)
    (hv' : tableAt MONTH_STARTS m' = some v') (hl' : tableAt MONTH_LENGTHS m' = some len')
    (hlt : m < m') : v + len ≤ v' := by
  have c := starts_common_cases m v len h0 h1 hv hl
  have c' := starts_common_cases m' v' len' h0' h1' hv' hl'
  rcases c with c | c | c | c | c | c | c | c | c | c | c | c <;> omega

set_option maxHeartbeats 1000000 in
theorem month_start_mono_leap (m v len m' v' len' : Int) (h0 : 0 ≤ m) (h1 : m ≤ 11)
    (hv : tableAt MONTH_STARTS_LEAP m = some v) (hl : tableAt MONTH_LENGTHS_LEAP m = some len)
    (h0' : 0 ≤ m') (h1' : m' ≤ 11)
    (hv' : tableAt MONTH_STARTS_LEAP m' = some v')
    (hl' : tableAt MONTH_LENGTHS_LEAP m' = some len')
    (hlt : m < m') : v + len ≤ v' := by
  have c := starts_leap_cases m v len h0 h1 hv hl
  have c' := starts_leap_cases m' v' len' h0' h1' hv' hl'
  rcases c with c | c | c | c | c | c | c | c | c | c | c | c <;> omega

/-- The counter of calendar fields in terms of the day index and the time of
day. -/
theorem get_dayIndex (s : STime) (hs : s.isCalendar) :
    ∃ v, (if isLeap s.year then tableAt MONTH_STARTS_LEAP s.month
          else tableAt MONTH_STARTS s.month) = some v ∧
      (if isLeap s.year then -1 else 0) ≤ v + s.day - 1 ∧ v + s.day - 1 ≤ 364 ∧
      0 ≤ timeOfDay s ∧ timeOfDay s < 86400000 ∧
      s.get = some ((s.year * 365 + getLeapDays s.year + v + s.day - 1) * 86400000
        + timeOfDay s) := by
  obtain ⟨v, hst, hv0, hv1, _, hg⟩ := get_isCalendar s hs
  obtain ⟨_, _, _, _, _, _, _, hh0, hh1, hmi0, hmi1, hs0, hs1, hms0, hms1⟩ := hs
  refine ⟨v, hst, hv0, hv1, ?_, ?_, ?_⟩
  · unfold timeOfDay; omega
  · unfold timeOfDay; omega
  · rw [hg]
    congr 1
    unfold timeOfDay
    ring

/-- An earlier month of the calendar has the smaller counter. -/
theorem get_lt_of_month_lt (a b : STime) (ha : a.isCalendar) (hb : b.isCalendar)
    (ta tb : Int) (hta : a.get = some ta) (htb : b.get = some tb)
    (h : a.year * 12 + a.month < b.year * 12 + b.month) : ta < tb := by
  obtain ⟨va, hsa, ha0, ha1, hta0, hta1, hga⟩ := get_dayIndex a ha
  obtain ⟨vb, hsb, hb0, hb1, htb0, htb1, hgb⟩ := get_dayIndex b hb
  rw [hga] at hta
  rw [hgb] at htb
  have ea := Option.some.inj hta
  have eb := Option.some.inj htb
  obtain ⟨_, hya0, hya1, hma0, hma1, hda0, ⟨lena, hlena, hda1⟩, _⟩ := ha
  obtain ⟨_, hyb0, hyb1, hmb0, hmb1, hdb0, ⟨lenb, hlenb, hdb1⟩, _⟩ := hb
  have hD : a.year * 365 + getLeapDays a.year + va + a.day - 1
      < b.year * 365 + getLeapDays b.year + vb + b.day - 1 := by
    by_cases hy : a.year < b.year
    · have hstep := isLeap_step (b.year - 1) (by omega)
      rw [sub_add_cancel] at hstep
      have hmono := yearStart_mono a.year (b.year - 1 - a.year).toNat
      have e : a.year + ((b.year - 1 - a.year).toNat : Int) = b.year - 1 := by omega
      rw [e] at hmono
      split_ifs at hb0 hstep <;> omega
    · have hyeq : a.year = b.year := by omega
      have hm : a.month < b.month := by omega
      rw [hyeq] at hsa hlena ⊢
      unfold monthLength at hlena hlenb
      by_cases hleap : isLeap b.year = true
      · rw [if_pos hleap] at hsa hsb hlena hlenb
        have := month_start_mono_leap a.month va lena b.month vb lenb hma0 hma1 hsa hlena
          hmb0 hmb1 hsb hlenb hm
        omega
      · rw [if_neg hleap] at hsa hsb hlena hlenb
        have := month_start_mono_common a.month va lena b.month vb lenb hma0 hma1 hsa hlena
          hmb0 hmb1 hsb hlenb hm
        omega
  generalize a.year * 365 + getLeapDays a.year + va + a.day - 1 = Da at hD ea
  generalize b.year * 365 + getLeapDays b.year + vb + b.day - 1 = Db at hD eb
  omega

/-- Within one month of the calendar the counter is ordered by the day and then
by the time of day. -/
theorem get_same_month (a b : STime) (ha : a.isCalendar) (hb : b.isCalendar)
    (ta tb : Int) (hta : a.get = some ta) (htb : b.get = some tb)
    (hy : a.year = b.year) (hm : a.month = b.month) :
    ta - tb = (a.day - b.day) * 86400000 + (timeOfDay a - timeOfDay b) := by
  obtain ⟨va, hsa, _, _, _, _, hga⟩ := get_dayIndex a ha
  obtain ⟨vb, hsb, _, _, _, _, hgb⟩ := get_dayIndex b hb
  rw [hga] at hta
  rw [hgb] at htb
  have ea := Option.some.inj hta
  have eb := Option.some.inj htb
  rw [hy, hm, hsb] at hsa
  have ev := Option.some.inj hsa
  rw [← ea, ← eb, hy, ev]
  ring

/-- The fields of a later counter: a later month, or the same month and a later
day, or the same day and a later time of day. -/
theorem fields_of_lt (a b : STime) (ha : a.isCalendar) (hb : b.isCalendar)
    (ta tb : Int) (hta : a.get = some ta) (htb : b.get = some tb) (h : tb < ta) :
    b.year * 12 + b.month < a.year * 12 + a.month ∨
    (a.year = b.year ∧ a.month = b.month ∧
      (b.day < a.day ∨ (a.day = b.day ∧ timeOfDay b < timeOfDay a))) := by
  by_cases h1 : b.year * 12 + b.month < a.year * 12 + a.month
  · exact Or.inl h1
  · right
    by_cases h2 : a.year * 12 + a.month < b.year * 12 + b.month
    · have := get_lt_of_month_lt a b ha hb ta tb hta htb h2
      omega
    · have hma := ha.2.2.2
      have hmb := hb.2.2.2
      have hy : a.year = b.year := by omega
      have hm : a.month = b.month := by omega
      have e := get_same_month a b ha hb ta tb hta htb hy hm
      obtain ⟨_, _, _, _, hta0, hta1, _⟩ := get_dayIndex a ha
      obtain ⟨_, _, _, _, htb0, htb1, _⟩ := get_dayIndex b hb
      refine ⟨hy, hm, ?_⟩
      omega

/-- Method `STime::monthsAfter` on calendar fields: no `int` result wraps, and
the value is the count of complete months. -/
theorem monthsAfter_eq (a b : STime) (ha : a.isCalendar) (hb : b.isCalendar) :
    a.monthsAfter b = completeMonths a b := by
  obtain ⟨_, hya0, hya1, hma0, hma1, _, _, hha0, hha1, hmia0, hmia1, hsa0, hsa1, hmsa0,
    hmsa1⟩ := ha
  obtain ⟨_, hyb0, hyb1, hmb0, hmb1, _, _, hhb0, hhb1, hmib0, hmib1, hsb0, hsb1, hmsb0,
    hmsb1⟩ := hb
  have w1 : wrap32 ((a.year - b.year) * MONTH_COUNT) = (a.year - b.year) * 12 := by
    rw [MONTH_COUNT]; exact wrap32_eq _ (by omega) (by omega)
  have w2 : wrap32 ((a.year - b.year) * 12 - (b.month - a.month))
      = (a.year - b.year) * 12 + (a.month - b.month) := by
    rw [wrap32_eq _ (by omega) (by omega)]; ring
  have w3 : wrap32 ((a.year - b.year) * 12 + (a.month - b.month) - 1)
      = (a.year - b.year) * 12 + (a.month - b.month) - 1 :=
    wrap32_eq _ (by omega) (by omega)
  have wa : wrap32 ((a.hour * SECS_IN_HOUR + a.minute * SECS_IN_MINUTE + a.second)
      * TIME_MULTIPLIER + a.millisecond) = timeOfDay a := by
    rw [SECS_IN_HOUR_eq, SECS_IN_MINUTE_eq, TIME_MULTIPLIER_eq, wrap32_eq _ (by omega) (by omega)]
    unfold timeOfDay
    ring
  have wb : wrap32 ((b.hour * SECS_IN_HOUR + b.minute * SECS_IN_MINUTE + b.second)
      * TIME_MULTIPLIER + b.millisecond) = timeOfDay b := by
    rw [SECS_IN_HOUR_eq, SECS_IN_MINUTE_eq, TIME_MULTIPLIER_eq, wrap32_eq _ (by omega) (by omega)]
    unfold timeOfDay
    ring
  unfold STime.monthsAfter completeMonths
  simp only [w1, w2, w3, wa, wb]
  by_cases h1 : a.day < b.day
  · rw [if_pos h1, if_pos (Or.inl h1)]
  · rw [if_neg h1]
    by_cases h2 : a.day = b.day
    · by_cases h3 : timeOfDay b > timeOfDay a
      · have hc : (a.day == b.day && decide (timeOfDay b > timeOfDay a)) = true := by
          simp [h2, h3]
        rw [if_pos hc, if_pos (Or.inr ⟨h2, h3⟩)]
      · have hc : ¬ (a.day == b.day && decide (timeOfDay b > timeOfDay a)) = true := by
          simp [h3]
        rw [if_neg hc, if_neg (by rintro (h | ⟨_, h⟩) <;> omega)]
        ring
    · have hc : ¬ (a.day == b.day && decide (timeOfDay b > timeOfDay a)) = true := by
        simp [h2]
      rw [if_neg hc, if_neg (by rintro (h | ⟨h, _⟩) <;> omega)]
      ring

/-- Method `DateTime::monthsBetween` on two values of the supported range, the
first one later than the second: in either order of the arguments it is the
count of complete months between the fields. -/
theorem monthsBetween_of_lt (a b : DateTime) (ha : a.inRange) (hb : b.inRange)
    (sa sb : STime) (hsa : STime.ofLongLong a.m_time = some sa)
    (hsb : STime.ofLongLong b.m_time = some sb) (hlt : b.m_time < a.m_time) :
    DateTime.monthsBetween a b = some (completeMonths sa sb) ∧
    DateTime.monthsBetween b a = some (completeMonths sa sb) := by
  obtain ⟨s1, h1, hca, _⟩ := fields_of_inRange a ha
  obtain ⟨s2, h2, hcb, _⟩ := fields_of_inRange b hb
  rw [hsa] at h1
  rw [hsb] at h2
  have e1 := Option.some.inj h1
  have e2 := Option.some.inj h2
  subst e1
  subst e2
  have hma := monthsAfter_eq sa sb hca hcb
  have na := inRange_beq_min a ha
  have nb := inRange_beq_min b hb
  have hne1 : DateTime.eq a b = false := by
    simp only [DateTime.eq, beq_eq_false_iff_ne, ne_eq]; omega
  have hne2 : DateTime.eq b a = false := by
    simp only [DateTime.eq, beq_eq_false_iff_ne, ne_eq]; omega
  have hlt1 : DateTime.lt a b = false := by
    simp only [DateTime.lt, decide_eq_false_iff_not]; omega
  have hlt2 : DateTime.lt b a = true := by
    simp only [DateTime.lt, decide_eq_true_eq]; omega
  constructor
  · unfold DateTime.monthsBetween
    simp only [na, nb, hne1, hsa, hsb, hlt1, hma, Bool.or_self, Bool.false_eq_true, if_false]
  · unfold DateTime.monthsBetween
    simp only [na, nb, hne2, hsa, hsb, hlt2, hma, Bool.or_self, Bool.false_eq_true, if_false,
      if_true]


/-- C13: for all values `a`, `b` of the supported range with `a` later than `b`
and with fields `sa`, `sb`, `monthsBetween(a,b)` and `monthsBetween(b,a)` are
both `(year(a) - year(b)) * 12 + (month(a) - month(b))`, minus 1 exactly when
`day(a) < day(b)`, or `day(a) = day(b)` and the time of day of `a` is earlier
than that of `b`; `monthsBetween(a,a)` is 0;
`monthsBetween("2024-03-14", "2024-01-15")` is 1 and
`monthsBetween("2024-03-15", "2024-01-15")` is 2. -/
theorem C13_monthsBetween_tie_break (a b : DateTime) (ha : a.inRange) (hb : b.inRange)
    (sa sb : STime) (hsa : STime.ofLongLong a.m_time = some sa)
    (hsb : STime.ofLongLong b.m_time = some sb) (hlt : DateTime.lt b a = true) :
    DateTime.monthsBetween a b = some ((sa.year - sb.year) * 12 + (sa.month - sb.month)
      - (if sa.day < sb.day ∨ (sa.day = sb.day ∧ timeOfDay sa < timeOfDay sb) then 1 else 0)) ∧
    DateTime.monthsBetween b a = DateTime.monthsBetween a b ∧
    DateTime.monthsBetween a a = some 0 ∧
    (DateTime.set_string "2024-03-14").bind (fun x =>
      (DateTime.set_string "2024-01-15").bind (fun y => DateTime.monthsBetween x y))
      = some 1 ∧
    (DateTime.set_string "2024-03-15").bind (fun x =>
      (DateTime.set_string "2024-01-15").bind (fun y => DateTime.monthsBetween x y))
      = some 2 := by
  have h : b.m_time < a.m_time := by
    simpa only [DateTime.lt, decide_eq_true_eq] using hlt
  obtain ⟨h1, h2⟩ := monthsBetween_of_lt a b ha hb sa sb hsa hsb h
  refine ⟨h1, ?_, ?_, by decide, by decide⟩
  · rw [h1, h2]
  · unfold DateTime.monthsBetween
    simp only [inRange_beq_min a ha, DateTime.eq, beq_self_eq_true, Bool.or_self,
      Bool.false_eq_true, if_false, if_true]

theorem C13_monthsBetween_tie_break_witness :
    DateTime.monthsBetween ⟨63877629600000⟩ ⟨63872452800000⟩
      = some (((2024 : Int) - 2024) * 12 + (2 - 0)
        - (if (15 : Int) < 15 ∨ ((15 : Int) = 15 ∧
            timeOfDay ⟨2024, 2, 15, 10, 0, 0, 0, true⟩
              < timeOfDay ⟨2024, 0, 15, 12, 0, 0, 0, true⟩) then 1 else 0)) ∧
    DateTime.monthsBetween ⟨63872452800000⟩ ⟨63877629600000⟩
      = DateTime.monthsBetween ⟨63877629600000⟩ ⟨63872452800000⟩ ∧
    DateTime.monthsBetween ⟨63877629600000⟩ ⟨63877629600000⟩ = some 0 ∧
    (DateTime.set_string "2024-03-14").bind (fun x =>
      (DateTime.set_string "2024-01-15").bind (fun y => DateTime.monthsBetween x y))
      = some 1 ∧
    (DateTime.set_string "2024-03-15").bind (fun x =>
      (DateTime.set_string "2024-01-15").bind (fun y => DateTime.monthsBetween x y))
      = some 2 :=
  C13_monthsBetween_tie_break ⟨63877629600000⟩ ⟨63872452800000⟩
    ((inRange_iff _).2 ⟨by decide, by decide⟩) ((inRange_iff _).2 ⟨by decide, by decide⟩)
    ⟨2024, 2, 15, 10, 0, 0, 0, true⟩ ⟨2024, 0, 15, 12, 0, 0, 0, true⟩ (by decide) (by decide)
    (by decide)

/-- The count of complete months from earlier to later calendar fields is not
negative. -/
theorem completeMonths_nonneg (a b : STime) (ha : a.isCalendar) (hb : b.isCalendar)
    (ta tb : Int) (hta : a.get = some ta) (htb : b.get = some tb) (h : tb < ta) :
    0 ≤ completeMonths a b := by
  unfold completeMonths
  rcases fields_of_lt a b ha hb ta tb hta htb h with h1 | ⟨hy, hm, hd⟩
  · split_ifs <;> omega
  · rw [if_neg (by rintro (h3 | ⟨h3, h4⟩) <;> omega), hy, hm]
    omega

/-- C21: for all values `a` and `b` of the supported range (years 1..9999),
`monthsBetween(a,b)` and `yearsBetween(a,b)` return a number that is not
negative, so -1 is not returned for two valid dates. -/
theorem C21_between_nonneg (a b : DateTime) (ha : a.inRange) (hb : b.inRange) :
    ∃ m y, DateTime.monthsBetween a b = some m ∧ 0 ≤ m ∧
      DateTime.yearsBetween a b = some y ∧ 0 ≤ y := by
  have key : ∃ m, DateTime.monthsBetween a b = some m ∧ 0 ≤ m := by
    obtain ⟨sa, hsa, hca, hga⟩ := fields_of_inRange a ha
    obtain ⟨sb, hsb, hcb, hgb⟩ := fields_of_inRange b hb
    rcases lt_trichotomy a.m_time b.m_time with h | h | h
    · obtain ⟨_, h2⟩ := monthsBetween_of_lt b a hb ha sb sa hsb hsa h
      exact ⟨_, h2, completeMonths_nonneg sb sa hcb hca _ _ hgb hga h⟩
    · refine ⟨0, ?_, le_refl _⟩
      unfold DateTime.monthsBetween
      simp only [inRange_beq_min a ha, inRange_beq_min b hb, DateTime.eq, h,
        beq_self_eq_true, Bool.or_self, Bool.false_eq_true, if_false, if_true]
    · obtain ⟨h1, _⟩ := monthsBetween_of_lt a b ha hb sa sb hsa hsb h
      exact ⟨_, h1, completeMonths_nonneg sa sb hca hcb _ _ hga hgb h⟩
  obtain ⟨m, hm, hm0⟩ := key
  refine ⟨m, if m ≤ 0 then m else Int.tdiv m MONTH_COUNT, hm, hm0, ?_, ?_⟩
  · unfold DateTime.yearsBetween
    rw [hm]
    rfl
  · split_ifs with h
    · exact hm0
    · rw [MONTH_COUNT, Int.tdiv_eq_ediv hm0 (by decide)]
      omega

theorem C21_between_nonneg_witness :
    ∃ m y, DateTime.monthsBetween ⟨63872452800000⟩ ⟨63877629600000⟩ = some m ∧ 0 ≤ m ∧
      DateTime.yearsBetween ⟨63872452800000⟩ ⟨63877629600000⟩ = some y ∧ 0 ≤ y :=
  C21_between_nonneg ⟨63872452800000⟩ ⟨63877629600000⟩
    ((inRange_iff _).2 ⟨by decide, by decide⟩) ((inRange_iff _).2 ⟨by decide, by decide⟩)

/-- Moving calendar fields by no month leaves them unchanged. -/
theorem addMonths_zero (s : STime) (hs : s.isCalendar) : addMonths s 0 = s := by
  obtain ⟨_, _, _, hm0, hm1, _⟩ := hs
  apply STime.eq_of_fields <;> simp only [addMonths] <;> omega

/-- The count `monthsBetween` of the months from a value of the supported range
to the value after `incMonth(n)`. -/
theorem monthsBetween_incMonth (x : DateTime) (hx : x.inRange) (s : STime)
    (hs : STime.ofLongLong x.m_time = some s) (hd : s.day ≤ 28) (n : Int) (hn : 0 ≤ n)
    (hr : s.year + (s.month + n) / 12 ≤ 9999) :
    (x.incMonth n).bind (fun y => DateTime.monthsBetween y x) = some n := by
  obtain ⟨y, hi, ho, hcal, ht, hc, hg⟩ := incMonth_fields x hx s hs hd n hn hr
  rw [hi]
  simp only [Option.some_bind]
  have hy : y.inRange := ⟨_, hcal, ht⟩
  by_cases h0 : n = 0
  · subst h0
    rw [addMonths_zero s hc, hg] at ht
    have e := Option.some.inj ht
    unfold DateTime.monthsBetween
    simp only [inRange_beq_min x hx, inRange_beq_min y hy, DateTime.eq, e, beq_self_eq_true,
      Bool.or_self, Bool.false_eq_true, if_false, if_true]
  · have hlt : x.m_time < y.m_time := by
      apply get_lt_of_month_lt s (addMonths s n) hc hcal _ _ hg ht
      have hm := hc.2.2.2
      simp only [addMonths]
      omega
    obtain ⟨h1, _⟩ := monthsBetween_of_lt y x hy hx _ s ho hs hlt
    rw [h1]
    congr 1
    have hm := hc.2.2.2
    have e : timeOfDay (addMonths s n) = timeOfDay s := rfl
    simp only [completeMonths, e]
    rw [if_neg (by simp only [addMonths]; omega)]
    simp only [addMonths]
    omega

/-- Method `DateTime::incYear` as `DateTime::incMonth` of twelve times the
amount, on the supported range. -/
theorem incYear_eq_incMonth (x : DateTime) (hx : x.inRange) (s : STime)
    (hs : STime.ofLongLong x.m_time = some s) (k : Int) (hk : 0 ≤ k)
    (hr : s.year + k ≤ 9999) : x.incYear k = x.incMonth (12 * k) := by
  obtain ⟨s0, h0, hc, hg⟩ := fields_of_inRange x hx
  rw [hs] at h0
  have e0 := Option.some.inj h0
  subst e0
  obtain ⟨_, hy0, hy1, hm0, hm1, _⟩ := hc
  unfold DateTime.incYear DateTime.incMonth
  rw [if_pos (inRange_ne_min x hx), if_pos (inRange_ne_min x hx), hs]
  simp only [Option.some_bind]
  rw [get_incMonth s (12 * k) hm1 (by omega) (by omega)]
  have e : s.incYear k = addMonths s (12 * k) := by
    apply STime.eq_of_fields <;> simp only [STime.incYear, addMonths]
    · rw [wrap32_eq _ (by omega) (by omega)]; omega
    · omega
  rw [e]

/-- C22: for every value `x` of the supported range whose fields have a day of
the month of at most 28, every `n >= 0` months and every `k >= 0` years for
which the result stays within year 9999,
`monthsBetween(incMonth(x,n), x) = n` and `yearsBetween(incYear(x,k), x) = k`. -/
theorem C22_between_measures_inc (x : DateTime) (hx : x.inRange) (s : STime)
    (hs : STime.ofLongLong x.m_time = some s) (hd : s.day ≤ 28) (n : Int) (hn : 0 ≤ n)
    (hr : s.year + (s.month + n) / 12 ≤ 9999) (k : Int) (hk : 0 ≤ k)
    (hrk : s.year + k ≤ 9999) :
    (x.incMonth n).bind (fun y => DateTime.monthsBetween y x) = some n ∧
    (x.incYear k).bind (fun y => DateTime.yearsBetween y x) = some k := by
  refine ⟨monthsBetween_incMonth x hx s hs hd n hn hr, ?_⟩
  obtain ⟨s0, h0, hc, _⟩ := fields_of_inRange x hx
  rw [hs] at h0
  have e0 := Option.some.inj h0
  subst e0
  have hm := hc.2.2.2
  have h12 := monthsBetween_incMonth x hx s hs hd (12 * k) (by omega) (by omega)
  rw [incYear_eq_incMonth x hx s hs k hk hrk]
  cases hi : x.incMonth (12 * k) with
  | none => rw [hi] at h12; simp at h12
  | some y =>
    rw [hi] at h12
    simp only [Option.some_bind] at h12 ⊢
    unfold DateTime.yearsBetween
    rw [h12]
    simp only [Option.map_some']
    congr 1
    by_cases h0 : k = 0
    · subst h0; rfl
    · rw [if_neg (by omega), MONTH_COUNT, Int.tdiv_eq_ediv (by omega) (by decide)]
      omega

theorem C22_between_measures_inc_witness :
    ((DateTime.mk 63867139200000).incMonth 3).bind
      (fun y => DateTime.monthsBetween y ⟨63867139200000⟩) = some 3 ∧
    ((DateTime.mk 63867139200000).incYear 2).bind
      (fun y => DateTime.yearsBetween y ⟨63867139200000⟩) = some 2 :=
  C22_between_measures_inc ⟨63867139200000⟩ ((inRange_iff _).2 ⟨by decide, by decide⟩)
    ⟨2023, 10, 15, 0, 0, 0, 0, true⟩ (by decide) (by decide) 3 (by decide) (by decide)
    2 (by decide) (by decide)


/-! ## The year refinement: claim C20 -/

/-- At most two leap days fall into six years that follow each other. -/
theorem getLeapDays_six (y k : Int) (hy : 0 ≤ y) (hk0 : 0 ≤ k) (hk1 : k ≤ 6) :
    0 ≤ getLeapDays (y + k) - getLeapDays y ∧ getLeapDays (y + k) - getLeapDays y ≤ 2 := by
  rw [getLeapDays_nonneg y hy, getLeapDays_nonneg (y + k) (by omega)]
  have hk : k = 0 ∨ k = 1 ∨ k = 2 ∨ k = 3 ∨ k = 4 ∨ k = 5 ∨ k = 6 := by omega
  rcases hk with h | h | h | h | h | h | h <;> subst h <;> omega

/-- The first estimate of the year leaves a day-of-year value that is off by
less than one year. -/
theorem yearEstimate_days (d : Int) (h0 : 0 ≤ d) (h1 : d ≤ 3652500) :
    0 ≤ yearEstimate d ∧
    -364 ≤ d - yearEstimate d * 365 - getLeapDays (yearEstimate d) ∧
    d - yearEstimate d * 365 - getLeapDays (yearEstimate d) ≤ 366 := by
  have hq : 0 ≤ d / 365 := by omega
  have hq1 : d / 365 ≤ 10007 := by omega
  have hG := getLeapDays_nonneg (d / 365) hq
  have hL0 : 0 ≤ getLeapDays (d / 365) := by rw [hG]; omega
  have hL1 : getLeapDays (d / 365) ≤ 2500 := by rw [hG]; omega
  have hy : yearEstimate d = d / 365 - getLeapDays (d / 365) / 365 := by
    unfold yearEstimate
    simp only
    rw [Int.tdiv_eq_ediv h0 (by decide), Int.tdiv_eq_ediv hL0 (by decide)]
  have hLq : getLeapDays (d / 365) ≤ d / 365 := by rw [hG]; omega
  have hk0 : 0 ≤ getLeapDays (d / 365) / 365 := by omega
  have hk1 : getLeapDays (d / 365) / 365 ≤ 6 := by omega
  have hy0 : 0 ≤ yearEstimate d := by rw [hy]; omega
  have h6 := getLeapDays_six (yearEstimate d) (getLeapDays (d / 365) / 365) hy0 hk0 hk1
  have e : yearEstimate d + getLeapDays (d / 365) / 365 = d / 365 := by rw [hy]; ring
  rw [e] at h6
  generalize getLeapDays (yearEstimate d) = Gy at h6 ⊢
  generalize getLeapDays (d / 365) = L at hL0 hL1 hy hLq hk0 hk1 h6 e
  generalize yearEstimate d = y at hy hy0 e ⊢
  omega


theorem yearDown_stop (time : Int) (n : Nat) (year days : Int) (h : ¬ days < 0) :
    yearDown time n (year, days) = (year, days) ∧ yearDownSteps time n (year, days) = 0 := by
  cases n with
  | zero => exact ⟨rfl, rfl⟩
  | succ n => simp only [yearDown, yearDownSteps, if_neg h, and_self]

theorem yearUp_stop (time : Int) (n : Nat) (year days : Int) (h : ¬ days > 365) :
    yearUp time n (year, days) = (year, days) ∧ yearUpSteps time n (year, days) = 0 := by
  cases n with
  | zero => exact ⟨rfl, rfl⟩
  | succ n => simp only [yearUp, yearUpSteps, if_neg h, and_self]

theorem yearDown_succ (time : Int) (n : Nat) (year days : Int) (h : days < 0) :
    yearDown time (n + 1) (year, days)
      = yearDown time n (year - 1, time - (year - 1) * 365 - getLeapDays (year - 1)) ∧
    yearDownSteps time (n + 1) (year, days)
      = yearDownSteps time n (year - 1, time - (year - 1) * 365 - getLeapDays (year - 1)) + 1 := by
  simp only [yearDown, yearDownSteps, if_pos h, and_self]

theorem yearUp_succ (time : Int) (n : Nat) (year days : Int) (h : days > 365) :
    yearUp time (n + 1) (year, days)
      = yearUp time n (year + 1, time - (year + 1) * 365 - getLeapDays (year + 1)) ∧
    yearUpSteps time (n + 1) (year, days)
      = yearUpSteps time n (year + 1, time - (year + 1) * 365 - getLeapDays (year + 1)) + 1 := by
  simp only [yearUp, yearUpSteps, if_pos h, and_self]

/-- The two loops of the year refinement run at most one iteration together and
move the year by at most one, for the day counts of the years up to 9999. -/
theorem refineYear_steps (d : Int) (h0 : 0 ≤ d) (h1 : d ≤ 3652500) :
    refineYearSteps d ≤ 1 ∧ yearEstimate d - 1 ≤ (refineYear d).1 ∧
    (refineYear d).1 ≤ yearEstimate d + 1 := by
  obtain ⟨hy0, hd0, hd1⟩ := yearEstimate_days d h0 h1
  unfold refineYearSteps refineYear
  simp only
  generalize hy : yearEstimate d = y at hy0 hd0 hd1 ⊢
  generalize hdays : d - y * 365 - getLeapDays y = days at hd0 hd1 ⊢
  by_cases hneg : days < 0
  · obtain ⟨n, hn⟩ : ∃ n, (-days).toNat = n + 1 := ⟨(-days).toNat - 1, by omega⟩
    have hstep := getLeapDays_step (y - 1)
    rw [sub_add_cancel] at hstep
    have hd2 : ¬ (d - (y - 1) * 365 - getLeapDays (y - 1) < 0) := by omega
    have hd3 : ¬ (d - (y - 1) * 365 - getLeapDays (y - 1) > 365) := by omega
    obtain ⟨e1, e2⟩ := yearDown_succ d n y days hneg
    obtain ⟨e3, e4⟩ := yearDown_stop d n (y - 1) _ hd2
    rw [hn, e1, e2, e3, e4]
    obtain ⟨e5, e6⟩ := yearUp_stop d (d - (y - 1) * 365 - getLeapDays (y - 1)).toNat (y - 1) _ hd3
    rw [e5, e6]
    simp only
    omega
  · obtain ⟨e3, e4⟩ := yearDown_stop d (-days).toNat y days hneg
    rw [e3, e4]
    by_cases hbig : days > 365
    · obtain ⟨n, hn⟩ : ∃ n, days.toNat = n + 1 := ⟨days.toNat - 1, by omega⟩
      have hstep := getLeapDays_step y
      have hd3 : ¬ (d - (y + 1) * 365 - getLeapDays (y + 1) > 365) := by omega
      obtain ⟨e1, e2⟩ := yearUp_succ d n y days hbig
      obtain ⟨e5, e6⟩ := yearUp_stop d n (y + 1) _ hd3
      simp only
      rw [hn, e1, e2, e5, e6]
      simp only
      omega
    · obtain ⟨e5, e6⟩ := yearUp_stop d days.toNat y days hbig
      rw [e5, e6]
      simp only
      omega

/-- C20: for every counter `t` that is not negative and not above the counter
`hi` of 9999-12-31 23:59:59.999, with the day count `d` of `t`: the year at
which the two `while` loops of `STime(long long)` stop differs by at most one
from the first estimate `d/365 - getLeapDays(d/365)/365`, the two loops
together run at most one iteration, and on exit the day-of-year value lies in
0..365 (so the loops have stopped by their own conditions). -/
theorem C20_year_refinement (t hi : Int)
    (hhi : STime.get ⟨9999, 11, 31, 23, 59, 59, 999, true⟩ = some hi)
    (h0 : 0 ≤ t) (h1 : t ≤ hi) :
    yearEstimate (dayCount t)
      = Int.tdiv (dayCount t) 365 - Int.tdiv (getLeapDays (Int.tdiv (dayCount t) 365)) 365 ∧
    yearEstimate (dayCount t) - 1 ≤ (refineYear (dayCount t)).1 ∧
    (refineYear (dayCount t)).1 ≤ yearEstimate (dayCount t) + 1 ∧
    refineYearSteps (dayCount t) ≤ 1 ∧
    0 ≤ (refineYear (dayCount t)).2 ∧ (refineYear (dayCount t)).2 ≤ 365 := by
  rw [last_get] at hhi
  have e := Option.some.inj hhi
  have hd : dayCount t = t / 1000 / 86400 := by
    unfold dayCount
    rw [TIME_MULTIPLIER_eq, SECS_IN_DAY_eq, Int.tdiv_eq_ediv h0 (by decide),
      Int.tdiv_eq_ediv (by omega) (by decide)]
  have hd0 : 0 ≤ dayCount t := by rw [hd]; omega
  have hd1 : dayCount t ≤ 3652500 := by rw [hd]; omega
  obtain ⟨a, b, c⟩ := refineYear_steps (dayCount t) hd0 hd1
  obtain ⟨p, q, _⟩ := refineYear_spec (dayCount t)
  exact ⟨rfl, b, c, a, p, q⟩

theorem C20_year_refinement_witness :
    yearEstimate (dayCount 315569433599999)
      = Int.tdiv (dayCount 315569433599999) 365
        - Int.tdiv (getLeapDays (Int.tdiv (dayCount 315569433599999) 365)) 365 ∧
    yearEstimate (dayCount 315569433599999) - 1 ≤ (refineYear (dayCount 315569433599999)).1 ∧
    (refineYear (dayCount 315569433599999)).1 ≤ yearEstimate (dayCount 315569433599999) + 1 ∧
    refineYearSteps (dayCount 315569433599999) ≤ 1 ∧
    0 ≤ (refineYear (dayCount 315569433599999)).2 ∧
    (refineYear (dayCount 315569433599999)).2 ≤ 365 :=
  C20_year_refinement 315569433599999 315569433599999 (by decide) (by decide) (by decide)


/-! ## Broken-down time input: claim C15 -/

theorem wrap32_bounds (x : Int) : -2147483648 ≤ wrap32 x ∧ wrap32 x ≤ 2147483647 := by
  unfold wrap32; omega

/-- The counter of fields that are marked valid, with a month index within the
tables and members of the `int` range, is not `LLONG_MIN`. -/
theorem get_valid_ne_min (s : STime) (hv : s.valid = true) (hm0 : 0 ≤ s.month)
    (hm1 : s.month ≤ 11) (hs0 : -2147483648 ≤ s.second) (hs1 : s.second ≤ 2147483647)
    (hms0 : -2147483648 ≤ s.millisecond) (hms1 : s.millisecond ≤ 2147483647) :
    ∃ t, s.get = some t ∧ t ≠ LLONG_MIN := by
  have e2 : Int.tmod s.month MONTH_COUNT = s.month := by
    rw [MONTH_COUNT, Int.tmod_eq_emod hm0 (by decide)]; omega
  obtain ⟨v, hst⟩ : ∃ v, (if isLeap (wrap32 (s.year + Int.tdiv s.month MONTH_COUNT))
      then tableAt MONTH_STARTS_LEAP s.month else tableAt MONTH_STARTS s.month) = some v := by
    split_ifs
    · exact tableAt_defined MONTH_STARTS_LEAP (by decide) _ hm0 hm1
    · exact tableAt_defined MONTH_STARTS (by decide) _ hm0 hm1
  unfold STime.get
  simp only [hv, e2, hst, Bool.not_true, Bool.false_eq_true, if_false, SECS_IN_DAY_eq,
    TIME_MULTIPLIER_eq]
  refine ⟨_, rfl, ?_⟩
  obtain ⟨a0, a1⟩ := wrap32_bounds (wrap32 (s.year + Int.tdiv s.month MONTH_COUNT) * 365
    + getLeapDays (wrap32 (s.year + Int.tdiv s.month MONTH_COUNT)) + v + s.day - 1)
  obtain ⟨b0, b1⟩ := wrap32_bounds (s.hour * SECS_IN_HOUR)
  obtain ⟨c0, c1⟩ := wrap32_bounds (s.minute * SECS_IN_MINUTE)
  generalize wrap32 (wrap32 (s.year + Int.tdiv s.month MONTH_COUNT) * 365
    + getLeapDays (wrap32 (s.year + Int.tdiv s.month MONTH_COUNT)) + v + s.day - 1) = A
    at a0 a1 ⊢
  generalize wrap32 (s.hour * SECS_IN_HOUR) = B at b0 b1 ⊢
  generalize wrap32 (s.minute * SECS_IN_MINUTE) = C at c0 c1 ⊢
  rw [wrap64_eq (A * 86400) (by omega) (by omega),
    wrap64_eq (A * 86400 + B) (by omega) (by omega),
    wrap64_eq (A * 86400 + B + C) (by omega) (by omega),
    wrap64_eq (A * 86400 + B + C + s.second) (by omega) (by omega),
    wrap64_eq ((A * 86400 + B + C + s.second) * 1000) (by omega) (by omega),
    wrap64_eq _ (by omega) (by omega), LLONG_MIN]
  omega

/-- C15: the code on `struct tm` input. For every input with `tm_year >= 0` (year
1900 or later), month 0..11 and non-negative hour, minute and second of the
`int` range, the constructed value is valid if and only if
`1 <= day <= MONTH_LENGTHS[month]`, the length of the month in a year that is
not leap, whatever the year is: 29 February 2000 is rejected although 2000 is
a leap year, as 29 February 1900 is, and 28 February 2000 is accepted. The
null pointer gives the invalid value. -/
theorem C15_tm_validation (time : Tm) (hy0 : 0 ≤ time.tm_year)
    (hy1 : time.tm_year ≤ 2147481747) (hm0 : 0 ≤ time.tm_mon) (hm1 : time.tm_mon ≤ 11)
    (hh0 : 0 ≤ time.tm_hour) (hmi0 : 0 ≤ time.tm_min)
    (hs0 : 0 ≤ time.tm_sec) (hs1 : time.tm_sec ≤ 2147483647) :
    (∃ len d, tableAt MONTH_LENGTHS time.tm_mon = some len ∧
      DateTime.set_tm (some time) = some d ∧
      (d.isValid = true ↔ 1 ≤ time.tm_mday ∧ time.tm_mday ≤ len)) ∧
    isLeap 2000 = true ∧
    (DateTime.set_tm (some ⟨0, 0, 0, 29, 1, 100⟩)).map DateTime.isValid = some false ∧
    (DateTime.set_tm (some ⟨0, 0, 0, 28, 1, 100⟩)).map DateTime.isValid = some true ∧
    (DateTime.set_tm (some ⟨0, 0, 0, 29, 1, 0⟩)).map DateTime.isValid = some false ∧
    (DateTime.set_tm none).map DateTime.isValid = some false := by
  refine ⟨?_, by decide, by decide, by decide, by decide, by decide⟩
  obtain ⟨len, hlen⟩ := tableAt_defined MONTH_LENGTHS (by decide) _ hm0 hm1
  have hy : wrap32 (time.tm_year + 1900) = time.tm_year + 1900 :=
    wrap32_eq _ (by omega) (by omega)
  have hinv : ∀ s : STime, s.valid = false →
      (s.get.map DateTime.mk) = some ⟨LLONG_MIN⟩ := by
    intro s hs
    unfold STime.get
    simp only [hs, Bool.not_false, if_true, Option.map_some']
  have hmin : (DateTime.mk LLONG_MIN).isValid = false := by decide
  by_cases hday : time.tm_mday > 0
  · by_cases hlen2 : time.tm_mday ≤ len
    · obtain ⟨t, ht, hne⟩ := get_valid_ne_min
        { year := time.tm_year + 1900, month := time.tm_mon, day := time.tm_mday,
          hour := time.tm_hour, minute := time.tm_min, second := time.tm_sec,
          millisecond := 0, valid := true } rfl hm0 hm1 (by simp only; omega) hs1
        (by simp) (by simp)
      refine ⟨len, ⟨t⟩, hlen, ?_, ?_⟩
      · unfold DateTime.set_tm STime.ofTm
        simp only [TM_START_YEAR, hy, hlen, hday, hlen2, hh0, hmi0, hs0, ge_iff_le,
          decide_True, Bool.and_self, if_true, Option.some_bind, ht, Option.map_some',
          show (1900 : Int) ≤ time.tm_year + 1900 from by omega]
      · constructor
        · intro _; exact ⟨by omega, hlen2⟩
        · intro _
          unfold DateTime.isValid
          simp only [bne_iff_ne, ne_eq]
          exact hne
    · refine ⟨len, ⟨LLONG_MIN⟩, hlen, ?_, ?_⟩
      · unfold DateTime.set_tm STime.ofTm
        simp only [TM_START_YEAR, hy, hlen, hday, hlen2, ge_iff_le, decide_True,
          decide_False, Bool.and_self, Bool.false_and, if_true, Option.some_bind,
          show (1900 : Int) ≤ time.tm_year + 1900 from by omega]
        exact hinv _ rfl
      · rw [hmin]
        constructor
        · intro h; exact absurd h (by decide)
        · intro h; exact absurd h.2 hlen2
  · refine ⟨len, ⟨LLONG_MIN⟩, hlen, ?_, ?_⟩
    · unfold DateTime.set_tm STime.ofTm
      simp only [TM_START_YEAR, hy, hday, ge_iff_le, decide_True, decide_False,
        Bool.and_false, Bool.false_eq_true, if_false, Option.some_bind,
        show (1900 : Int) ≤ time.tm_year + 1900 from by omega]
      exact hinv _ rfl
    · rw [hmin]
      constructor
      · intro h; exact absurd h (by decide)
      · intro h; omega

theorem C15_tm_validation_witness :
    (∃ len d, tableAt MONTH_LENGTHS (Tm.mk 0 0 0 29 1 100).tm_mon = some len ∧
      DateTime.set_tm (some (Tm.mk 0 0 0 29 1 100)) = some d ∧
      (d.isValid = true ↔ 1 ≤ (Tm.mk 0 0 0 29 1 100).tm_mday ∧
        (Tm.mk 0 0 0 29 1 100).tm_mday ≤ len)) ∧
    isLeap 2000 = true ∧
    (DateTime.set_tm (some ⟨0, 0, 0, 29, 1, 100⟩)).map DateTime.isValid = some false ∧
    (DateTime.set_tm (some ⟨0, 0, 0, 28, 1, 100⟩)).map DateTime.isValid = some true ∧
    (DateTime.set_tm (some ⟨0, 0, 0, 29, 1, 0⟩)).map DateTime.isValid = some false ∧
    (DateTime.set_tm none).map DateTime.isValid = some false :=
  C15_tm_validation ⟨0, 0, 0, 29, 1, 100⟩ (by decide) (by decide) (by decide) (by decide)
    (by decide) (by decide) (by decide) (by decide)


/-! ## Stepping by one day: claim C17 -/

set_option maxHeartbeats 1000000 in
theorem month_start_succ_common (m v len v' len' : Int) (h0 : 0 ≤ m) (h1 : m ≤ 10)
    (hv : tableAt MONTH_STARTS m = some v) (hl : tableAt MONTH_LENGTHS m = some len)
    (hv' : tableAt MONTH_STARTS (m + 1) = some v')
    (hl' : tableAt MONTH_LENGTHS (m + 1) = some len') : v' = v + len ∧ 1 ≤ len' := by
  have c := starts_common_cases m v len h0 (by omega) hv hl
  have c' := starts_common_cases (m + 1) v' len' (by omega) (by omega) hv' hl'
  rcases c with c | c | c | c | c | c | c | c | c | c | c | c <;> omega

set_option maxHeartbeats 1000000 in
theorem month_start_succ_leap (m v len v' len' : Int) (h0 : 0 ≤ m) (h1 : m ≤ 10)
    (hv : tableAt MONTH_STARTS_LEAP m = some v) (hl : tableAt MONTH_LENGTHS_LEAP m = some len)
    (hv' : tableAt MONTH_STARTS_LEAP (m + 1) = some v')
    (hl' : tableAt MONTH_LENGTHS_LEAP (m + 1) = some len') : v' = v + len ∧ 1 ≤ len' := by
  have c := starts_leap_cases m v len h0 (by omega) hv hl
  have c' := starts_leap_cases (m + 1) v' len' (by omega) (by omega) hv' hl'
  rcases c with c | c | c | c | c | c | c | c | c | c | c | c <;> omega

/-- The start and the length of a month of a year, read from the tables. -/
theorem month_tables (year m : Int) (h0 : 0 ≤ m) (h1 : m ≤ 11) :
    ∃ v len, (if isLeap year then tableAt MONTH_STARTS_LEAP m else tableAt MONTH_STARTS m)
        = some v ∧ monthLength year m = some len ∧
      (m = 0 → v = (if isLeap year then -1 else 0) ∧ len = 31) ∧
      (m = 11 → v = 334 ∧ len = 31) ∧ 1 ≤ len := by
  unfold monthLength
  by_cases hleap : isLeap year = true
  · simp only [if_pos hleap]
    obtain ⟨len, hlen⟩ := tableAt_defined MONTH_LENGTHS_LEAP (by decide) m h0 h1
    obtain ⟨v, hst⟩ := tableAt_defined MONTH_STARTS_LEAP (by decide) m h0 h1
    have c := starts_leap_cases m v len h0 h1 hst hlen
    exact ⟨v, len, hst, hlen, by omega, by omega, by omega⟩
  · simp only [if_neg hleap]
    obtain ⟨len, hlen⟩ := tableAt_defined MONTH_LENGTHS (by decide) m h0 h1
    obtain ⟨v, hst⟩ := tableAt_defined MONTH_STARTS (by decide) m h0 h1
    have c := starts_common_cases m v len h0 h1 hst hlen
    exact ⟨v, len, hst, hlen, by omega, by omega, by omega⟩

/-- The month that follows starts where the month ends. -/
theorem month_tables_succ (year m v len v' : Int) (h0 : 0 ≤ m) (h1 : m ≤ 10)
    (hv : (if isLeap year then tableAt MONTH_STARTS_LEAP m else tableAt MONTH_STARTS m)
      = some v)
    (hl : monthLength year m = some len)
    (hv' : (if isLeap year then tableAt MONTH_STARTS_LEAP (m + 1)
      else tableAt MONTH_STARTS (m + 1)) = some v') : v' = v + len := by
  unfold monthLength at hl
  by_cases hleap : isLeap year = true
  · simp only [if_pos hleap] at hv hl hv'
    obtain ⟨len', hlen'⟩ := tableAt_defined MONTH_LENGTHS_LEAP (by decide) (m + 1)
      (by omega) (by omega)
    exact (month_start_succ_leap m v len v' len' h0 h1 hv hl hv' hlen').1
  · simp only [if_neg hleap] at hv hl hv'
    obtain ⟨len', hlen'⟩ := tableAt_defined MONTH_LENGTHS (by decide) (m + 1)
      (by omega) (by omega)
    exact (month_start_succ_common m v len v' len' h0 h1 hv hl hv' hlen').1

/-- The calendar day that follows has the counter that is larger by one day. -/
theorem nextDay_get (s : STime) (hs : s.isCalendar)
    (hlast : ¬ (s.year = 9999 ∧ s.month = 11 ∧ s.day = 31)) (t : Int) (ht : s.get = some t) :
    ∃ s1, nextDay s = some s1 ∧ s1.isCalendar ∧ s1.get = some (t + 86400000) ∧
      s1.hour = s.hour ∧ s1.minute = s.minute ∧ s1.second = s.second ∧
      s1.millisecond = s.millisecond := by
  have hs2 := hs
  obtain ⟨hv, hy0, hy1, hm0, hm1, hd0, ⟨len, hlen, hd1⟩, hrest⟩ := hs2
  obtain ⟨v, hst, _, _, _, _, hg⟩ := get_dayIndex s hs
  rw [hg] at ht
  have et := Option.some.inj ht
  obtain ⟨v0, len0, hst0, hlen0, hjan, hdec, _⟩ := month_tables s.year s.month hm0 hm1
  rw [hst] at hst0
  rw [hlen] at hlen0
  have ev := Option.some.inj hst0
  have el := Option.some.inj hlen0
  subst ev
  subst el
  have hnd : nextDay s = some (if s.day < len then { s with day := s.day + 1 }
      else if s.month < 11 then { s with month := s.month + 1, day := 1 }
      else { s with year := s.year + 1, month := 0, day := 1 }) := by
    simp only [nextDay, hlen, Option.map_some']
  rw [hnd]
  by_cases h1 : s.day < len
  · rw [if_pos h1]
    have hcal : STime.isCalendar { s with day := s.day + 1 } :=
      ⟨hv, hy0, hy1, hm0, hm1, by simp only; omega, ⟨len, hlen, by simp only; omega⟩, hrest⟩
    obtain ⟨v1, hst1, _, _, _, _, hg1⟩ := get_dayIndex _ hcal
    simp only at hst1 hg1
    rw [hst] at hst1
    have ev := Option.some.inj hst1
    refine ⟨_, rfl, hcal, ?_, rfl, rfl, rfl, rfl⟩
    rw [hg1, ← et, ← ev]
    congr 1
    have e : timeOfDay { s with day := s.day + 1 } = timeOfDay s := rfl
    rw [e]
    ring
  · rw [if_neg h1]
    have hdl : s.day = len := by omega
    by_cases h2 : s.month < 11
    · rw [if_pos h2]
      obtain ⟨v1, len1, hst1, hlen1, _, _, hl1⟩ :=
        month_tables s.year (s.month + 1) (by omega) (by omega)
      have hsucc := month_tables_succ s.year s.month v len v1 hm0 (by omega) hst hlen hst1
      have hcal : STime.isCalendar { s with month := s.month + 1, day := 1 } :=
        ⟨hv, hy0, hy1, by simp only; omega, by simp only; omega, le_refl _,
          ⟨len1, hlen1, hl1⟩, hrest⟩
      obtain ⟨v2, hst2, _, _, _, _, hg2⟩ := get_dayIndex _ hcal
      simp only at hst2 hg2
      rw [hst1] at hst2
      have ev := Option.some.inj hst2
      refine ⟨_, rfl, hcal, ?_, rfl, rfl, rfl, rfl⟩
      rw [hg2, ← et, ← ev, hsucc, hdl]
      congr 1
      have e : timeOfDay { s with month := s.month + 1, day := 1 } = timeOfDay s := rfl
      rw [e]
      ring
    · rw [if_neg h2]
      have hm11 : s.month = 11 := by omega
      obtain ⟨hv11, hl11⟩ := hdec hm11
      obtain ⟨v1, len1, hst1, hlen1, hjan1, _, hl1⟩ :=
        month_tables (s.year + 1) 0 (le_refl _) (by decide)
      obtain ⟨hv1, hl31⟩ := hjan1 rfl
      have hcal : STime.isCalendar { s with year := s.year + 1, month := 0, day := 1 } :=
        ⟨hv, by simp only; omega, by simp only; omega, le_refl _, by simp, le_refl _,
          ⟨len1, hlen1, hl1⟩, hrest⟩
      obtain ⟨v2, hst2, _, _, _, _, hg2⟩ := get_dayIndex _ hcal
      simp only at hst2 hg2
      rw [hst1] at hst2
      have ev := Option.some.inj hst2
      have hstep := isLeap_step s.year (by omega)
      refine ⟨_, rfl, hcal, ?_, rfl, rfl, rfl, rfl⟩
      rw [hg2, ← et, ← ev]
      congr 1
      have e : timeOfDay { s with year := s.year + 1, month := 0, day := 1 } = timeOfDay s :=
        rfl
      rw [e]
      have hD : (s.year + 1) * 365 + getLeapDays (s.year + 1) + v1 + 1 - 1
          = s.year * 365 + getLeapDays s.year + v + s.day - 1 + 1 := by
        split_ifs at hv1 hstep <;> omega
      rw [hD]
      ring

/-- The counters of the values that the loop of `testDays` writes. -/
theorem testDays_counter (i : Nat) (hi : i ≤ 73000) :
    ((fun t : DateTime => t.incDay 1)^[i] (DateTime.set_time_t 1900)).m_time
      = 62167134700000 + (i : Int) * 86400000 := by
  induction i with
  | zero => decide
  | succ n ih =>
    have ih2 := ih (by omega)
    rw [Function.iterate_succ_apply']
    have hr : ((fun t : DateTime => t.incDay 1)^[n] (DateTime.set_time_t 1900)).inRange := by
      rw [inRange_iff, ih2]
      constructor <;> omega
    rw [incDay_m_time _ hr 1 (by decide) (by decide), ih2]
    push_cast
    ring

/-- C17: for every value `x` of the supported range whose date, the fields `s`,
is before 9999-12-31, the fields of `incDay(x,1)` are the calendar day that
follows: day + 1 in the same month when the day is below the leap-adjusted
month length, otherwise day 1 of the next month, otherwise 1 January of the
next year, with the time of day unchanged, and `formatDate` shows these
dates. The value built from timestamp 1900, where the test starts, shows
`1970-01-01`, and each of the 73,000 values that the test writes lies in the
supported range. -/
theorem C17_incDay_walks (x : DateTime) (hx : x.inRange) (s : STime)
    (hs : STime.ofLongLong x.m_time = some s)
    (hlast : ¬ (s.year = 9999 ∧ s.month = 11 ∧ s.day = 31)) :
    ∃ s1, nextDay s = some s1 ∧ STime.ofLongLong (x.incDay 1).m_time = some s1 ∧
      x.formatDate = some s.formatDate ∧ (x.incDay 1).formatDate = some s1.formatDate ∧
      s1.hour = s.hour ∧ s1.minute = s.minute ∧ s1.second = s.second ∧
      s1.millisecond = s.millisecond ∧
      (DateTime.set_time_t 1900).formatDate = some "1970-01-01" ∧
      ∀ i ∈ List.range 73000,
        ((fun t : DateTime => t.incDay 1)^[i] (DateTime.set_time_t 1900)).inRange := by
  obtain ⟨s0, h0, hc, hg⟩ := fields_of_inRange x hx
  rw [hs] at h0
  have e0 := Option.some.inj h0
  subst e0
  obtain ⟨s1, hn, hcal, hg1, a1, a2, a3, a4⟩ := nextDay_get s hc hlast _ hg
  obtain ⟨t1, ht1, ho1⟩ := ofLongLong_get s1 hcal
  rw [hg1] at ht1
  have e1 := Option.some.inj ht1
  have hm : (x.incDay 1).m_time = x.m_time + 86400000 := by
    rw [incDay_m_time x hx 1 (by decide) (by decide)]
    ring
  have hr1 : (x.incDay 1).inRange := ⟨s1, hcal, by rw [hm]; exact hg1⟩
  refine ⟨s1, hn, ?_, ?_, ?_, a1, a2, a3, a4, by decide, ?_⟩
  · rw [hm, e1]; exact ho1
  · unfold DateTime.formatDate
    rw [inRange_beq_min x hx, hs]
    rfl
  · unfold DateTime.formatDate
    rw [inRange_beq_min _ hr1, hm, e1, ho1]
    rfl
  · intro i hi
    have hi2 : i < 73000 := List.mem_range.1 hi
    rw [inRange_iff, testDays_counter i (by omega)]
    constructor <;> omega

theorem C17_incDay_walks_witness :
    ∃ s1, nextDay ⟨2023, 11, 31, 12, 30, 0, 0, true⟩ = some s1 ∧
      STime.ofLongLong ((DateTime.mk 63871158600000).incDay 1).m_time = some s1 ∧
      (DateTime.mk 63871158600000).formatDate
        = some (STime.formatDate ⟨2023, 11, 31, 12, 30, 0, 0, true⟩) ∧
      ((DateTime.mk 63871158600000).incDay 1).formatDate = some s1.formatDate ∧
      s1.hour = 12 ∧ s1.minute = 30 ∧ s1.second = 0 ∧ s1.millisecond = 0 ∧
      (DateTime.set_time_t 1900).formatDate = some "1970-01-01" ∧
      ∀ i ∈ List.range 73000,
        ((fun t : DateTime => t.incDay 1)^[i] (DateTime.set_time_t 1900)).inRange :=
  C17_incDay_walks ⟨63871158600000⟩ ((inRange_iff _).2 ⟨by decide, by decide⟩)
    ⟨2023, 11, 31, 12, 30, 0, 0, true⟩ (by decide) (by decide)

end DT
